import Mathlib

/-!
# PIOS servo output driver (`flight/pios/common/pios_servo.c`)

A shallow embedding of the bank-multiplexed pulse output driver, STM32F4 build
(`STM32F40_41xxx` branch of the preprocessor conditionals), and the properties
of it that the design document states.

Conventions of the embedding

* a `TIM_TypeDef *` is the peripheral's base address, a `Nat`; `0` is `NULL`;
* the static arrays of `PIOS_SERVO_BANKS` elements are functions `Nat → Nat`,
  only ever accessed below `PIOS_SERVO_BANKS`;
* `pios_servo_pin_bank` (a `pios_malloc`ed byte array) is a function
  `Nat → Option Nat`; `none` is a byte that was never written;
* `PIOS_Assert`, a `NULL` dereference, a read of an unwritten or out-of-range
  array element and a division by zero are faults (`Except Fault`);
* `num_channels` is a `uint8_t` in `struct pios_servo_cfg`, so a configuration
  has fewer than 256 channels and the `uint8_t` loop counters never wrap;
* constants of headers that are not part of the sources read here
  (`PIOS_SERVO_BANKS`, the bank mode enumerators, the timer base addresses and
  the peripheral clocks) are fields of `Board`.
-/

namespace PiosServo

/-! ## Faults -/

/-- Ways in which a driver call can fail to return. -/
inductive Fault where
  /-- `PIOS_Assert(cond)` with `cond` false -/
  | assert_failed
  /-- `servo_cfg->...` with `servo_cfg == NULL` -/
  | null_deref
  /-- read of a never written element of `pios_servo_pin_bank`, or an index
      outside a `PIOS_SERVO_BANKS`-sized array -/
  | bad_read
  /-- integer division by zero -/
  | div_by_zero
  deriving DecidableEq

/-! ## Board constants -/

/-- Constants that come from board and library headers. -/
structure Board where
  /-- `PIOS_SERVO_BANKS`: size of the per-bank arrays -/
  PIOS_SERVO_BANKS : Nat
  /-- `PIOS_SERVO_BANK_MODE_NONE` -/
  PIOS_SERVO_BANK_MODE_NONE : Nat
  /-- `PIOS_SERVO_BANK_MODE_SINGLE_PULSE` -/
  PIOS_SERVO_BANK_MODE_SINGLE_PULSE : Nat
  /-- base addresses of the timers on the APB2 bus -/
  TIM1 : Nat
  TIM8 : Nat
  TIM9 : Nat
  TIM10 : Nat
  TIM11 : Nat
  /-- `PIOS_PERIPHERAL_APB1_CLOCK` -/
  PIOS_PERIPHERAL_APB1_CLOCK : Nat
  /-- `PIOS_PERIPHERAL_APB2_CLOCK` -/
  PIOS_PERIPHERAL_APB2_CLOCK : Nat

/-- `#define PIOS_SERVO_TIMER_CLOCK 1000000` -/
def PIOS_SERVO_TIMER_CLOCK : Nat := 1000000

/-- `#define PIOS_SERVO_SAFE_MARGIN 50` -/
def PIOS_SERVO_SAFE_MARGIN : Nat := 50

/-! ## Hardware: timers and pins -/

/-- The value of `pios_tim_channel.timer_chan` as the `switch` statements of the
driver see it: one of the four `case` labels, or a value that matches no label
(the switches have no `default`). -/
inductive TimChannel where
  | TIM_Channel_1
  | TIM_Channel_2
  | TIM_Channel_3
  | TIM_Channel_4
  | unmatched
  deriving DecidableEq

/-- `GPIOMode_TypeDef` of the STM32F4 library. -/
inductive GPIOMode_TypeDef where
  | GPIO_Mode_IN
  | GPIO_Mode_OUT
  | GPIO_Mode_AF
  | GPIO_Mode_AN
  deriving DecidableEq

/-- The registers of one timer that the driver reads or writes. -/
structure TIM_TypeDef where
  /-- the live counter, as `TIM_GetCounter` samples it -/
  CNT : Nat
  /-- auto-reload register: the period -/
  ARR : Nat
  /-- prescaler -/
  PSC : Nat
  CCR1 : Nat
  CCR2 : Nat
  CCR3 : Nat
  CCR4 : Nat
  /-- `CR1.CEN`: the counter runs -/
  CEN : Bool
  /-- `CR1.OPM`: `true` is single one-pulse mode, `false` is repetitive -/
  OPM : Bool
  /-- `CR1.ARPE` -/
  ARPE : Bool
  /-- `BDTR.MOE` -/
  MOE : Bool
  /-- number of update events requested by software through `EGR` -/
  UG : Nat
  /-- output compare preload enable, one flag per channel 1..4 -/
  OCPE : TimChannel → Bool

/-- State of one pin. -/
structure PinState where
  mode : GPIOMode_TypeDef
  /-- output data bit -/
  odr : Bool
  /-- selected alternate function -/
  af : Nat

/-- The peripherals. -/
structure Hardware where
  tim : Nat → TIM_TypeDef
  pin : Nat → PinState

/-- Read-modify-write of the registers of timer `t`. -/
def Hardware.modify_tim (hw : Hardware) (t : Nat) (f : TIM_TypeDef → TIM_TypeDef) : Hardware :=
  { hw with tim := Function.update hw.tim t (f (hw.tim t)) }

/-- Read-modify-write of the state of pin `p`. -/
def Hardware.modify_pin (hw : Hardware) (p : Nat) (f : PinState → PinState) : Hardware :=
  { hw with pin := Function.update hw.pin p (f (hw.pin p)) }

/-- `TIM_Cmd(TIMx, ENABLE|DISABLE)`: sets or clears `CR1.CEN`. -/
def TIM_Cmd (hw : Hardware) (t : Nat) (en : Bool) : Hardware :=
  hw.modify_tim t (fun r => { r with CEN := en })

/-- `TIM_OPMode_Repetitive`: the value of `CR1.OPM` for repetitive mode. -/
def TIM_OPMode_Repetitive : Bool := false

/-- `TIM_SelectOnePulseMode(TIMx, mode)`: writes `CR1.OPM`. -/
def TIM_SelectOnePulseMode (hw : Hardware) (t : Nat) (opm : Bool) : Hardware :=
  hw.modify_tim t (fun r => { r with OPM := opm })

/-- `TIM_ARRPreloadConfig(TIMx, state)`: writes `CR1.ARPE`. -/
def TIM_ARRPreloadConfig (hw : Hardware) (t : Nat) (en : Bool) : Hardware :=
  hw.modify_tim t (fun r => { r with ARPE := en })

/-- `TIM_CtrlPWMOutputs(TIMx, state)`: writes `BDTR.MOE`. -/
def TIM_CtrlPWMOutputs (hw : Hardware) (t : Nat) (en : Bool) : Hardware :=
  hw.modify_tim t (fun r => { r with MOE := en })

/-- `TIM_GenerateEvent(TIMx, TIM_EventSource_Update)`: writes the `UG` bit of
`EGR`; the request is counted. -/
def TIM_GenerateEvent (hw : Hardware) (t : Nat) : Hardware :=
  hw.modify_tim t (fun r => { r with UG := r.UG + 1 })

/-- `TIM_GetCounter(TIMx)`. -/
def TIM_GetCounter (hw : Hardware) (t : Nat) : Nat :=
  (hw.tim t).CNT

/-- The `switch (chan->timer_chan)` over `TIM_SetCompare1` .. `TIM_SetCompare4`:
writes `CCRn` of the timer; no register is written when no label matches. -/
def TIM_SetCompare (hw : Hardware) (t : Nat) (tc : TimChannel) (val : Nat) : Hardware :=
  match tc with
  | .TIM_Channel_1 => hw.modify_tim t (fun r => { r with CCR1 := val })
  | .TIM_Channel_2 => hw.modify_tim t (fun r => { r with CCR2 := val })
  | .TIM_Channel_3 => hw.modify_tim t (fun r => { r with CCR3 := val })
  | .TIM_Channel_4 => hw.modify_tim t (fun r => { r with CCR4 := val })
  | .unmatched => hw

/-- The compare register `CCRn` that belongs to compare unit `tc` of timer `t`;
`none` when `tc` names no compare unit. -/
def TIM_GetCompare (hw : Hardware) (t : Nat) (tc : TimChannel) : Option Nat :=
  match tc with
  | .TIM_Channel_1 => some (hw.tim t).CCR1
  | .TIM_Channel_2 => some (hw.tim t).CCR2
  | .TIM_Channel_3 => some (hw.tim t).CCR3
  | .TIM_Channel_4 => some (hw.tim t).CCR4
  | .unmatched => none

/-- The `switch (chan->timer_chan)` over `TIM_OCnInit` followed by
`TIM_OCnPreloadConfig(.., TIM_OCPreload_Enable)`: the library loads `CCRn` with
the `TIM_Pulse` of the template and sets the preload enable of the unit. -/
def TIM_OCInit_Preload (hw : Hardware) (t : Nat) (tc : TimChannel) (pulse : Nat) : Hardware :=
  match tc with
  | .unmatched => hw
  | _ => (TIM_SetCompare hw t tc pulse).modify_tim t
           (fun r => { r with OCPE := Function.update r.OCPE tc true })

/-- `TIM_TimeBaseInit(TIMx, &init)` as far as the driver sets `init`: loads the
prescaler and the period and requests an update event to latch the prescaler. -/
def TIM_TimeBaseInit (hw : Hardware) (t : Nat) (prescaler period : Nat) : Hardware :=
  hw.modify_tim t (fun r => { r with PSC := prescaler, ARR := period, UG := r.UG + 1 })

/-- `GPIO_Init(port, &init)` for one pin: sets the pin mode. -/
def GPIO_Init (hw : Hardware) (p : Nat) (mode : GPIOMode_TypeDef) : Hardware :=
  hw.modify_pin p (fun q => { q with mode := mode })

/-- `GPIO_ResetBits(port, pin)`: clears the output data bit. -/
def GPIO_ResetBits (hw : Hardware) (p : Nat) : Hardware :=
  hw.modify_pin p (fun q => { q with odr := false })

/-- `GPIO_PinAFConfig(port, pin_source, af)`: selects the alternate function. -/
def GPIO_PinAFConfig (hw : Hardware) (p : Nat) (af : Nat) : Hardware :=
  hw.modify_pin p (fun q => { q with af := af })

/-! ## Configuration and driver state -/

/-- `struct pios_tim_channel`, the fields the driver uses. -/
structure pios_tim_channel where
  /-- `TIM_TypeDef *timer` -/
  timer : Nat
  /-- `timer_chan` -/
  timer_chan : TimChannel
  /-- `pin.gpio` and `pin.init.GPIO_Pin`: identity of the pin -/
  pin : Nat
  /-- `pin.init.GPIO_Mode` -/
  pin_mode : GPIOMode_TypeDef
  /-- `remap` -/
  remap : Nat
  deriving DecidableEq

instance : Inhabited pios_tim_channel :=
  ⟨⟨0, .unmatched, 0, .GPIO_Mode_IN, 0⟩⟩

/-- `struct pios_servo_cfg`; `num_channels` is the length of `channels`. -/
structure pios_servo_cfg where
  /-- `tim_oc_init.TIM_Pulse` -/
  tim_oc_init_pulse : Nat
  channels : List pios_tim_channel
  deriving DecidableEq

/-- `cfg->num_channels`. -/
def pios_servo_cfg.num_channels (cfg : pios_servo_cfg) : Nat :=
  cfg.channels.length

/-- `cfg->channels[i]`. -/
def pios_servo_cfg.chan (cfg : pios_servo_cfg) (i : Nat) : pios_tim_channel :=
  cfg.channels.getD i default

/-- The timers of the channels, in declaration order. -/
def pios_servo_cfg.timers (cfg : pios_servo_cfg) : List Nat :=
  cfg.channels.map (fun ch => ch.timer)

/-- The module's static variables together with the peripherals. -/
structure ServoDriver where
  servo_cfg : Option pios_servo_cfg
  pios_servo_bank_mode : Nat → Nat
  pios_servo_bank_next_update : Nat → Nat
  pios_servo_bank_max_pulse : Nat → Nat
  pios_servo_bank_timer : Nat → Nat
  pios_servo_pin_bank : Nat → Option Nat
  pios_servo_enabled : Bool
  hw : Hardware

/-- The static initialisers: no configuration, zeroed bank arrays, no
channel-to-bank array, `pios_servo_enabled = true`. -/
def ServoDriver.startup (hw : Hardware) : ServoDriver :=
  { servo_cfg := none
    pios_servo_bank_mode := fun _ => 0
    pios_servo_bank_next_update := fun _ => 0
    pios_servo_bank_max_pulse := fun _ => 0
    pios_servo_bank_timer := fun _ => 0
    pios_servo_pin_bank := fun _ => none
    pios_servo_enabled := true
    hw := hw }

/-! ## The driver -/

/-- Body of the channel loop of `PIOS_Servo_Disable`. -/
def disable_channel (s : ServoDriver) (chan : pios_tim_channel) : ServoDriver :=
  { s with hw := GPIO_ResetBits (GPIO_Init s.hw chan.pin .GPIO_Mode_OUT) chan.pin }

/-- `PIOS_Servo_Disable`. -/
def PIOS_Servo_Disable (s : ServoDriver) : ServoDriver :=
  match s.servo_cfg with
  | none => s
  | some cfg =>
    cfg.channels.foldl disable_channel { s with pios_servo_enabled := false }

/-- Body of the channel loop of `PIOS_Servo_Enable`. -/
def enable_channel (cfg : pios_servo_cfg) (s : ServoDriver) (chan : pios_tim_channel) :
    ServoDriver :=
  let hw1 := GPIO_Init s.hw chan.pin chan.pin_mode
  let hw2 := GPIO_PinAFConfig hw1 chan.pin chan.remap
  { s with hw := TIM_OCInit_Preload hw2 chan.timer chan.timer_chan cfg.tim_oc_init_pulse }

/-- Body of the bank loop of `PIOS_Servo_Enable`. -/
def enable_bank (P : Board) (s : ServoDriver) (i : Nat) : ServoDriver :=
  let timer := s.pios_servo_bank_timer i
  if timer ≠ 0 ∧ s.pios_servo_bank_mode i ≠ P.PIOS_SERVO_BANK_MODE_NONE then
    { s with hw := TIM_Cmd (TIM_SelectOnePulseMode s.hw timer TIM_OPMode_Repetitive) timer true }
  else s

/-- `PIOS_Servo_Enable`. -/
def PIOS_Servo_Enable (P : Board) (s : ServoDriver) : ServoDriver :=
  match s.servo_cfg with
  | none => s
  | some cfg =>
    let s1 := cfg.channels.foldl (enable_channel cfg) s
    let s2 := (List.range P.PIOS_SERVO_BANKS).foldl (enable_bank P) s1
    { s2 with pios_servo_enabled := true }

/-- The loop `for (j = 0; (j < i) && new; j++) new &= chan->timer != channels[j].timer`
of `PIOS_Servo_Init`. -/
def init_is_new (cfg : pios_servo_cfg) (i : Nat) : Bool :=
  (List.range i).foldl
    (fun nw j => nw && decide ((cfg.chan i).timer ≠ (cfg.chan j).timer)) true

/-- The loop `for (j = i; j < num_channels; j++) if (channels[j].timer == chan->timer)
pios_servo_pin_bank[j] = bank` of `PIOS_Servo_Init`. -/
def init_assign (cfg : pios_servo_cfg) (i bank : Nat) (pb : Nat → Option Nat) :
    Nat → Option Nat :=
  (List.range' i (cfg.num_channels - i)).foldl
    (fun m j => if (cfg.chan j).timer = (cfg.chan i).timer then Function.update m j (some bank) else m)
    pb

/-- Body of the channel loop of `PIOS_Servo_Init`; the second component of the
loop state is the local variable `bank`. -/
def init_channel (P : Board) (cfg : pios_servo_cfg) (st : ServoDriver × Nat) (i : Nat) :
    Except Fault (ServoDriver × Nat) :=
  let s := st.1
  let bank := st.2
  let chan := cfg.chan i
  if init_is_new cfg i then
    if ¬ bank < P.PIOS_SERVO_BANKS then .error .assert_failed
    else
      let hw1 := TIM_ARRPreloadConfig s.hw chan.timer true
      let hw2 := TIM_CtrlPWMOutputs hw1 chan.timer true
      let hw3 := TIM_Cmd hw2 chan.timer false
      .ok ({ s with
              pios_servo_pin_bank := init_assign cfg i bank s.pios_servo_pin_bank
              pios_servo_bank_timer := Function.update s.pios_servo_bank_timer bank chan.timer
              hw := hw3 }, bank + 1)
  else .ok st

/-- The channel loop of `PIOS_Servo_Init`, run for the channels below `k`. -/
def init_loop (P : Board) (cfg : pios_servo_cfg) (k : Nat) (st : ServoDriver × Nat) :
    Except Fault (ServoDriver × Nat) :=
  (List.range k).foldlM (init_channel P cfg) st

/-- `PIOS_Servo_Init`: returns the new state and the `int32_t` result. -/
def PIOS_Servo_Init (P : Board) (s : ServoDriver) (cfg : pios_servo_cfg) :
    Except Fault (ServoDriver × Int) :=
  let s0 := { s with servo_cfg := some cfg, pios_servo_pin_bank := fun _ => none }
  match init_loop P cfg cfg.num_channels (s0, 0) with
  | .error e => .error e
  | .ok st => .ok (PIOS_Servo_Enable P st.1, 0)

/-- `PIOS_Servo_SetBankMode`. -/
def PIOS_Servo_SetBankMode (P : Board) (s : ServoDriver) (bank mode : Nat) :
    Except Fault ServoDriver :=
  if ¬ bank < P.PIOS_SERVO_BANKS then .error .assert_failed
  else
    let s1 := { s with pios_servo_bank_mode := Function.update s.pios_servo_bank_mode bank mode }
    if !s1.pios_servo_enabled then .ok s1
    else if s1.pios_servo_bank_timer bank ≠ 0 then
      let t := s1.pios_servo_bank_timer bank
      .ok { s1 with hw := TIM_Cmd (TIM_SelectOnePulseMode s1.hw t TIM_OPMode_Repetitive) t true }
    else .ok s1

/-- Body of the bank loop of `PIOS_Servo_Update`. The comparison is made in
32 bits: `next_update + PIOS_SERVO_SAFE_MARGIN` is an `int` sum, it does not
wrap at 16 bits. -/
def update_bank (P : Board) (s : ServoDriver) (i : Nat) : ServoDriver :=
  let timer := s.pios_servo_bank_timer i
  let s1 :=
    if timer ≠ 0 ∧ s.pios_servo_bank_mode i = P.PIOS_SERVO_BANK_MODE_SINGLE_PULSE then
      if TIM_GetCounter s.hw timer > s.pios_servo_bank_next_update i + PIOS_SERVO_SAFE_MARGIN then
        { s with
            hw := TIM_GenerateEvent s.hw timer
            pios_servo_bank_next_update :=
              Function.update s.pios_servo_bank_next_update i (s.pios_servo_bank_max_pulse i) }
      else s
    else s
  { s1 with pios_servo_bank_max_pulse := Function.update s1.pios_servo_bank_max_pulse i 0 }

/-- Body of the channel loop of `PIOS_Servo_Update`. -/
def update_channel (P : Board) (cfg : pios_servo_cfg) (s : ServoDriver) (i : Nat) :
    Except Fault ServoDriver :=
  match s.pios_servo_pin_bank i with
  | none => .error .bad_read
  | some bank =>
    if ¬ bank < P.PIOS_SERVO_BANKS then .error .bad_read
    else if s.pios_servo_bank_mode bank = P.PIOS_SERVO_BANK_MODE_SINGLE_PULSE then
      .ok { s with hw := TIM_SetCompare s.hw (cfg.chan i).timer (cfg.chan i).timer_chan 0 }
    else .ok s

/-- `PIOS_Servo_Update`. -/
def PIOS_Servo_Update (P : Board) (s : ServoDriver) : Except Fault ServoDriver :=
  if !s.pios_servo_enabled then .ok s
  else
    let s1 := (List.range P.PIOS_SERVO_BANKS).foldl (update_bank P) s
    match s1.servo_cfg with
    | none => .error .null_deref
    | some cfg => (List.range cfg.num_channels).foldlM (update_channel P cfg) s1

/-- The input clock of a timer: the `STM32F40_41xxx` branch of `PIOS_Servo_SetHz`. -/
def timer_clock (P : Board) (timer : Nat) : Nat :=
  if timer = P.TIM1 ∨ timer = P.TIM8 ∨ timer = P.TIM9 ∨ timer = P.TIM10 ∨ timer = P.TIM11 then
    P.PIOS_PERIPHERAL_APB2_CLOCK
  else P.PIOS_PERIPHERAL_APB1_CLOCK

/-- Body of the bank loop of `PIOS_Servo_SetHz`. The arithmetic is `uint32_t`;
`TIM_Prescaler` is a `uint16_t` field and `TIM_Period` a `uint32_t` field. -/
def sethz_bank (P : Board) (speeds clock : Nat → Nat) (s : ServoDriver) (i : Nat) :
    Except Fault ServoDriver :=
  let timer := s.pios_servo_bank_timer i
  if timer ≠ 0 then
    let new_clock := if clock i ≠ 0 then clock i else PIOS_SERVO_TIMER_CLOCK
    if speeds i = 0 then .error .div_by_zero
    else
      let prescaler := ((timer_clock P timer / new_clock + 4294967296 - 1) % 4294967296) % 65536
      let period := (new_clock / speeds i + 4294967296 - 1) % 4294967296
      .ok { s with hw := TIM_TimeBaseInit s.hw timer prescaler period }
  else .ok s

/-- `PIOS_Servo_SetHz`. -/
def PIOS_Servo_SetHz (P : Board) (s : ServoDriver) (speeds clock : Nat → Nat) (banks : Nat) :
    Except Fault ServoDriver :=
  if ¬ banks ≤ P.PIOS_SERVO_BANKS then .error .assert_failed
  else
    match s.servo_cfg with
    | none => .ok s
    | some _ => (List.range (min banks P.PIOS_SERVO_BANKS)).foldlM (sethz_bank P speeds clock) s

/-- The clamp of `PIOS_Servo_Set`: `margin` is a `uint16_t`, the comparison and
the subtraction are made in 32 bits (`margin ≤ ARR`, so the difference does not
wrap) and the result is stored back into the `uint16_t` `val`. -/
def servo_clamp (arr position : Nat) : Nat :=
  let val := position
  let margin := (arr / 50) % 65536
  if val > arr - margin then (arr - margin) % 65536 else val

/-- `PIOS_Servo_Set`. -/
def PIOS_Servo_Set (P : Board) (s : ServoDriver) (servo position : Nat) :
    Except Fault ServoDriver :=
  match s.servo_cfg with
  | none => .ok s
  | some cfg =>
    if !s.pios_servo_enabled || decide (servo ≥ cfg.num_channels) then .ok s
    else
      let chan := cfg.chan servo
      let val := servo_clamp (s.hw.tim chan.timer).ARR position
      match s.pios_servo_pin_bank servo with
      | none => .error .bad_read
      | some bank =>
        if ¬ bank < P.PIOS_SERVO_BANKS then .error .bad_read
        else
          let mp :=
            if s.pios_servo_bank_max_pulse bank < val then
              Function.update s.pios_servo_bank_max_pulse bank val
            else s.pios_servo_bank_max_pulse
          .ok { s with
                  pios_servo_bank_max_pulse := mp
                  hw := TIM_SetCompare s.hw chan.timer chan.timer_chan val }

/-- `PIOS_Servo_GetPinBank`. -/
def PIOS_Servo_GetPinBank (s : ServoDriver) (pin : Nat) : Except Fault Nat :=
  match s.servo_cfg with
  | none => .error .null_deref
  | some cfg =>
    if pin < cfg.num_channels then
      match s.pios_servo_pin_bank pin with
      | none => .error .bad_read
      | some b => .ok b
    else .ok 0

/-- `PIOS_Servo_GetConfig`. -/
def PIOS_Servo_GetConfig (s : ServoDriver) : Option pios_servo_cfg :=
  s.servo_cfg

/-! ## Predicates used in the statements -/

/-- Number of distinct timers among the channels declared before the first
channel that uses timer `t`. -/
def first_seen_rank (l : List Nat) (t : Nat) : Nat :=
  (l.take (l.indexOf t)).toFinset.card

/-- A configuration the driver can receive: `num_channels` fits its `uint8_t`
field and every channel names a timer (no `NULL` handle is passed to the timer
library). -/
def cfg_valid (cfg : pios_servo_cfg) : Prop :=
  cfg.num_channels < 256 ∧ ∀ ch ∈ cfg.channels, ch.timer ≠ 0

instance (cfg : pios_servo_cfg) : Decidable (cfg_valid cfg) := by
  unfold cfg_valid; infer_instance

/-- Every channel names one of the four compare units of its timer, so that it
has a compare register. -/
def cfg_has_compare_units (cfg : pios_servo_cfg) : Prop :=
  ∀ ch ∈ cfg.channels, ch.timer_chan ≠ TimChannel.unmatched

instance (cfg : pios_servo_cfg) : Decidable (cfg_has_compare_units cfg) := by
  unfold cfg_has_compare_units; infer_instance

/-- `PIOS_SERVO_BANKS` is within the range of the `uint8_t` bank loop counters
(`for (uint8_t i = 0; i < PIOS_SERVO_BANKS; i++)` ends). -/
def board_valid (P : Board) : Prop :=
  P.PIOS_SERVO_BANKS < 256

instance (P : Board) : Decidable (board_valid P) := by
  unfold board_valid; infer_instance

/-- What the channel loop of `PIOS_Servo_Init` has established after its first
`k` iterations, started in state `s0` with `bank = 0`. -/
structure InitInv (cfg : pios_servo_cfg) (s0 : ServoDriver) (k : Nat)
    (st : ServoDriver × Nat) : Prop where
  bank_eq : st.2 = (cfg.timers.take k).toFinset.card
  pin_bank_seen : ∀ j, j < cfg.num_channels → (cfg.chan j).timer ∈ cfg.timers.take k →
    st.1.pios_servo_pin_bank j = some (first_seen_rank cfg.timers (cfg.chan j).timer)
  bank_timer_seen : ∀ t, t ∈ cfg.timers.take k →
    st.1.pios_servo_bank_timer (first_seen_rank cfg.timers t) = t
  bank_timer_rest : ∀ b, st.2 ≤ b → st.1.pios_servo_bank_timer b = s0.pios_servo_bank_timer b
  cfg_eq : st.1.servo_cfg = s0.servo_cfg
  mode_eq : st.1.pios_servo_bank_mode = s0.pios_servo_bank_mode
  next_update_eq : st.1.pios_servo_bank_next_update = s0.pios_servo_bank_next_update
  max_pulse_eq : st.1.pios_servo_bank_max_pulse = s0.pios_servo_bank_max_pulse
  enabled_eq : st.1.pios_servo_enabled = s0.pios_servo_enabled
  pin_eq : st.1.hw.pin = s0.hw.pin
  stopped : ∀ t, t ∈ cfg.timers.take k → (st.1.hw.tim t).CEN = false

/-- The configuration pointer and the bank tables of two states agree. -/
structure SameTables (s s' : ServoDriver) : Prop where
  cfg_eq : s'.servo_cfg = s.servo_cfg
  mode_eq : s'.pios_servo_bank_mode = s.pios_servo_bank_mode
  next_update_eq : s'.pios_servo_bank_next_update = s.pios_servo_bank_next_update
  max_pulse_eq : s'.pios_servo_bank_max_pulse = s.pios_servo_bank_max_pulse
  timer_eq : s'.pios_servo_bank_timer = s.pios_servo_bank_timer
  pin_bank_eq : s'.pios_servo_pin_bank = s.pios_servo_pin_bank

/-- The part of the state that is neither the enabled flag nor a peripheral. -/
def ServoDriver.tables (s : ServoDriver) :
    Option pios_servo_cfg × (Nat → Nat) × (Nat → Nat) × (Nat → Nat) × (Nat → Nat) ×
      (Nat → Option Nat) :=
  (s.servo_cfg, s.pios_servo_bank_mode, s.pios_servo_bank_next_update,
    s.pios_servo_bank_max_pulse, s.pios_servo_bank_timer, s.pios_servo_pin_bank)

/-! ## A concrete board and configurations, used in the examples -/

/-- A board with six banks; timer addresses and clocks of an STM32F405. -/
def example_board : Board :=
  { PIOS_SERVO_BANKS := 6
    PIOS_SERVO_BANK_MODE_NONE := 0
    PIOS_SERVO_BANK_MODE_SINGLE_PULSE := 2
    TIM1 := 0x40010000
    TIM8 := 0x40010400
    TIM9 := 0x40014000
    TIM10 := 0x40014400
    TIM11 := 0x40014800
    PIOS_PERIPHERAL_APB1_CLOCK := 84000000
    PIOS_PERIPHERAL_APB2_CLOCK := 168000000 }

/-- The same board built with a single bank. -/
def one_bank_board : Board :=
  { example_board with PIOS_SERVO_BANKS := 1 }

/-- Peripherals after reset, with every timer period at `arr` and every counter
at `cnt`. -/
def hw_reset (arr cnt : Nat) : Hardware :=
  { tim := fun _ =>
      { CNT := cnt, ARR := arr, PSC := 0, CCR1 := 0, CCR2 := 0, CCR3 := 0, CCR4 := 0,
        CEN := false, OPM := false, ARPE := false, MOE := false, UG := 0,
        OCPE := fun _ => false }
    pin := fun _ => { mode := .GPIO_Mode_IN, odr := false, af := 0 } }

/-- Base address of `TIM3`. -/
def TIM3 : Nat := 0x40000400

/-- Base address of `TIM5`. -/
def TIM5 : Nat := 0x40000C00

/-- An output channel on compare unit `tc` of timer `t`, on pin number `p`. -/
def servo_channel (t : Nat) (tc : TimChannel) (p : Nat) : pios_tim_channel :=
  { timer := t, timer_chan := tc, pin := p, pin_mode := .GPIO_Mode_AF, remap := 2 }

/-- Four channels, timers `[A, A, B, B]`. -/
def cfg_AABB (a b : Nat) : pios_servo_cfg :=
  { tim_oc_init_pulse := 0
    channels := [servo_channel a .TIM_Channel_1 0, servo_channel a .TIM_Channel_2 1,
                 servo_channel b .TIM_Channel_1 2, servo_channel b .TIM_Channel_2 3] }

/-- Four channels whose timer-sharing channels are not contiguous: `[A, B, A, B]`. -/
def cfg_ABAB (a b : Nat) : pios_servo_cfg :=
  { tim_oc_init_pulse := 0
    channels := [servo_channel a .TIM_Channel_1 0, servo_channel b .TIM_Channel_1 1,
                 servo_channel a .TIM_Channel_2 2, servo_channel b .TIM_Channel_2 3] }

/-! ## Initialised driver -/

/-- The driver holds configuration `cfg`, a valid one whose channels have compare
units, and the tables `PIOS_Servo_Init` builds from it: every channel has a bank
below `PIOS_SERVO_BANKS` whose timer is the channel's timer, and no timer is
assigned to two banks. -/
def Initialised (P : Board) (s : ServoDriver) (cfg : pios_servo_cfg) : Prop :=
  s.servo_cfg = some cfg ∧ (cfg_valid cfg ∧ cfg_has_compare_units cfg) ∧
  (∀ c, c < cfg.num_channels → ∃ b, b < P.PIOS_SERVO_BANKS ∧
      s.pios_servo_pin_bank c = some b ∧ s.pios_servo_bank_timer b = (cfg.chan c).timer) ∧
  (∀ b, b < P.PIOS_SERVO_BANKS → ∀ b', b' < P.PIOS_SERVO_BANKS →
      s.pios_servo_bank_timer b ≠ 0 →
      s.pios_servo_bank_timer b = s.pios_servo_bank_timer b' → b = b')

/-- The compare register of channel `c` of configuration `cfg`. -/
def channel_compare (hw : Hardware) (cfg : pios_servo_cfg) (c : Nat) : Option Nat :=
  TIM_GetCompare hw (cfg.chan c).timer (cfg.chan c).timer_chan

/-- A sequence of `PIOS_Servo_Set(servo, position)` calls. -/
def set_all (P : Board) (s : ServoDriver) (l : List (Nat × Nat)) : Except Fault ServoDriver :=
  l.foldlM (fun st cw => PIOS_Servo_Set P st cw.1 cw.2) s

instance (P : Board) (s : ServoDriver) (cfg : pios_servo_cfg) :
    Decidable (Initialised P s cfg) := by
  unfold Initialised; infer_instance

/-- The driver after `PIOS_Servo_Init` of `[TIM3, TIM3, TIM5, TIM5]` on the
example board, every timer period at `arr` and every counter at `cnt`. -/
def example_driver (arr cnt : Nat) : ServoDriver :=
  match PIOS_Servo_Init example_board (ServoDriver.startup (hw_reset arr cnt)) (cfg_AABB TIM3 TIM5) with
  | .ok r => r.1
  | .error _ => ServoDriver.startup (hw_reset arr cnt)

/-! ## `PIOS_Servo_Update` in closed form -/

/-- The test of the bank loop of `PIOS_Servo_Update` for bank `i`: the bank has a
timer, is in single pulse mode and the counter of its timer is above
`next_update + PIOS_SERVO_SAFE_MARGIN`. -/
def rearm_due (P : Board) (s : ServoDriver) (i : Nat) : Prop :=
  s.pios_servo_bank_timer i ≠ 0 ∧
  s.pios_servo_bank_mode i = P.PIOS_SERVO_BANK_MODE_SINGLE_PULSE ∧
  TIM_GetCounter s.hw (s.pios_servo_bank_timer i)
    > s.pios_servo_bank_next_update i + PIOS_SERVO_SAFE_MARGIN

instance (P : Board) (s : ServoDriver) (i : Nat) : Decidable (rearm_due P s i) := by
  unfold rearm_due; infer_instance

/-- Number of banks below `k` that are due and whose timer is `t`. -/
def rearm_count (P : Board) (s : ServoDriver) (k : Nat) (t : Nat) : Nat :=
  (List.range k).countP (fun i => decide (s.pios_servo_bank_timer i = t ∧ rearm_due P s i))

/-- Some channel below `k` that belongs to a single pulse bank uses compare unit
`tc` of timer `t`. -/
def zeroed_by_update (P : Board) (s : ServoDriver) (cfg : pios_servo_cfg) (k : Nat)
    (t : Nat) (tc : TimChannel) : Prop :=
  ∃ c, c < k ∧ (cfg.chan c).timer = t ∧ (cfg.chan c).timer_chan = tc ∧
    ∃ b, s.pios_servo_pin_bank c = some b ∧
      s.pios_servo_bank_mode b = P.PIOS_SERVO_BANK_MODE_SINGLE_PULSE

/-- The registers of a timer with the four compare registers masked. -/
def TIM_TypeDef.no_ccr (r : TIM_TypeDef) : TIM_TypeDef :=
  { r with CCR1 := 0, CCR2 := 0, CCR3 := 0, CCR4 := 0 }

/-- State `st` differs from `s` as `k` iterations of the bank loop of
`PIOS_Servo_Update` make it differ. -/
structure BankLoopInv (P : Board) (s : ServoDriver) (k : Nat) (st : ServoDriver) : Prop where
  cfg_eq : st.servo_cfg = s.servo_cfg
  mode_eq : st.pios_servo_bank_mode = s.pios_servo_bank_mode
  timer_eq : st.pios_servo_bank_timer = s.pios_servo_bank_timer
  pin_bank_eq : st.pios_servo_pin_bank = s.pios_servo_pin_bank
  enabled_eq : st.pios_servo_enabled = s.pios_servo_enabled
  pin_eq : st.hw.pin = s.hw.pin
  next_update : ∀ i, st.pios_servo_bank_next_update i
    = if i < k ∧ rearm_due P s i then s.pios_servo_bank_max_pulse i
      else s.pios_servo_bank_next_update i
  max_pulse : ∀ i, st.pios_servo_bank_max_pulse i
    = if i < k then 0 else s.pios_servo_bank_max_pulse i
  tim : ∀ t, st.hw.tim t = { s.hw.tim t with UG := (s.hw.tim t).UG + rearm_count P s k t }

/-- State `st` differs from `s1` as `k` iterations of the channel loop of
`PIOS_Servo_Update` make it differ. -/
structure ChanLoopInv (P : Board) (s1 : ServoDriver) (cfg : pios_servo_cfg) (k : Nat)
    (st : ServoDriver) : Prop where
  tables_eq : st.tables = s1.tables
  enabled_eq : st.pios_servo_enabled = s1.pios_servo_enabled
  pin_eq : st.hw.pin = s1.hw.pin
  regs : ∀ t, (st.hw.tim t).no_ccr = (s1.hw.tim t).no_ccr
  ccr_zeroed : ∀ t tc, tc ≠ TimChannel.unmatched → zeroed_by_update P s1 cfg k t tc →
    TIM_GetCompare st.hw t tc = some 0
  ccr_kept : ∀ t tc, ¬ zeroed_by_update P s1 cfg k t tc →
    TIM_GetCompare st.hw t tc = TIM_GetCompare s1.hw t tc

/-- The effect of an enabled `PIOS_Servo_Update` on an initialised driver. -/
structure UpdateResult (P : Board) (s : ServoDriver) (cfg : pios_servo_cfg)
    (s' : ServoDriver) : Prop where
  cfg_eq : s'.servo_cfg = s.servo_cfg
  mode_eq : s'.pios_servo_bank_mode = s.pios_servo_bank_mode
  timer_eq : s'.pios_servo_bank_timer = s.pios_servo_bank_timer
  pin_bank_eq : s'.pios_servo_pin_bank = s.pios_servo_pin_bank
  enabled_eq : s'.pios_servo_enabled = s.pios_servo_enabled
  pin_eq : s'.hw.pin = s.hw.pin
  next_update : ∀ i, s'.pios_servo_bank_next_update i
    = if i < P.PIOS_SERVO_BANKS ∧ rearm_due P s i then s.pios_servo_bank_max_pulse i
      else s.pios_servo_bank_next_update i
  max_pulse : ∀ i, s'.pios_servo_bank_max_pulse i
    = if i < P.PIOS_SERVO_BANKS then 0 else s.pios_servo_bank_max_pulse i
  regs : ∀ t, (s'.hw.tim t).no_ccr
    = { (s.hw.tim t).no_ccr with
        UG := (s.hw.tim t).UG + rearm_count P s P.PIOS_SERVO_BANKS t }
  ccr_zeroed : ∀ t tc, tc ≠ TimChannel.unmatched →
    zeroed_by_update P s cfg cfg.num_channels t tc → TIM_GetCompare s'.hw t tc = some 0
  ccr_kept : ∀ t tc, ¬ zeroed_by_update P s cfg cfg.num_channels t tc →
    TIM_GetCompare s'.hw t tc = TIM_GetCompare s.hw t tc

/-- The example driver after `PIOS_Servo_SetBankMode(0, PIOS_SERVO_BANK_MODE_SINGLE_PULSE)`:
bank 0 (`TIM3`, channels 0 and 1) is in single pulse mode, bank 1 is in mode
none. -/
def single_pulse_driver (arr cnt : Nat) : ServoDriver :=
  match PIOS_Servo_SetBankMode example_board (example_driver arr cnt) 0
      example_board.PIOS_SERVO_BANK_MODE_SINGLE_PULSE with
  | .ok s => s
  | .error _ => example_driver arr cnt

/-! ## Widths commanded within a cycle -/

/-- The width `PIOS_Servo_Set(c, w)` stores in the compare register of channel
`c`: `w` clamped against the period of the channel's timer. -/
def clamped_width (hw : Hardware) (cfg : pios_servo_cfg) (c w : Nat) : Nat :=
  servo_clamp (hw.tim (cfg.chan c).timer).ARR w

/-- The largest clamped width among the calls that address a channel of bank
`b`; 0 when no call does. -/
def commanded_max (hw : Hardware) (cfg : pios_servo_cfg) (pin_bank : Nat → Option Nat)
    (b : Nat) (calls : List (Nat × Nat)) : Nat :=
  ((calls.filter (fun cw => decide (cw.1 < cfg.num_channels ∧ pin_bank cw.1 = some b))).map
    (fun cw => clamped_width hw cfg cw.1 cw.2)).foldr max 0

/-- The single pulse example driver after a cycle's `PIOS_Servo_Set(0, 1500)` and
`PIOS_Servo_Disable()`: bank 0 holds a non-zero `max_pulse`. -/
def disabled_driver (arr cnt : Nat) : ServoDriver :=
  match PIOS_Servo_Set example_board (single_pulse_driver arr cnt) 0 1500 with
  | .ok s => PIOS_Servo_Disable s
  | .error _ => PIOS_Servo_Disable (single_pulse_driver arr cnt)

/-! ## Register groups of a timer -/

/-- The time base of a timer: prescaler and period. -/
def TIM_TypeDef.timebase (r : TIM_TypeDef) : Nat × Nat :=
  (r.PSC, r.ARR)

/-- The control bits of a timer that start it and select one-pulse mode. -/
def TIM_TypeDef.run_bits (r : TIM_TypeDef) : Bool × Bool :=
  (r.CEN, r.OPM)

/-! ## Sequences of driver calls -/

/-- A call of the driver other than `PIOS_Servo_Init` and
`PIOS_Servo_SetBankMode`. -/
inductive DriverCall where
  | disable
  | enable
  | set (servo position : Nat)
  | update
  | setHz (speeds clock : Nat → Nat) (banks : Nat)

/-- Run one call. -/
def run_call (P : Board) (s : ServoDriver) : DriverCall → Except Fault ServoDriver
  | .disable => .ok (PIOS_Servo_Disable s)
  | .enable => .ok (PIOS_Servo_Enable P s)
  | .set servo position => PIOS_Servo_Set P s servo position
  | .update => PIOS_Servo_Update P s
  | .setHz speeds clock banks => PIOS_Servo_SetHz P s speeds clock banks

/-- Run a sequence of calls, stopping at the first fault. -/
def run_calls (P : Board) (s : ServoDriver) (calls : List DriverCall) :
    Except Fault ServoDriver :=
  calls.foldlM (run_call P) s

/-- The bank modes, the bank timers, and the start and one-pulse bits of every
timer. -/
def ServoDriver.modes_and_run_bits (s : ServoDriver) :
    (Nat → Nat) × (Nat → Nat) × (Nat → Bool × Bool) :=
  (s.pios_servo_bank_mode, s.pios_servo_bank_timer, fun t => (s.hw.tim t).run_bits)

/-- Peripherals in which every timer counter runs. -/
def running_hw : Hardware :=
  { tim := fun _ =>
      { CNT := 0, ARR := 20000, PSC := 83, CCR1 := 0, CCR2 := 0, CCR3 := 0, CCR4 := 0,
        CEN := true, OPM := false, ARPE := false, MOE := false, UG := 0,
        OCPE := fun _ => false }
    pin := fun _ => { mode := .GPIO_Mode_IN, odr := false, af := 0 } }

/-! ## `PIOS_Servo_SetHz` in closed form -/

/-- The target clock of bank `i`: `clock[i]` when non-zero, else
`PIOS_SERVO_TIMER_CLOCK`. -/
def sethz_new_clock (clock : Nat → Nat) (i : Nat) : Nat :=
  if clock i ≠ 0 then clock i else PIOS_SERVO_TIMER_CLOCK

/-- The value `PIOS_Servo_SetHz` stores in the 16-bit `TIM_Prescaler` for a
timer and the target clock of bank `i`. -/
def sethz_prescaler (P : Board) (timer : Nat) (clock : Nat → Nat) (i : Nat) : Nat :=
  ((timer_clock P timer / sethz_new_clock clock i + 4294967296 - 1) % 4294967296) % 65536

/-- The value `PIOS_Servo_SetHz` stores in the 32-bit `TIM_Period` for bank `i`. -/
def sethz_period (speeds clock : Nat → Nat) (i : Nat) : Nat :=
  (sethz_new_clock clock i / speeds i + 4294967296 - 1) % 4294967296

/-- The registers of a timer with the time base and the update request count
masked. -/
def TIM_TypeDef.no_timebase (r : TIM_TypeDef) : TIM_TypeDef :=
  { r with PSC := 0, ARR := 0, UG := 0 }

/-- State `st` is `s` after the first `k` iterations of the bank loop of
`PIOS_Servo_SetHz`. -/
structure SetHzInv (P : Board) (speeds clock : Nat → Nat) (s : ServoDriver) (k : Nat)
    (st : ServoDriver) : Prop where
  tables_eq : st.tables = s.tables
  enabled_eq : st.pios_servo_enabled = s.pios_servo_enabled
  pin_eq : st.hw.pin = s.hw.pin
  programmed : ∀ i, i < k → s.pios_servo_bank_timer i ≠ 0 →
    (st.hw.tim (s.pios_servo_bank_timer i)).PSC
        = sethz_prescaler P (s.pios_servo_bank_timer i) clock i ∧
    (st.hw.tim (s.pios_servo_bank_timer i)).ARR = sethz_period speeds clock i
  untouched : ∀ t, (∀ i, i < k → s.pios_servo_bank_timer i ≠ 0 → s.pios_servo_bank_timer i ≠ t) →
    st.hw.tim t = s.hw.tim t
  others : ∀ t, (st.hw.tim t).no_timebase = (s.hw.tim t).no_timebase

/-! ## Lists and folds -/

theorem take_succ_toFinset (l : List Nat) (k : Nat) (h : k < l.length) :
    (l.take (k + 1)).toFinset = insert l[k] (l.take k).toFinset := by
  rw [List.take_succ, List.getElem?_eq_getElem h]
  ext x
  simp only [Option.toList_some, List.toFinset_append, List.toFinset_cons, List.toFinset_nil,
    Finset.mem_union, Finset.mem_insert, List.mem_toFinset, Finset.mem_singleton]
  constructor
  · rintro (h1 | h1 | h1)
    · exact Or.inr h1
    · exact Or.inl h1
    · exact absurd h1 (Finset.not_mem_empty x)
  · rintro (h1 | h1)
    · exact Or.inr (Or.inl h1)
    · exact Or.inl h1

theorem indexOf_lt_of_mem_take (t : Nat) :
    ∀ (l : List Nat) (k : Nat), t ∈ l.take k → l.indexOf t < k := by
  intro l
  induction l with
  | nil => intro k h; simp at h
  | cons a l ih =>
    intro k h
    cases k with
    | zero => simp at h
    | succ k =>
      by_cases ha : a = t
      · rw [List.indexOf_cons_eq _ ha]; omega
      · rw [List.indexOf_cons_ne _ ha]
        simp only [List.take_succ_cons, List.mem_cons] at h
        rcases h with h | h
        · exact absurd h.symm ha
        · have := ih k h
          omega

theorem not_mem_take_indexOf (t : Nat) :
    ∀ (l : List Nat), t ∉ l.take (l.indexOf t) := by
  intro l
  induction l with
  | nil => simp
  | cons a l ih =>
    by_cases ha : a = t
    · rw [List.indexOf_cons_eq _ ha]; simp
    · rw [List.indexOf_cons_ne _ ha]
      simp only [List.take_succ_cons, List.mem_cons, not_or]
      exact ⟨fun h => ha h.symm, ih⟩

theorem indexOf_eq_of_not_mem_take :
    ∀ (l : List Nat) (k : Nat) (h : k < l.length), l[k] ∉ l.take k → l.indexOf l[k] = k := by
  intro l
  induction l with
  | nil => intro k h; simp at h
  | cons a l ih =>
    intro k h hn
    cases k with
    | zero => simp
    | succ k =>
      simp only [List.getElem_cons_succ, List.take_succ_cons, List.mem_cons, not_or] at hn ⊢
      rw [List.indexOf_cons_ne _ (fun e => hn.1 e.symm)]
      have hk : k < l.length := by simpa using h
      rw [ih k hk hn.2]

theorem take_subset_take (l : List Nat) {i k : Nat} (h : i ≤ k) :
    (l.take i).toFinset ⊆ (l.take k).toFinset := by
  intro x hx
  rw [List.mem_toFinset] at hx ⊢
  have : l.take i = (l.take k).take i := by
    rw [List.take_take, Nat.min_eq_left h]
  rw [this] at hx
  exact List.mem_of_mem_take hx

/-- A timer already seen among the first `k` channels has a rank below the
number of distinct timers among them. -/
theorem first_seen_rank_lt (l : List Nat) (k : Nat) (t : Nat) (h : t ∈ l.take k) :
    first_seen_rank l t < (l.take k).toFinset.card := by
  unfold first_seen_rank
  apply Finset.card_lt_card
  rw [Finset.ssubset_iff_of_subset (take_subset_take l (Nat.le_of_lt (indexOf_lt_of_mem_take t l k h)))]
  exact ⟨t, List.mem_toFinset.mpr h, fun hc => not_mem_take_indexOf t l (List.mem_toFinset.mp hc)⟩

theorem first_seen_rank_lt_card (l : List Nat) (t : Nat) (h : t ∈ l) :
    first_seen_rank l t < l.toFinset.card := by
  have := first_seen_rank_lt l l.length t (by simpa using h)
  simpa using this

theorem foldl_and_eq (p : Nat → Bool) (l : List Nat) (b : Bool) :
    l.foldl (fun nw j => nw && p j) b = (b && l.all p) := by
  induction l generalizing b with
  | nil => simp
  | cons a l ih => simp [ih, Bool.and_assoc]

theorem foldl_update_eq {β : Type} (q : Nat → Prop) [DecidablePred q] (v : β) (l : List Nat)
    (m : Nat → β) (j : Nat) :
    (l.foldl (fun m j => if q j then Function.update m j v else m) m) j
      = if j ∈ l ∧ q j then v else m j := by
  induction l generalizing m with
  | nil => simp
  | cons a l ih =>
    rw [List.foldl_cons, ih]
    by_cases hq : q j
    · by_cases hl : j ∈ l
      · simp [hq, hl]
      · by_cases ha : j = a
        · subst ha; simp [hq, hl]
        · by_cases hqa : q a
          · simp [hq, hl, ha, hqa, Function.update_noteq ha]
          · simp [hq, hl, ha, hqa]
    · by_cases hqa : q a
      · have ha : j ≠ a := fun e => hq (e ▸ hqa)
        simp [hq, hqa, Function.update_noteq ha]
      · simp [hq, hqa]

/-! ## `PIOS_Servo_Init`: the grouping loop -/

theorem timers_length (cfg : pios_servo_cfg) : cfg.timers.length = cfg.num_channels := by
  simp [pios_servo_cfg.timers, pios_servo_cfg.num_channels]

theorem chan_eq_getElem (cfg : pios_servo_cfg) (j : Nat) (h : j < cfg.channels.length) :
    cfg.chan j = cfg.channels[j] := by
  simp [pios_servo_cfg.chan, List.getD, List.getElem?_eq_getElem h]

theorem timers_getElem (cfg : pios_servo_cfg) (j : Nat) (h : j < cfg.timers.length) :
    cfg.timers[j] = (cfg.chan j).timer := by
  have h2 : j < cfg.channels.length := by simpa [pios_servo_cfg.timers] using h
  simp [pios_servo_cfg.timers, chan_eq_getElem cfg j h2]

theorem chan_mem (cfg : pios_servo_cfg) (j : Nat) (h : j < cfg.num_channels) :
    cfg.chan j ∈ cfg.channels := by
  have h2 : j < cfg.channels.length := h
  rw [chan_eq_getElem cfg j h2]
  exact List.getElem_mem _

theorem chan_timer_mem (cfg : pios_servo_cfg) (j : Nat) (h : j < cfg.num_channels) :
    (cfg.chan j).timer ∈ cfg.timers := by
  have h2 : j < cfg.timers.length := by rw [timers_length]; exact h
  rw [← timers_getElem cfg j h2]
  exact List.getElem_mem _

theorem mem_take_timers (cfg : pios_servo_cfg) (k : Nat) (hk : k ≤ cfg.num_channels) (t : Nat) :
    t ∈ cfg.timers.take k ↔ ∃ j, j < k ∧ (cfg.chan j).timer = t := by
  rw [List.mem_take_iff_getElem]
  constructor
  · rintro ⟨j, hj, e⟩
    have hj2 : j < cfg.timers.length := by omega
    refine ⟨j, by omega, ?_⟩
    rw [← timers_getElem cfg j hj2]; exact e
  · rintro ⟨j, hj, e⟩
    have hj2 : j < cfg.timers.length := by rw [timers_length]; omega
    refine ⟨j, by omega, ?_⟩
    rw [timers_getElem cfg j hj2]; exact e

theorem mem_take_succ_timers (cfg : pios_servo_cfg) (k : Nat) (hk : k < cfg.num_channels)
    (t : Nat) :
    t ∈ cfg.timers.take (k + 1) ↔ t = (cfg.chan k).timer ∨ t ∈ cfg.timers.take k := by
  rw [mem_take_timers cfg (k + 1) hk, mem_take_timers cfg k (Nat.le_of_lt hk)]
  constructor
  · rintro ⟨j, hj, e⟩
    by_cases hjk : j = k
    · subst hjk; exact Or.inl e.symm
    · exact Or.inr ⟨j, by omega, e⟩
  · rintro (e | ⟨j, hj, e⟩)
    · exact ⟨k, by omega, e.symm⟩
    · exact ⟨j, by omega, e⟩

/-- The lookback loop finds the channel new exactly when its timer does not
occur among the channels declared before it. -/
theorem init_is_new_iff (cfg : pios_servo_cfg) (i : Nat) (hi : i < cfg.num_channels) :
    init_is_new cfg i = true ↔ (cfg.chan i).timer ∉ cfg.timers.take i := by
  unfold init_is_new
  rw [foldl_and_eq, mem_take_timers cfg i (Nat.le_of_lt hi)]
  simp only [Bool.true_and, List.all_eq_true, List.mem_range, decide_eq_true_eq, not_exists,
    not_and]
  constructor
  · intro h j hj e; exact h j hj e.symm
  · intro h j hj e; exact h j hj e.symm

/-- The lookahead loop in closed form. -/
theorem init_assign_apply (cfg : pios_servo_cfg) (i bank : Nat) (pb : Nat → Option Nat)
    (j : Nat) :
    init_assign cfg i bank pb j
      = if i ≤ j ∧ j < cfg.num_channels ∧ (cfg.chan j).timer = (cfg.chan i).timer
        then some bank else pb j := by
  unfold init_assign
  rw [foldl_update_eq (fun j => (cfg.chan j).timer = (cfg.chan i).timer)]
  by_cases h : (cfg.chan j).timer = (cfg.chan i).timer
  · by_cases h1 : i ≤ j
    · by_cases h2 : j < cfg.num_channels
      · have : i + (cfg.num_channels - i) = cfg.num_channels := by omega
        simp [h, h1, h2, this]
      · have : ¬ j < i + (cfg.num_channels - i) := by omega
        simp [h, h2, this]
    · simp [h, h1]
  · simp [h]

theorem card_take_succ_of_new (cfg : pios_servo_cfg) (k : Nat) (hk : k < cfg.num_channels)
    (hnew : (cfg.chan k).timer ∉ cfg.timers.take k) :
    (cfg.timers.take (k + 1)).toFinset.card = (cfg.timers.take k).toFinset.card + 1 := by
  have hk2 : k < cfg.timers.length := by rw [timers_length]; exact hk
  rw [take_succ_toFinset _ _ hk2, timers_getElem cfg k hk2]
  exact Finset.card_insert_of_not_mem (fun h => hnew (List.mem_toFinset.mp h))

theorem card_take_succ_of_seen (cfg : pios_servo_cfg) (k : Nat) (hk : k < cfg.num_channels)
    (hseen : (cfg.chan k).timer ∈ cfg.timers.take k) :
    (cfg.timers.take (k + 1)).toFinset.card = (cfg.timers.take k).toFinset.card := by
  have hk2 : k < cfg.timers.length := by rw [timers_length]; exact hk
  rw [take_succ_toFinset _ _ hk2, timers_getElem cfg k hk2]
  rw [Finset.insert_eq_of_mem (List.mem_toFinset.mpr hseen)]

theorem first_seen_rank_of_new (cfg : pios_servo_cfg) (k : Nat) (hk : k < cfg.num_channels)
    (hnew : (cfg.chan k).timer ∉ cfg.timers.take k) :
    first_seen_rank cfg.timers (cfg.chan k).timer = (cfg.timers.take k).toFinset.card := by
  have hk2 : k < cfg.timers.length := by rw [timers_length]; exact hk
  unfold first_seen_rank
  rw [← timers_getElem cfg k hk2] at hnew ⊢
  rw [indexOf_eq_of_not_mem_take _ k hk2 hnew]

theorem initInv_zero (cfg : pios_servo_cfg) (s0 : ServoDriver) : InitInv cfg s0 0 (s0, 0) := by
  constructor <;> simp

theorem tim_cen_init (hw : Hardware) (t u : Nat) :
    ((TIM_Cmd (TIM_CtrlPWMOutputs (TIM_ARRPreloadConfig hw t true) t true) t false).tim u).CEN
      = if u = t then false else (hw.tim u).CEN := by
  by_cases h : u = t
  · subst h; simp [TIM_Cmd, TIM_CtrlPWMOutputs, TIM_ARRPreloadConfig, Hardware.modify_tim]
  · simp [TIM_Cmd, TIM_CtrlPWMOutputs, TIM_ARRPreloadConfig, Hardware.modify_tim,
      Function.update_noteq h, h]

/-- One iteration of the channel loop keeps the invariant, provided the bank
count stays within `PIOS_SERVO_BANKS`. -/
theorem init_channel_spec (P : Board) (cfg : pios_servo_cfg) (s0 : ServoDriver) (k : Nat)
    (hk : k < cfg.num_channels) (st : ServoDriver × Nat) (inv : InitInv cfg s0 k st)
    (hcard : (cfg.timers.take (k + 1)).toFinset.card ≤ P.PIOS_SERVO_BANKS) :
    ∃ st', init_channel P cfg st k = .ok st' ∧ InitInv cfg s0 (k + 1) st' := by
  by_cases hnew : (cfg.chan k).timer ∈ cfg.timers.take k
  · -- the timer was seen before: nothing happens
    have hn : init_is_new cfg k = false := by
      rw [Bool.eq_false_iff]; intro h; exact (init_is_new_iff cfg k hk).mp h hnew
    refine ⟨st, by simp [init_channel, hn], ?_⟩
    have hmem : ∀ t, t ∈ cfg.timers.take (k + 1) ↔ t ∈ cfg.timers.take k := by
      intro t; rw [mem_take_succ_timers cfg k hk]
      constructor
      · rintro (e | h)
        · rw [e]; exact hnew
        · exact h
      · exact Or.inr
    refine ⟨?_, ?_, ?_, inv.bank_timer_rest, inv.cfg_eq, inv.mode_eq, inv.next_update_eq,
      inv.max_pulse_eq, inv.enabled_eq, inv.pin_eq, ?_⟩
    · rw [card_take_succ_of_seen cfg k hk hnew]; exact inv.bank_eq
    · intro j hj h; exact inv.pin_bank_seen j hj ((hmem _).mp h)
    · intro t h; exact inv.bank_timer_seen t ((hmem _).mp h)
    · intro t h; exact inv.stopped t ((hmem _).mp h)
  · -- a new timer: a bank is allocated
    have hn : init_is_new cfg k = true := (init_is_new_iff cfg k hk).mpr hnew
    have hcard2 := card_take_succ_of_new cfg k hk hnew
    have hb : st.2 < P.PIOS_SERVO_BANKS := by rw [inv.bank_eq]; omega
    have hrank := first_seen_rank_of_new cfg k hk hnew
    refine ⟨_, by simp only [init_channel, hn, hb, not_true_eq_false, if_true, if_false]; rfl, ?_⟩
    refine ⟨?_, ?_, ?_, ?_, inv.cfg_eq, inv.mode_eq, inv.next_update_eq,
      inv.max_pulse_eq, inv.enabled_eq, ?_, ?_⟩
    · show st.2 + 1 = _
      rw [hcard2, inv.bank_eq]
    · intro j hj h
      show init_assign cfg k st.2 st.1.pios_servo_pin_bank j = _
      rw [init_assign_apply]
      by_cases e : (cfg.chan j).timer = (cfg.chan k).timer
      · have hkj : k ≤ j := by
          by_contra hlt
          apply hnew
          rw [mem_take_timers cfg k (Nat.le_of_lt hk)]
          exact ⟨j, by omega, e⟩
        rw [if_pos ⟨hkj, hj, e⟩, e, hrank, inv.bank_eq]
      · rw [if_neg (fun h3 => e h3.2.2)]
        rcases (mem_take_succ_timers cfg k hk _).mp h with h3 | h3
        · exact absurd h3 e
        · exact inv.pin_bank_seen j hj h3
    · intro t h
      show Function.update st.1.pios_servo_bank_timer st.2 (cfg.chan k).timer _ = t
      rcases (mem_take_succ_timers cfg k hk _).mp h with h3 | h3
      · rw [h3, hrank, ← inv.bank_eq, Function.update_same]
      · have hlt := first_seen_rank_lt cfg.timers k t h3
        rw [← inv.bank_eq] at hlt
        rw [Function.update_noteq (Nat.ne_of_lt hlt)]
        exact inv.bank_timer_seen t h3
    · intro b hbb
      show Function.update st.1.pios_servo_bank_timer st.2 (cfg.chan k).timer b = _
      have hbb2 : st.2 + 1 ≤ b := hbb
      rw [Function.update_noteq (by omega)]
      exact inv.bank_timer_rest b (by omega)
    · show (TIM_Cmd (TIM_CtrlPWMOutputs (TIM_ARRPreloadConfig st.1.hw _ true) _ true) _ false).pin = _
      simp [TIM_Cmd, TIM_CtrlPWMOutputs, TIM_ARRPreloadConfig, Hardware.modify_tim, inv.pin_eq]
    · intro t h
      show ((TIM_Cmd (TIM_CtrlPWMOutputs (TIM_ARRPreloadConfig st.1.hw _ true) _ true) _ false).tim t).CEN = _
      rw [tim_cen_init]
      rcases (mem_take_succ_timers cfg k hk _).mp h with h3 | h3
      · simp [h3]
      · by_cases e : t = (cfg.chan k).timer
        · simp [e]
        · simp [e, inv.stopped t h3]

theorem init_loop_succ (P : Board) (cfg : pios_servo_cfg) (k : Nat) (st : ServoDriver × Nat) :
    init_loop P cfg (k + 1) st
      = (init_loop P cfg k st).bind (fun st' => init_channel P cfg st' k) := by
  unfold init_loop
  rw [List.range_succ, List.foldlM_append]
  cases h : List.foldlM (init_channel P cfg) st (List.range k) with
  | error e => rfl
  | ok st' =>
    simp only [bind, Except.bind, List.foldlM_cons, List.foldlM_nil]
    cases init_channel P cfg st' k <;> rfl

/-- With at most `PIOS_SERVO_BANKS` distinct timers among the first `k`
channels the loop runs through them without a fault. -/
theorem init_loop_spec (P : Board) (cfg : pios_servo_cfg) (s0 : ServoDriver) :
    ∀ k, k ≤ cfg.num_channels →
      (cfg.timers.take k).toFinset.card ≤ P.PIOS_SERVO_BANKS →
      ∃ st, init_loop P cfg k (s0, 0) = .ok st ∧ InitInv cfg s0 k st := by
  intro k
  induction k with
  | zero => intro _ _; exact ⟨(s0, 0), rfl, initInv_zero cfg s0⟩
  | succ k ih =>
    intro hk hcard
    have hle : (cfg.timers.take k).toFinset.card ≤ (cfg.timers.take (k + 1)).toFinset.card :=
      Finset.card_le_card (take_subset_take cfg.timers (Nat.le_succ k))
    obtain ⟨st, hst, inv⟩ := ih (by omega) (by omega)
    obtain ⟨st', hst', inv'⟩ := init_channel_spec P cfg s0 k (by omega) st inv hcard
    exact ⟨st', by rw [init_loop_succ, hst]; exact hst', inv'⟩

/-- With more than `PIOS_SERVO_BANKS` distinct timers among the first `k`
channels the assertion has fired. -/
theorem init_loop_fail (P : Board) (cfg : pios_servo_cfg) (s0 : ServoDriver) :
    ∀ k, k ≤ cfg.num_channels →
      P.PIOS_SERVO_BANKS < (cfg.timers.take k).toFinset.card →
      init_loop P cfg k (s0, 0) = .error .assert_failed := by
  intro k
  induction k with
  | zero => intro _ h; simp at h
  | succ k ih =>
    intro hk hcard
    rw [init_loop_succ]
    by_cases hprev : P.PIOS_SERVO_BANKS < (cfg.timers.take k).toFinset.card
    · rw [ih (by omega) hprev]; rfl
    · obtain ⟨st, hst, inv⟩ := init_loop_spec P cfg s0 k (by omega) (by omega)
      rw [hst]
      show init_channel P cfg st k = _
      have hnew : (cfg.chan k).timer ∉ cfg.timers.take k := by
        intro hseen
        rw [card_take_succ_of_seen cfg k (by omega) hseen] at hcard
        exact hprev hcard
      have hn : init_is_new cfg k = true := (init_is_new_iff cfg k (by omega)).mpr hnew
      have hc := card_take_succ_of_new cfg k (by omega) hnew
      have hb : ¬ st.2 < P.PIOS_SERVO_BANKS := by rw [inv.bank_eq]; omega
      simp [init_channel, hn, hb]

/-! ## Frame conditions of `PIOS_Servo_Enable` and `PIOS_Servo_Disable` -/

theorem foldl_preserves {σ α β : Type} (proj : σ → β) (f : σ → α → σ)
    (h : ∀ s x, proj (f s x) = proj s) (l : List α) (s : σ) :
    proj (l.foldl f s) = proj s := by
  induction l generalizing s with
  | nil => rfl
  | cons a l ih => rw [List.foldl_cons, ih, h]

theorem sameTables_of_tables {s s' : ServoDriver} (h : s'.tables = s.tables) :
    SameTables s s' := by
  simp only [ServoDriver.tables, Prod.mk.injEq] at h
  exact ⟨h.1, h.2.1, h.2.2.1, h.2.2.2.1, h.2.2.2.2.1, h.2.2.2.2.2⟩

theorem enable_bank_tables (P : Board) (s : ServoDriver) (i : Nat) :
    (enable_bank P s i).tables = s.tables := by
  unfold enable_bank
  dsimp only
  split <;> rfl

theorem enable_tables (P : Board) (s : ServoDriver) :
    (PIOS_Servo_Enable P s).tables = s.tables := by
  unfold PIOS_Servo_Enable
  split
  · rfl
  · show ServoDriver.tables (List.foldl (enable_bank P) _ _) = _
    rw [foldl_preserves ServoDriver.tables (enable_bank P) (enable_bank_tables P),
      foldl_preserves ServoDriver.tables (enable_channel _) (fun _ _ => rfl)]

theorem enable_sameTables (P : Board) (s : ServoDriver) :
    SameTables s (PIOS_Servo_Enable P s) :=
  sameTables_of_tables (enable_tables P s)

theorem disable_tables (s : ServoDriver) : (PIOS_Servo_Disable s).tables = s.tables := by
  unfold PIOS_Servo_Disable
  split
  · rfl
  · rw [foldl_preserves ServoDriver.tables disable_channel (fun _ _ => rfl)]
    rfl

theorem enable_enabled (P : Board) (s : ServoDriver) (cfg : pios_servo_cfg)
    (h : s.servo_cfg = some cfg) : (PIOS_Servo_Enable P s).pios_servo_enabled = true := by
  unfold PIOS_Servo_Enable
  rw [h]

/-! ## `PIOS_Servo_Init`: result -/

/-- `PIOS_Servo_Init` on a configuration with at most `PIOS_SERVO_BANKS`
distinct timers: it returns 0, the driver is enabled, holds the configuration,
and every channel is mapped to the first-seen rank of its timer. -/
theorem init_ok (P : Board) (s : ServoDriver) (cfg : pios_servo_cfg)
    (hcard : cfg.timers.toFinset.card ≤ P.PIOS_SERVO_BANKS) :
    ∃ s', PIOS_Servo_Init P s cfg = .ok (s', 0) ∧
      s'.servo_cfg = some cfg ∧ s'.pios_servo_enabled = true ∧
      (∀ c, c < cfg.num_channels →
        s'.pios_servo_pin_bank c = some (first_seen_rank cfg.timers (cfg.chan c).timer)) ∧
      (∀ t, t ∈ cfg.timers →
        s'.pios_servo_bank_timer (first_seen_rank cfg.timers t) = t) ∧
      (∀ b, cfg.timers.toFinset.card ≤ b →
        s'.pios_servo_bank_timer b = s.pios_servo_bank_timer b) ∧
      s'.pios_servo_bank_mode = s.pios_servo_bank_mode ∧
      s'.pios_servo_bank_next_update = s.pios_servo_bank_next_update ∧
      s'.pios_servo_bank_max_pulse = s.pios_servo_bank_max_pulse := by
  have htake : cfg.timers.take cfg.num_channels = cfg.timers := by
    rw [← timers_length]; exact List.take_length _
  obtain ⟨st, hst, inv⟩ := init_loop_spec P cfg
    { s with servo_cfg := some cfg, pios_servo_pin_bank := fun _ => none }
    cfg.num_channels (Nat.le_refl _) (by rw [htake]; exact hcard)
  have hT := enable_sameTables P st.1
  refine ⟨PIOS_Servo_Enable P st.1, by simp only [PIOS_Servo_Init, hst], ?_, ?_, ?_, ?_, ?_, ?_, ?_, ?_⟩
  · rw [hT.cfg_eq, inv.cfg_eq]
  · exact enable_enabled P st.1 cfg inv.cfg_eq
  · intro c hc
    rw [hT.pin_bank_eq]
    exact inv.pin_bank_seen c hc (by rw [htake]; exact chan_timer_mem cfg c hc)
  · intro t ht
    rw [hT.timer_eq]
    exact inv.bank_timer_seen t (by rw [htake]; exact ht)
  · intro b hb
    rw [hT.timer_eq]
    exact inv.bank_timer_rest b (by rw [inv.bank_eq, htake]; exact hb)
  · rw [hT.mode_eq, inv.mode_eq]
  · rw [hT.next_update_eq, inv.next_update_eq]
  · rw [hT.max_pulse_eq, inv.max_pulse_eq]

/-- `PIOS_Servo_Init` on a configuration with more than `PIOS_SERVO_BANKS`
distinct timers stops in its assertion. -/
theorem init_fail (P : Board) (s : ServoDriver) (cfg : pios_servo_cfg)
    (hcard : P.PIOS_SERVO_BANKS < cfg.timers.toFinset.card) :
    PIOS_Servo_Init P s cfg = .error .assert_failed := by
  have htake : cfg.timers.take cfg.num_channels = cfg.timers := by
    rw [← timers_length]; exact List.take_length _
  have := init_loop_fail P cfg
    { s with servo_cfg := some cfg, pios_servo_pin_bank := fun _ => none }
    cfg.num_channels (Nat.le_refl _) (by rw [htake]; exact hcard)
  simp only [PIOS_Servo_Init, this]

theorem getPinBank_of_pin_bank (s : ServoDriver) (cfg : pios_servo_cfg) (c b : Nat)
    (hcfg : s.servo_cfg = some cfg) (hc : c < cfg.num_channels)
    (hb : s.pios_servo_pin_bank c = some b) : PIOS_Servo_GetPinBank s c = .ok b := by
  simp [PIOS_Servo_GetPinBank, hcfg, hc, hb]

theorem mem_take_of_indexOf_lt (l : List Nat) (t k : Nat) (ht : t ∈ l)
    (h : l.indexOf t < k) : t ∈ l.take k := by
  rw [List.mem_take_iff_getElem]
  have hl : l.indexOf t < l.length := List.indexOf_lt_length.mpr ht
  exact ⟨l.indexOf t, by omega, List.getElem_indexOf hl⟩

/-- Different timers of a configuration have different first-seen ranks. -/
theorem first_seen_rank_inj (l : List Nat) (t u : Nat) (ht : t ∈ l) (hu : u ∈ l)
    (h : first_seen_rank l t = first_seen_rank l u) : t = u := by
  by_contra hne
  have hidx : l.indexOf t ≠ l.indexOf u := fun e => hne ((List.indexOf_inj ht hu).mp e)
  rcases Nat.lt_or_gt_of_ne hidx with hlt | hlt
  · have := first_seen_rank_lt l (l.indexOf u) t (mem_take_of_indexOf_lt l t _ ht hlt)
    unfold first_seen_rank at h this
    omega
  · have := first_seen_rank_lt l (l.indexOf t) u (mem_take_of_indexOf_lt l u _ hu hlt)
    unfold first_seen_rank at h this
    omega

/-! ## Bank assignment at initialisation -/

/-- C1: for every configuration with at most `PIOS_SERVO_BANKS` distinct timers
(a valid one: fewer than 256 channels, no `NULL` timer), `PIOS_Servo_Init`
returns 0 and afterwards any two channels that share a timer have the same
`PIOS_Servo_GetPinBank`, wherever they stand in the declaration order. -/
theorem init_same_timer_same_bank (P : Board) (s : ServoDriver) (cfg : pios_servo_cfg)
    (_hB : board_valid P) (_hv : cfg_valid cfg)
    (hcard : cfg.timers.toFinset.card ≤ P.PIOS_SERVO_BANKS) :
    ∃ s', PIOS_Servo_Init P s cfg = .ok (s', 0) ∧
      ∀ c c', c < cfg.num_channels → c' < cfg.num_channels →
        (cfg.chan c).timer = (cfg.chan c').timer →
        ∃ b, PIOS_Servo_GetPinBank s' c = .ok b ∧ PIOS_Servo_GetPinBank s' c' = .ok b := by
  obtain ⟨s', hinit, hcfg, _, hpb, _⟩ := init_ok P s cfg hcard
  refine ⟨s', hinit, ?_⟩
  intro c c' hc hc' e
  refine ⟨first_seen_rank cfg.timers (cfg.chan c).timer,
    getPinBank_of_pin_bank s' cfg c _ hcfg hc (hpb c hc), ?_⟩
  rw [e]
  exact getPinBank_of_pin_bank s' cfg c' _ hcfg hc' (hpb c' hc')

/-- Witness of C1 on the non-contiguous configuration `[TIM3, TIM5, TIM3, TIM5]`. -/
theorem init_same_timer_same_bank_witness :
    board_valid example_board ∧ cfg_valid (cfg_ABAB TIM3 TIM5) ∧
    (cfg_ABAB TIM3 TIM5).timers.toFinset.card ≤ example_board.PIOS_SERVO_BANKS ∧
    ∃ s', PIOS_Servo_Init example_board (ServoDriver.startup (hw_reset 0 0)) (cfg_ABAB TIM3 TIM5)
        = .ok (s', 0) ∧
      ∀ c c', c < (cfg_ABAB TIM3 TIM5).num_channels → c' < (cfg_ABAB TIM3 TIM5).num_channels →
        ((cfg_ABAB TIM3 TIM5).chan c).timer = ((cfg_ABAB TIM3 TIM5).chan c').timer →
        ∃ b, PIOS_Servo_GetPinBank s' c = .ok b ∧ PIOS_Servo_GetPinBank s' c' = .ok b :=
  ⟨by decide, by decide, by decide,
    init_same_timer_same_bank example_board _ (cfg_ABAB TIM3 TIM5) (by decide) (by decide)
      (by decide)⟩

/-- C2: bank ids are given in first-seen order. For every valid configuration
with at most `PIOS_SERVO_BANKS` distinct timers, after `PIOS_Servo_Init` the bank of a
channel is the number of distinct timers among the channels declared before the
first channel that uses its timer; channels with different timers have different
banks; and a configuration with timers `[A, A, B, B]` gets banks `[0, 0, 1, 1]`. -/
theorem init_banks_in_first_seen_order (P : Board) (s : ServoDriver) (cfg : pios_servo_cfg)
    (_hB : board_valid P) (_hv : cfg_valid cfg)
    (hcard : cfg.timers.toFinset.card ≤ P.PIOS_SERVO_BANKS) :
    ∃ s', PIOS_Servo_Init P s cfg = .ok (s', 0) ∧
      (∀ c, c < cfg.num_channels →
        PIOS_Servo_GetPinBank s' c
          = .ok ((cfg.timers.take (cfg.timers.indexOf (cfg.chan c).timer)).toFinset.card)) ∧
      (∀ c c', c < cfg.num_channels → c' < cfg.num_channels →
        (cfg.chan c).timer ≠ (cfg.chan c').timer →
        PIOS_Servo_GetPinBank s' c ≠ PIOS_Servo_GetPinBank s' c') ∧
      (∀ a b, a ≠ b → cfg.timers = [a, a, b, b] →
        PIOS_Servo_GetPinBank s' 0 = .ok 0 ∧ PIOS_Servo_GetPinBank s' 1 = .ok 0 ∧
        PIOS_Servo_GetPinBank s' 2 = .ok 1 ∧ PIOS_Servo_GetPinBank s' 3 = .ok 1) := by
  obtain ⟨s', hinit, hcfg, _, hpb, _⟩ := init_ok P s cfg hcard
  have hget : ∀ c, c < cfg.num_channels →
      PIOS_Servo_GetPinBank s' c = .ok (first_seen_rank cfg.timers (cfg.chan c).timer) :=
    fun c hc => getPinBank_of_pin_bank s' cfg c _ hcfg hc (hpb c hc)
  refine ⟨s', hinit, hget, ?_, ?_⟩
  · intro c c' hc hc' hne h
    rw [hget c hc, hget c' hc'] at h
    exact hne (first_seen_rank_inj cfg.timers _ _ (chan_timer_mem cfg c hc)
      (chan_timer_mem cfg c' hc') (Except.ok.inj h))
  · intro a b hab ht
    have hn : cfg.num_channels = 4 := by rw [← timers_length, ht]; rfl
    have h0 : (cfg.chan 0).timer = a := by
      rw [← timers_getElem cfg 0 (by rw [timers_length]; omega)]; simp [ht]
    have h1 : (cfg.chan 1).timer = a := by
      rw [← timers_getElem cfg 1 (by rw [timers_length]; omega)]; simp [ht]
    have h2 : (cfg.chan 2).timer = b := by
      rw [← timers_getElem cfg 2 (by rw [timers_length]; omega)]; simp [ht]
    have h3 : (cfg.chan 3).timer = b := by
      rw [← timers_getElem cfg 3 (by rw [timers_length]; omega)]; simp [ht]
    have ra : first_seen_rank cfg.timers a = 0 := by
      simp [first_seen_rank, ht]
    have rb : first_seen_rank cfg.timers b = 1 := by
      simp [first_seen_rank, ht, List.indexOf_cons_ne _ hab]
    refine ⟨?_, ?_, ?_, ?_⟩
    · rw [hget 0 (by omega), h0, ra]
    · rw [hget 1 (by omega), h1, ra]
    · rw [hget 2 (by omega), h2, rb]
    · rw [hget 3 (by omega), h3, rb]

/-- Witness of C2 on the configuration `[TIM3, TIM3, TIM5, TIM5]`. -/
theorem init_banks_in_first_seen_order_witness :
    board_valid example_board ∧ cfg_valid (cfg_AABB TIM3 TIM5) ∧
    (cfg_AABB TIM3 TIM5).timers.toFinset.card ≤ example_board.PIOS_SERVO_BANKS ∧
    ∃ s', PIOS_Servo_Init example_board (ServoDriver.startup (hw_reset 0 0)) (cfg_AABB TIM3 TIM5)
        = .ok (s', 0) ∧
      (∀ c, c < (cfg_AABB TIM3 TIM5).num_channels →
        PIOS_Servo_GetPinBank s' c
          = .ok (((cfg_AABB TIM3 TIM5).timers.take
              ((cfg_AABB TIM3 TIM5).timers.indexOf ((cfg_AABB TIM3 TIM5).chan c).timer)).toFinset.card)) ∧
      (∀ c c', c < (cfg_AABB TIM3 TIM5).num_channels → c' < (cfg_AABB TIM3 TIM5).num_channels →
        ((cfg_AABB TIM3 TIM5).chan c).timer ≠ ((cfg_AABB TIM3 TIM5).chan c').timer →
        PIOS_Servo_GetPinBank s' c ≠ PIOS_Servo_GetPinBank s' c') ∧
      (∀ a b, a ≠ b → (cfg_AABB TIM3 TIM5).timers = [a, a, b, b] →
        PIOS_Servo_GetPinBank s' 0 = .ok 0 ∧ PIOS_Servo_GetPinBank s' 1 = .ok 0 ∧
        PIOS_Servo_GetPinBank s' 2 = .ok 1 ∧ PIOS_Servo_GetPinBank s' 3 = .ok 1) :=
  ⟨by decide, by decide, by decide,
    init_banks_in_first_seen_order example_board _ (cfg_AABB TIM3 TIM5) (by decide) (by decide)
      (by decide)⟩

/-- C3: on a valid configuration `PIOS_Servo_Init` fails if and only if the
configuration has more than `PIOS_SERVO_BANKS` distinct timers, and then it is the `PIOS_Assert` that fires;
otherwise it returns 0 and every channel has a bank id below
`PIOS_SERVO_BANKS`. -/
theorem init_fails_iff_too_many_timers (P : Board) (s : ServoDriver) (cfg : pios_servo_cfg)
    (_hB : board_valid P) (_hv : cfg_valid cfg) :
    ((∃ e, PIOS_Servo_Init P s cfg = .error e) ↔
        P.PIOS_SERVO_BANKS < cfg.timers.toFinset.card) ∧
    (P.PIOS_SERVO_BANKS < cfg.timers.toFinset.card →
        PIOS_Servo_Init P s cfg = .error .assert_failed) ∧
    (cfg.timers.toFinset.card ≤ P.PIOS_SERVO_BANKS →
        ∃ s', PIOS_Servo_Init P s cfg = .ok (s', 0) ∧
          ∀ c, c < cfg.num_channels →
            ∃ b, PIOS_Servo_GetPinBank s' c = .ok b ∧ b < P.PIOS_SERVO_BANKS) := by
  have hok : cfg.timers.toFinset.card ≤ P.PIOS_SERVO_BANKS →
      ∃ s', PIOS_Servo_Init P s cfg = .ok (s', 0) ∧
        ∀ c, c < cfg.num_channels →
          ∃ b, PIOS_Servo_GetPinBank s' c = .ok b ∧ b < P.PIOS_SERVO_BANKS := by
    intro hcard
    obtain ⟨s', hinit, hcfg, _, hpb, _⟩ := init_ok P s cfg hcard
    refine ⟨s', hinit, fun c hc => ⟨_, getPinBank_of_pin_bank s' cfg c _ hcfg hc (hpb c hc), ?_⟩⟩
    exact Nat.lt_of_lt_of_le
      (first_seen_rank_lt_card cfg.timers _ (chan_timer_mem cfg c hc)) hcard
  refine ⟨⟨?_, fun h => ⟨_, init_fail P s cfg h⟩⟩, init_fail P s cfg, hok⟩
  rintro ⟨e, he⟩
  by_contra hle
  obtain ⟨s', hinit, _⟩ := hok (Nat.le_of_not_lt hle)
  rw [hinit] at he
  exact absurd he (by simp)

/-- Witness of C3: two distinct timers on a board built with one bank. -/
theorem init_fails_iff_too_many_timers_witness :
    board_valid one_bank_board ∧ cfg_valid (cfg_ABAB TIM3 TIM5) ∧
    (((∃ e, PIOS_Servo_Init one_bank_board (ServoDriver.startup (hw_reset 0 0))
          (cfg_ABAB TIM3 TIM5) = .error e) ↔
        one_bank_board.PIOS_SERVO_BANKS < (cfg_ABAB TIM3 TIM5).timers.toFinset.card) ∧
    (one_bank_board.PIOS_SERVO_BANKS < (cfg_ABAB TIM3 TIM5).timers.toFinset.card →
        PIOS_Servo_Init one_bank_board (ServoDriver.startup (hw_reset 0 0)) (cfg_ABAB TIM3 TIM5)
          = .error .assert_failed) ∧
    ((cfg_ABAB TIM3 TIM5).timers.toFinset.card ≤ one_bank_board.PIOS_SERVO_BANKS →
        ∃ s', PIOS_Servo_Init one_bank_board (ServoDriver.startup (hw_reset 0 0))
            (cfg_ABAB TIM3 TIM5) = .ok (s', 0) ∧
          ∀ c, c < (cfg_ABAB TIM3 TIM5).num_channels →
            ∃ b, PIOS_Servo_GetPinBank s' c = .ok b ∧ b < one_bank_board.PIOS_SERVO_BANKS)) :=
  ⟨by decide, by decide,
    init_fails_iff_too_many_timers one_bank_board _ (cfg_ABAB TIM3 TIM5) (by decide) (by decide)⟩

/-- Every bank id below the number of distinct timers is the first-seen rank of
a timer of the configuration. -/
theorem first_seen_rank_surj (l : List Nat) (b : Nat) (hb : b < l.toFinset.card) :
    ∃ t, t ∈ l ∧ first_seen_rank l t = b := by
  have hsub : l.toFinset.image (first_seen_rank l) ⊆ Finset.range l.toFinset.card := by
    intro x hx
    obtain ⟨t, ht, rfl⟩ := Finset.mem_image.mp hx
    exact Finset.mem_range.mpr (first_seen_rank_lt_card l t (List.mem_toFinset.mp ht))
  have hcard : (l.toFinset.image (first_seen_rank l)).card = l.toFinset.card := by
    apply Finset.card_image_of_injOn
    intro t ht u hu e
    exact first_seen_rank_inj l t u (List.mem_toFinset.mp ht) (List.mem_toFinset.mp hu) e
  have heq : l.toFinset.image (first_seen_rank l) = Finset.range l.toFinset.card :=
    Finset.eq_of_subset_of_card_le hsub (by rw [hcard, Finset.card_range])
  have hmem : b ∈ l.toFinset.image (first_seen_rank l) := by
    rw [heq]; exact Finset.mem_range.mpr hb
  obtain ⟨t, ht, e⟩ := Finset.mem_image.mp hmem
  exact ⟨t, List.mem_toFinset.mp ht, e⟩

/-- `PIOS_Servo_Init` run on the startup state with a valid configuration of at
most `PIOS_SERVO_BANKS` distinct timers leaves an initialised, enabled driver. -/
theorem init_establishes_initialised (P : Board) (hw : Hardware) (cfg : pios_servo_cfg)
    (hv : cfg_valid cfg) (hu : cfg_has_compare_units cfg) (hcard : cfg.timers.toFinset.card ≤ P.PIOS_SERVO_BANKS) :
    ∃ s', PIOS_Servo_Init P (ServoDriver.startup hw) cfg = .ok (s', 0) ∧
      Initialised P s' cfg ∧ s'.pios_servo_enabled = true := by
  obtain ⟨s', hinit, hcfg, hen, hpb, hbt, hrest, _⟩ := init_ok P (ServoDriver.startup hw) cfg hcard
  refine ⟨s', hinit, ⟨hcfg, ⟨hv, hu⟩, ?_, ?_⟩, hen⟩
  · intro c hc
    refine ⟨_, ?_, hpb c hc, hbt _ (chan_timer_mem cfg c hc)⟩
    exact Nat.lt_of_lt_of_le
      (first_seen_rank_lt_card cfg.timers _ (chan_timer_mem cfg c hc)) hcard
  · intro b _ b' _ hne e
    have hlt : b < cfg.timers.toFinset.card := by
      by_contra h
      exact hne (hrest b (Nat.le_of_not_lt h))
    have hlt' : b' < cfg.timers.toFinset.card := by
      by_contra h
      apply hne
      rw [e]
      exact hrest b' (Nat.le_of_not_lt h)
    obtain ⟨t, ht, rfl⟩ := first_seen_rank_surj cfg.timers b hlt
    obtain ⟨t', ht', rfl⟩ := first_seen_rank_surj cfg.timers b' hlt'
    rw [hbt t ht, hbt t' ht'] at e
    rw [e]

/-! ## `PIOS_Servo_Set` -/

/-- For a 16-bit position the clamp of `PIOS_Servo_Set` is the minimum of the
position and `arr - arr / 50`, whatever the 32-bit period `arr` is. -/
theorem servo_clamp_eq_min (arr w : Nat) (h : w < 65536) :
    servo_clamp arr w = min w (arr - arr / 50) := by
  unfold servo_clamp
  simp only
  split <;> omega

theorem getCompare_setCompare_same (hw : Hardware) (t : Nat) (tc : TimChannel) (v : Nat)
    (h : tc ≠ TimChannel.unmatched) :
    TIM_GetCompare (TIM_SetCompare hw t tc v) t tc = some v := by
  cases tc <;> simp [TIM_GetCompare, TIM_SetCompare, Hardware.modify_tim] at h ⊢

/-- An effective `PIOS_Servo_Set` in closed form. -/
theorem set_effective (P : Board) (s : ServoDriver) (cfg : pios_servo_cfg) (servo position : Nat)
    (hinit : Initialised P s cfg) (hen : s.pios_servo_enabled = true)
    (hc : servo < cfg.num_channels) :
    ∃ b, b < P.PIOS_SERVO_BANKS ∧ s.pios_servo_pin_bank servo = some b ∧
      PIOS_Servo_Set P s servo position = .ok
        { s with
            pios_servo_bank_max_pulse :=
              if s.pios_servo_bank_max_pulse b
                  < servo_clamp (s.hw.tim (cfg.chan servo).timer).ARR position then
                Function.update s.pios_servo_bank_max_pulse b
                  (servo_clamp (s.hw.tim (cfg.chan servo).timer).ARR position)
              else s.pios_servo_bank_max_pulse
            hw := TIM_SetCompare s.hw (cfg.chan servo).timer (cfg.chan servo).timer_chan
                    (servo_clamp (s.hw.tim (cfg.chan servo).timer).ARR position) } := by
  obtain ⟨hcfg, _, hpb, _⟩ := hinit
  obtain ⟨b, hb, hpbc, _⟩ := hpb servo hc
  refine ⟨b, hb, hpbc, ?_⟩
  have hnc : ¬ servo ≥ cfg.num_channels := by omega
  simp only [PIOS_Servo_Set, hcfg, hen, hpbc, hb, hnc, Bool.not_true, decide_False,
    Bool.or_self, Bool.false_eq_true, if_false, not_true_eq_false]

/-- C4: on an initialised and enabled driver, `PIOS_Servo_Set(channel, width)`
with `channel < num_channels` returns and leaves in the channel's compare
register exactly `min(width, period - margin)`, `period` being the `ARR` of the
channel's timer and `margin = period / 50` (truncating): a width above
`period - margin` is stored as `period - margin`, any other width unchanged, the
stored value never exceeds `period - margin`, and with `period = 20000` the
width 19999 is stored as 19600. -/
theorem set_stores_clamped_width (P : Board) (s : ServoDriver) (cfg : pios_servo_cfg)
    (channel width : Nat)
    (hinit : Initialised P s cfg) (hen : s.pios_servo_enabled = true)
    (hc : channel < cfg.num_channels) (hw : width < 65536) :
    ∃ s' v, PIOS_Servo_Set P s channel width = .ok s' ∧
      channel_compare s'.hw cfg channel = some v ∧
      v = min width ((s.hw.tim (cfg.chan channel).timer).ARR
                      - (s.hw.tim (cfg.chan channel).timer).ARR / 50) ∧
      (width > (s.hw.tim (cfg.chan channel).timer).ARR
                  - (s.hw.tim (cfg.chan channel).timer).ARR / 50 →
        v = (s.hw.tim (cfg.chan channel).timer).ARR
              - (s.hw.tim (cfg.chan channel).timer).ARR / 50) ∧
      (width ≤ (s.hw.tim (cfg.chan channel).timer).ARR
                  - (s.hw.tim (cfg.chan channel).timer).ARR / 50 → v = width) ∧
      v ≤ (s.hw.tim (cfg.chan channel).timer).ARR
            - (s.hw.tim (cfg.chan channel).timer).ARR / 50 ∧
      ((s.hw.tim (cfg.chan channel).timer).ARR = 20000 → width = 19999 → v = 19600) := by
  obtain ⟨b, _, _, hset⟩ := set_effective P s cfg channel width hinit hen hc
  have htc : (cfg.chan channel).timer_chan ≠ TimChannel.unmatched :=
    hinit.2.1.2 _ (chan_mem cfg channel hc)
  refine ⟨_, _, hset, ?_, servo_clamp_eq_min _ _ hw, ?_, ?_, ?_, ?_⟩
  · exact getCompare_setCompare_same _ _ _ _ htc
  · intro h; rw [servo_clamp_eq_min _ _ hw]; omega
  · intro h; rw [servo_clamp_eq_min _ _ hw]; omega
  · rw [servo_clamp_eq_min _ _ hw]; omega
  · intro h1 h2; rw [servo_clamp_eq_min _ _ hw, h1, h2]; rfl

/-- Witness of C4: period 20000, width 19999 on channel 2. -/
theorem set_stores_clamped_width_witness :
    Initialised example_board (example_driver 20000 0) (cfg_AABB TIM3 TIM5) ∧
    (example_driver 20000 0).pios_servo_enabled = true ∧
    2 < (cfg_AABB TIM3 TIM5).num_channels ∧ 19999 < 65536 ∧
    ∃ s' v, PIOS_Servo_Set example_board (example_driver 20000 0) 2 19999 = .ok s' ∧
      channel_compare s'.hw (cfg_AABB TIM3 TIM5) 2 = some v ∧
      v = min 19999 (((example_driver 20000 0).hw.tim ((cfg_AABB TIM3 TIM5).chan 2).timer).ARR
                      - ((example_driver 20000 0).hw.tim ((cfg_AABB TIM3 TIM5).chan 2).timer).ARR / 50) ∧
      (19999 > ((example_driver 20000 0).hw.tim ((cfg_AABB TIM3 TIM5).chan 2).timer).ARR
                  - ((example_driver 20000 0).hw.tim ((cfg_AABB TIM3 TIM5).chan 2).timer).ARR / 50 →
        v = ((example_driver 20000 0).hw.tim ((cfg_AABB TIM3 TIM5).chan 2).timer).ARR
              - ((example_driver 20000 0).hw.tim ((cfg_AABB TIM3 TIM5).chan 2).timer).ARR / 50) ∧
      (19999 ≤ ((example_driver 20000 0).hw.tim ((cfg_AABB TIM3 TIM5).chan 2).timer).ARR
                  - ((example_driver 20000 0).hw.tim ((cfg_AABB TIM3 TIM5).chan 2).timer).ARR / 50 →
        v = 19999) ∧
      v ≤ ((example_driver 20000 0).hw.tim ((cfg_AABB TIM3 TIM5).chan 2).timer).ARR
            - ((example_driver 20000 0).hw.tim ((cfg_AABB TIM3 TIM5).chan 2).timer).ARR / 50 ∧
      (((example_driver 20000 0).hw.tim ((cfg_AABB TIM3 TIM5).chan 2).timer).ARR = 20000 →
        19999 = 19999 → v = 19600) :=
  ⟨by decide, by decide, by decide, by decide,
    set_stores_clamped_width example_board (example_driver 20000 0) (cfg_AABB TIM3 TIM5) 2 19999
      (by decide) (by decide) (by decide) (by decide)⟩

theorem disable_blocks_set (s : ServoDriver) :
    (PIOS_Servo_Disable s).servo_cfg = none ∨ (PIOS_Servo_Disable s).pios_servo_enabled = false := by
  unfold PIOS_Servo_Disable
  cases h : s.servo_cfg with
  | none => exact Or.inl h
  | some cfg =>
    right
    show ServoDriver.pios_servo_enabled (List.foldl disable_channel _ _) = false
    rw [foldl_preserves ServoDriver.pios_servo_enabled disable_channel (fun _ _ => rfl)]

theorem set_ignored (P : Board) (s : ServoDriver) (servo position : Nat)
    (h : s.pios_servo_enabled = false ∨ s.servo_cfg = none ∨
        ∃ cfg, s.servo_cfg = some cfg ∧ cfg.num_channels ≤ servo) :
    PIOS_Servo_Set P s servo position = .ok s := by
  unfold PIOS_Servo_Set
  rcases h with h | h | ⟨cfg, h, hn⟩
  · cases hc : s.servo_cfg <;> simp [h]
  · simp [h]
  · simp only [h]
    have hd : decide (servo ≥ cfg.num_channels) = true := decide_eq_true hn
    rw [hd, Bool.or_true, if_pos rfl]

theorem set_all_ignored (P : Board) (s : ServoDriver)
    (h : s.servo_cfg = none ∨ s.pios_servo_enabled = false) (l : List (Nat × Nat)) :
    set_all P s l = .ok s := by
  unfold set_all
  induction l with
  | nil => rfl
  | cons cw l ih =>
    rw [List.foldlM_cons, set_ignored P s cw.1 cw.2 (by tauto)]
    exact ih

/-- C5: `PIOS_Servo_Set` returns without an error and leaves the whole state
(every compare register, every bank's `max_pulse` and `next_update`) as it was
whenever the driver is disabled, or not initialised, or the channel is not below
`num_channels`; and after `PIOS_Servo_Disable` any sequence of `PIOS_Servo_Set`
calls leaves the state, its compare registers included, unchanged. -/
theorem set_is_noop_when_not_ready (P : Board) (s : ServoDriver) (channel width : Nat)
    (h : s.pios_servo_enabled = false ∨ s.servo_cfg = none ∨
        ∃ cfg, s.servo_cfg = some cfg ∧ cfg.num_channels ≤ channel) :
    PIOS_Servo_Set P s channel width = .ok s ∧
    ∀ (s0 : ServoDriver) (calls : List (Nat × Nat)),
      set_all P (PIOS_Servo_Disable s0) calls = .ok (PIOS_Servo_Disable s0) :=
  ⟨set_ignored P s channel width h,
    fun s0 calls => set_all_ignored P _ (disable_blocks_set s0) calls⟩

/-- Witness of C5: channel 7 of a four-channel configuration. -/
theorem set_is_noop_when_not_ready_witness :
    ((example_driver 20000 0).pios_servo_enabled = false ∨ (example_driver 20000 0).servo_cfg = none ∨
        ∃ cfg, (example_driver 20000 0).servo_cfg = some cfg ∧ cfg.num_channels ≤ 7) ∧
    (PIOS_Servo_Set example_board (example_driver 20000 0) 7 1500 = .ok (example_driver 20000 0) ∧
    ∀ (s0 : ServoDriver) (calls : List (Nat × Nat)),
      set_all example_board (PIOS_Servo_Disable s0) calls = .ok (PIOS_Servo_Disable s0)) :=
  ⟨Or.inr (Or.inr ⟨cfg_AABB TIM3 TIM5, by decide, by decide⟩),
    set_is_noop_when_not_ready example_board (example_driver 20000 0) 7 1500
      (Or.inr (Or.inr ⟨cfg_AABB TIM3 TIM5, by decide, by decide⟩))⟩

/-! ## Loops with an invariant -/

theorem foldl_range_inv {σ : Type} (f : σ → Nat → σ) (I : Nat → σ → Prop) (n : Nat) (s0 : σ)
    (h0 : I 0 s0) (hstep : ∀ k, k < n → ∀ s, I k s → I (k + 1) (f s k)) :
    I n ((List.range n).foldl f s0) := by
  induction n with
  | zero => exact h0
  | succ n ih =>
    rw [List.range_succ, List.foldl_append]
    exact hstep n (Nat.lt_succ_self n) _ (ih (fun k hk s hs => hstep k (Nat.lt_succ_of_lt hk) s hs))

theorem foldlM_range_inv {σ : Type} (f : σ → Nat → Except Fault σ) (I : Nat → σ → Prop)
    (n : Nat) (s0 : σ) (h0 : I 0 s0)
    (hstep : ∀ k, k < n → ∀ s, I k s → ∃ s', f s k = .ok s' ∧ I (k + 1) s') :
    ∃ s', (List.range n).foldlM f s0 = .ok s' ∧ I n s' := by
  induction n with
  | zero => exact ⟨s0, rfl, h0⟩
  | succ n ih =>
    obtain ⟨s1, h1, i1⟩ := ih (fun k hk s hs => hstep k (Nat.lt_succ_of_lt hk) s hs)
    obtain ⟨s2, h2, i2⟩ := hstep n (Nat.lt_succ_self n) s1 i1
    refine ⟨s2, ?_, i2⟩
    rw [List.range_succ, List.foldlM_append, h1]
    simp only [bind, Except.bind, List.foldlM_cons, List.foldlM_nil]
    rw [h2]
    rfl

/-! ## `PIOS_Servo_Update`: the bank loop -/

theorem rearm_count_succ (P : Board) (s : ServoDriver) (k t : Nat) :
    rearm_count P s (k + 1) t
      = rearm_count P s k t
        + (if s.pios_servo_bank_timer k = t ∧ rearm_due P s k then 1 else 0) := by
  unfold rearm_count
  rw [List.range_succ, List.countP_append]
  by_cases h : s.pios_servo_bank_timer k = t ∧ rearm_due P s k
  · simp [List.countP_cons, h]
  · simp [List.countP_cons, h]

theorem bank_loop_step (P : Board) (s : ServoDriver) (k : Nat) (st : ServoDriver)
    (inv : BankLoopInv P s k st) : BankLoopInv P s (k + 1) (update_bank P st k) := by
  have hnu : st.pios_servo_bank_next_update k = s.pios_servo_bank_next_update k := by
    rw [inv.next_update k, if_neg (fun h => Nat.lt_irrefl k h.1)]
  have hmp : st.pios_servo_bank_max_pulse k = s.pios_servo_bank_max_pulse k := by
    rw [inv.max_pulse k, if_neg (Nat.lt_irrefl k)]
  have hcnt : TIM_GetCounter st.hw (s.pios_servo_bank_timer k)
      = TIM_GetCounter s.hw (s.pios_servo_bank_timer k) := by
    unfold TIM_GetCounter; rw [inv.tim]
  by_cases hdue : rearm_due P s k
  · -- the update event is generated
    have hc1 : s.pios_servo_bank_timer k ≠ 0 ∧
        s.pios_servo_bank_mode k = P.PIOS_SERVO_BANK_MODE_SINGLE_PULSE := ⟨hdue.1, hdue.2.1⟩
    have hc2 : TIM_GetCounter s.hw (s.pios_servo_bank_timer k)
        > s.pios_servo_bank_next_update k + PIOS_SERVO_SAFE_MARGIN := hdue.2.2
    have hstep : update_bank P st k =
        { st with
            hw := TIM_GenerateEvent st.hw (s.pios_servo_bank_timer k)
            pios_servo_bank_next_update :=
              Function.update st.pios_servo_bank_next_update k (s.pios_servo_bank_max_pulse k)
            pios_servo_bank_max_pulse := Function.update st.pios_servo_bank_max_pulse k 0 } := by
      unfold update_bank
      simp only [inv.timer_eq, inv.mode_eq, hc1, hcnt, hnu, hc2, hmp, and_self, if_true,
        ne_eq, not_false_eq_true]
    rw [hstep]
    refine ⟨inv.cfg_eq, inv.mode_eq, inv.timer_eq, inv.pin_bank_eq, inv.enabled_eq, ?_, ?_, ?_, ?_⟩
    · simp [TIM_GenerateEvent, Hardware.modify_tim, inv.pin_eq]
    · intro i
      show Function.update st.pios_servo_bank_next_update k _ i = _
      by_cases hik : i = k
      · subst hik; simp [hdue]
      · rw [Function.update_noteq hik, inv.next_update i]
        have : (i < k + 1 ∧ rearm_due P s i) ↔ (i < k ∧ rearm_due P s i) := by
          constructor
          · rintro ⟨h1, h2⟩; exact ⟨by omega, h2⟩
          · rintro ⟨h1, h2⟩; exact ⟨by omega, h2⟩
        simp only [this]
    · intro i
      show Function.update st.pios_servo_bank_max_pulse k 0 i = _
      by_cases hik : i = k
      · subst hik; simp
      · rw [Function.update_noteq hik, inv.max_pulse i]
        have : i < k + 1 ↔ i < k := by omega
        simp only [this]
    · intro t
      show (TIM_GenerateEvent st.hw (s.pios_servo_bank_timer k)).tim t = _
      rw [rearm_count_succ]
      by_cases ht : t = s.pios_servo_bank_timer k
      · subst ht
        simp [TIM_GenerateEvent, Hardware.modify_tim, inv.tim, hdue, Nat.add_assoc]
      · have ht2 : ¬ (s.pios_servo_bank_timer k = t ∧ rearm_due P s k) := fun h => ht h.1.symm
        simp [TIM_GenerateEvent, Hardware.modify_tim, Function.update_noteq ht, inv.tim, ht2]
  · -- no event
    have hstep : update_bank P st k =
        { st with
            pios_servo_bank_max_pulse := Function.update st.pios_servo_bank_max_pulse k 0 } := by
      unfold update_bank
      simp only [inv.timer_eq, inv.mode_eq, hcnt, hnu]
      by_cases hc1 : s.pios_servo_bank_timer k ≠ 0 ∧
          s.pios_servo_bank_mode k = P.PIOS_SERVO_BANK_MODE_SINGLE_PULSE
      · have hc2 : ¬ TIM_GetCounter s.hw (s.pios_servo_bank_timer k)
            > s.pios_servo_bank_next_update k + PIOS_SERVO_SAFE_MARGIN :=
          fun h => hdue ⟨hc1.1, hc1.2, h⟩
        rw [if_pos hc1, if_neg hc2, inv.mode_eq, inv.timer_eq]
      · rw [if_neg hc1, inv.mode_eq, inv.timer_eq]
    rw [hstep]
    refine ⟨inv.cfg_eq, inv.mode_eq, inv.timer_eq, inv.pin_bank_eq, inv.enabled_eq, inv.pin_eq,
      ?_, ?_, ?_⟩
    · intro i
      show st.pios_servo_bank_next_update i = _
      rw [inv.next_update i]
      by_cases hik : i = k
      · subst hik; simp [hdue]
      · have : (i < k + 1 ∧ rearm_due P s i) ↔ (i < k ∧ rearm_due P s i) := by
          constructor
          · rintro ⟨h1, h2⟩; exact ⟨by omega, h2⟩
          · rintro ⟨h1, h2⟩; exact ⟨by omega, h2⟩
        simp only [this]
    · intro i
      show Function.update st.pios_servo_bank_max_pulse k 0 i = _
      by_cases hik : i = k
      · subst hik; simp
      · rw [Function.update_noteq hik, inv.max_pulse i]
        have : i < k + 1 ↔ i < k := by omega
        simp only [this]
    · intro t
      rw [rearm_count_succ, inv.tim]
      have ht2 : ¬ (s.pios_servo_bank_timer k = t ∧ rearm_due P s k) := fun h => hdue h.2
      simp [ht2]

theorem bank_loop_spec (P : Board) (s : ServoDriver) :
    BankLoopInv P s P.PIOS_SERVO_BANKS ((List.range P.PIOS_SERVO_BANKS).foldl (update_bank P) s) := by
  apply foldl_range_inv (update_bank P) (BankLoopInv P s)
  · refine ⟨rfl, rfl, rfl, rfl, rfl, rfl, ?_, ?_, ?_⟩
    · intro i; simp
    · intro i; simp
    · intro t; simp [rearm_count]
  · intro k _ st inv
    exact bank_loop_step P s k st inv

/-! ## `PIOS_Servo_Update`: the channel loop -/

theorem getCompare_setCompare (hw : Hardware) (t : Nat) (tc : TimChannel) (v : Nat)
    (t' : Nat) (tc' : TimChannel) :
    TIM_GetCompare (TIM_SetCompare hw t tc v) t' tc'
      = if t' = t ∧ tc' = tc ∧ tc' ≠ TimChannel.unmatched then some v
        else TIM_GetCompare hw t' tc' := by
  by_cases ht : t' = t
  · subst ht
    cases tc <;> cases tc' <;>
      simp [TIM_GetCompare, TIM_SetCompare, Hardware.modify_tim]
  · cases tc <;> cases tc' <;>
      simp [TIM_GetCompare, TIM_SetCompare, Hardware.modify_tim, Function.update_noteq ht, ht]

theorem no_ccr_setCompare (hw : Hardware) (t : Nat) (tc : TimChannel) (v : Nat) (t' : Nat) :
    ((TIM_SetCompare hw t tc v).tim t').no_ccr = (hw.tim t').no_ccr := by
  by_cases ht : t' = t
  · subst ht
    cases tc <;> simp [TIM_SetCompare, Hardware.modify_tim, TIM_TypeDef.no_ccr]
  · cases tc <;>
      simp [TIM_SetCompare, Hardware.modify_tim, TIM_TypeDef.no_ccr, Function.update_noteq ht]

theorem pin_setCompare (hw : Hardware) (t : Nat) (tc : TimChannel) (v : Nat) :
    (TIM_SetCompare hw t tc v).pin = hw.pin := by
  cases tc <;> rfl

theorem initialised_congr (P : Board) (s s' : ServoDriver) (cfg : pios_servo_cfg)
    (h1 : s'.servo_cfg = s.servo_cfg) (h2 : s'.pios_servo_pin_bank = s.pios_servo_pin_bank)
    (h3 : s'.pios_servo_bank_timer = s.pios_servo_bank_timer) (h : Initialised P s cfg) :
    Initialised P s' cfg := by
  unfold Initialised at h ⊢
  rw [h1, h2, h3]
  exact h

theorem zeroed_by_update_succ (P : Board) (s : ServoDriver) (cfg : pios_servo_cfg) (k : Nat)
    (t : Nat) (tc : TimChannel) :
    zeroed_by_update P s cfg (k + 1) t tc ↔
      zeroed_by_update P s cfg k t tc ∨
      ((cfg.chan k).timer = t ∧ (cfg.chan k).timer_chan = tc ∧
        ∃ b, s.pios_servo_pin_bank k = some b ∧
          s.pios_servo_bank_mode b = P.PIOS_SERVO_BANK_MODE_SINGLE_PULSE) := by
  unfold zeroed_by_update
  constructor
  · rintro ⟨c, hc, h⟩
    by_cases hck : c = k
    · subst hck; exact Or.inr h
    · exact Or.inl ⟨c, by omega, h⟩
  · rintro (⟨c, hc, h⟩ | h)
    · exact ⟨c, by omega, h⟩
    · exact ⟨k, by omega, h⟩

theorem chan_loop_step (P : Board) (s1 : ServoDriver) (cfg : pios_servo_cfg)
    (hinit : Initialised P s1 cfg) (k : Nat) (hk : k < cfg.num_channels) (st : ServoDriver)
    (inv : ChanLoopInv P s1 cfg k st) :
    ∃ st', update_channel P cfg st k = .ok st' ∧ ChanLoopInv P s1 cfg (k + 1) st' := by
  obtain ⟨b, hb, hpb, _⟩ := hinit.2.2.1 k hk
  have hT := sameTables_of_tables inv.tables_eq
  have htc : (cfg.chan k).timer_chan ≠ TimChannel.unmatched :=
    hinit.2.1.2 _ (chan_mem cfg k hk)
  have hpb' : st.pios_servo_pin_bank k = some b := by rw [hT.pin_bank_eq]; exact hpb
  by_cases hsp : s1.pios_servo_bank_mode b = P.PIOS_SERVO_BANK_MODE_SINGLE_PULSE
  · refine ⟨{ st with hw := TIM_SetCompare st.hw (cfg.chan k).timer (cfg.chan k).timer_chan 0 },
      ?_, ?_⟩
    · simp only [update_channel, hpb', hb, hT.mode_eq, hsp, not_true_eq_false, if_false, if_true]
    · refine ⟨inv.tables_eq, inv.enabled_eq, ?_, ?_, ?_, ?_⟩
      · show (TIM_SetCompare st.hw _ _ 0).pin = _
        rw [pin_setCompare]; exact inv.pin_eq
      · intro t
        show ((TIM_SetCompare st.hw _ _ 0).tim t).no_ccr = _
        rw [no_ccr_setCompare]; exact inv.regs t
      · intro t tc htc' hz
        show TIM_GetCompare (TIM_SetCompare st.hw _ _ 0) t tc = _
        rw [getCompare_setCompare]
        by_cases e : t = (cfg.chan k).timer ∧ tc = (cfg.chan k).timer_chan ∧
            tc ≠ TimChannel.unmatched
        · rw [if_pos e]
        · rw [if_neg e]
          rcases (zeroed_by_update_succ P s1 cfg k t tc).mp hz with h | h
          · exact inv.ccr_zeroed t tc htc' h
          · exact absurd ⟨h.1.symm, h.2.1.symm, htc'⟩ e
      · intro t tc hz
        show TIM_GetCompare (TIM_SetCompare st.hw _ _ 0) t tc = _
        rw [getCompare_setCompare]
        have hz' : ¬ zeroed_by_update P s1 cfg k t tc :=
          fun h => hz ((zeroed_by_update_succ P s1 cfg k t tc).mpr (Or.inl h))
        have e : ¬ (t = (cfg.chan k).timer ∧ tc = (cfg.chan k).timer_chan ∧
            tc ≠ TimChannel.unmatched) := by
          rintro ⟨e1, e2, _⟩
          exact hz ((zeroed_by_update_succ P s1 cfg k t tc).mpr
            (Or.inr ⟨e1.symm, e2.symm, b, hpb, hsp⟩))
        rw [if_neg e]
        exact inv.ccr_kept t tc hz'
  · refine ⟨st, ?_, ?_⟩
    · simp only [update_channel, hpb', hb, hT.mode_eq, hsp, not_true_eq_false, if_false]
    · have hiff : ∀ t tc, zeroed_by_update P s1 cfg (k + 1) t tc ↔
          zeroed_by_update P s1 cfg k t tc := by
        intro t tc
        rw [zeroed_by_update_succ]
        constructor
        · rintro (h | ⟨_, _, b', hb', hm'⟩)
          · exact h
          · rw [hpb] at hb'
            cases hb'
            exact absurd hm' hsp
        · exact Or.inl
      refine ⟨inv.tables_eq, inv.enabled_eq, inv.pin_eq, inv.regs, ?_, ?_⟩
      · intro t tc htc' hz
        exact inv.ccr_zeroed t tc htc' ((hiff t tc).mp hz)
      · intro t tc hz
        exact inv.ccr_kept t tc (fun h => hz ((hiff t tc).mpr h))

theorem getCompare_of_tim_eq_but_UG (hw hw' : Hardware) (t : Nat) (tc : TimChannel) (n : Nat)
    (h : hw'.tim t = { hw.tim t with UG := n }) :
    TIM_GetCompare hw' t tc = TIM_GetCompare hw t tc := by
  cases tc <;> simp [TIM_GetCompare, h]

/-- An enabled `PIOS_Servo_Update` on an initialised driver returns, and its
effect is the one `UpdateResult` describes. -/
theorem update_spec (P : Board) (s : ServoDriver) (cfg : pios_servo_cfg)
    (hinit : Initialised P s cfg) (hen : s.pios_servo_enabled = true) :
    ∃ s', PIOS_Servo_Update P s = .ok s' ∧ UpdateResult P s cfg s' := by
  have hbank := bank_loop_spec P s
  generalize hs1 : (List.range P.PIOS_SERVO_BANKS).foldl (update_bank P) s = s1 at hbank
  have hinit1 : Initialised P s1 cfg :=
    initialised_congr P s s1 cfg hbank.cfg_eq hbank.pin_bank_eq hbank.timer_eq hinit
  have hz : ∀ k t tc, zeroed_by_update P s1 cfg k t tc ↔ zeroed_by_update P s cfg k t tc := by
    intro k t tc
    unfold zeroed_by_update
    rw [hbank.pin_bank_eq, hbank.mode_eq]
  obtain ⟨s', hrun, inv⟩ := foldlM_range_inv (update_channel P cfg) (ChanLoopInv P s1 cfg)
    cfg.num_channels s1
    ⟨rfl, rfl, rfl, fun _ => rfl,
      fun t tc _ h => by
        obtain ⟨c, hc, _⟩ := h
        exact absurd hc (Nat.not_lt_zero c),
      fun _ _ _ => rfl⟩
    (fun k hk st hst => chan_loop_step P s1 cfg hinit1 k hk st hst)
  have hT := sameTables_of_tables inv.tables_eq
  refine ⟨s', ?_, ?_⟩
  · unfold PIOS_Servo_Update
    simp only [hen, Bool.not_true, Bool.false_eq_true, if_false, hs1]
    rw [hbank.cfg_eq, hinit.1]
    exact hrun
  · refine ⟨?_, ?_, ?_, ?_, ?_, ?_, ?_, ?_, ?_, ?_, ?_⟩
    · rw [hT.cfg_eq, hbank.cfg_eq]
    · rw [hT.mode_eq, hbank.mode_eq]
    · rw [hT.timer_eq, hbank.timer_eq]
    · rw [hT.pin_bank_eq, hbank.pin_bank_eq]
    · rw [inv.enabled_eq, hbank.enabled_eq]
    · rw [inv.pin_eq, hbank.pin_eq]
    · intro i; rw [hT.next_update_eq]; exact hbank.next_update i
    · intro i; rw [hT.max_pulse_eq]; exact hbank.max_pulse i
    · intro t; rw [inv.regs t, hbank.tim t]; rfl
    · intro t tc htc h
      exact inv.ccr_zeroed t tc htc ((hz _ t tc).mpr h)
    · intro t tc h
      rw [inv.ccr_kept t tc (fun h' => h ((hz _ t tc).mp h'))]
      exact getCompare_of_tim_eq_but_UG s.hw s1.hw t tc _ (hbank.tim t)

theorem update_initialised (P : Board) (s s' : ServoDriver) (cfg : pios_servo_cfg)
    (h : UpdateResult P s cfg s') (hinit : Initialised P s cfg) : Initialised P s' cfg :=
  initialised_congr P s s' cfg h.cfg_eq h.pin_bank_eq h.timer_eq hinit

theorem set_initialised (P : Board) (s s' : ServoDriver) (cfg : pios_servo_cfg)
    (servo position : Nat) (hinit : Initialised P s cfg)
    (h : PIOS_Servo_Set P s servo position = .ok s') :
    Initialised P s' cfg ∧ s'.pios_servo_enabled = s.pios_servo_enabled ∧
      s'.pios_servo_bank_mode = s.pios_servo_bank_mode ∧
      s'.pios_servo_pin_bank = s.pios_servo_pin_bank ∧
      s'.pios_servo_bank_next_update = s.pios_servo_bank_next_update ∧
      (∀ t, (s'.hw.tim t).no_ccr = (s.hw.tim t).no_ccr) := by
  by_cases hready : s.pios_servo_enabled = true ∧ servo < cfg.num_channels
  · obtain ⟨b, _, _, hset⟩ := set_effective P s cfg servo position hinit hready.1 hready.2
    rw [hset] at h
    cases h
    exact ⟨initialised_congr P s _ cfg rfl rfl rfl hinit, rfl, rfl, rfl, rfl,
      fun t => no_ccr_setCompare _ _ _ _ t⟩
  · have hign : PIOS_Servo_Set P s servo position = .ok s := by
      apply set_ignored
      by_cases hen : s.pios_servo_enabled = true
      · right; right
        exact ⟨cfg, hinit.1, Nat.le_of_not_lt (fun hlt => hready ⟨hen, hlt⟩)⟩
      · left; simpa using hen
    rw [hign] at h
    cases h
    exact ⟨hinit, rfl, rfl, rfl, rfl, fun _ => rfl⟩

/-- C6: after any `PIOS_Servo_Update` run on an initialised and enabled driver,
the compare register of every channel whose bank is in single pulse mode is 0,
whatever the counters were (whether or not the re-arm event fired); hence
`Set(c, 500); Update(); Update()` leaves the compare register of such a channel
`c` at 0. -/
theorem update_zeroes_single_pulse_channels (P : Board) (s : ServoDriver)
    (cfg : pios_servo_cfg) (_hB : board_valid P) (hinit : Initialised P s cfg)
    (hen : s.pios_servo_enabled = true) :
    ∃ s', PIOS_Servo_Update P s = .ok s' ∧
      (∀ c b, c < cfg.num_channels → s.pios_servo_pin_bank c = some b →
        s.pios_servo_bank_mode b = P.PIOS_SERVO_BANK_MODE_SINGLE_PULSE →
        channel_compare s'.hw cfg c = some 0) ∧
      (∀ c b, c < cfg.num_channels → s.pios_servo_pin_bank c = some b →
        s.pios_servo_bank_mode b = P.PIOS_SERVO_BANK_MODE_SINGLE_PULSE →
        ∃ s1 s2 s3, PIOS_Servo_Set P s c 500 = .ok s1 ∧ PIOS_Servo_Update P s1 = .ok s2 ∧
          PIOS_Servo_Update P s2 = .ok s3 ∧ channel_compare s3.hw cfg c = some 0) := by
  have key : ∀ (st : ServoDriver), Initialised P st cfg → st.pios_servo_enabled = true →
      ∃ st', PIOS_Servo_Update P st = .ok st' ∧ UpdateResult P st cfg st' ∧
        ∀ c b, c < cfg.num_channels → st.pios_servo_pin_bank c = some b →
          st.pios_servo_bank_mode b = P.PIOS_SERVO_BANK_MODE_SINGLE_PULSE →
          channel_compare st'.hw cfg c = some 0 := by
    intro st hi he
    obtain ⟨st', hrun, hres⟩ := update_spec P st cfg hi he
    refine ⟨st', hrun, hres, ?_⟩
    intro c b hc hpb hsp
    exact hres.ccr_zeroed _ _ (hi.2.1.2 _ (chan_mem cfg c hc)) ⟨c, hc, rfl, rfl, b, hpb, hsp⟩
  obtain ⟨s', hrun, _, hz⟩ := key s hinit hen
  refine ⟨s', hrun, hz, ?_⟩
  intro c b hc hpb hsp
  obtain ⟨_, _, _, hset⟩ := set_effective P s cfg c 500 hinit hen hc
  obtain ⟨hi1, he1, hm1, hp1, _⟩ := set_initialised P s _ cfg c 500 hinit hset
  obtain ⟨s2, hrun2, hres2, _⟩ := key _ hi1 (he1.trans hen)
  have hi2 := update_initialised P _ s2 cfg hres2 hi1
  obtain ⟨s3, hrun3, _, hz3⟩ := key s2 hi2 (hres2.enabled_eq.trans (he1.trans hen))
  refine ⟨_, s2, s3, hset, hrun2, hrun3, hz3 c b hc ?_ ?_⟩
  · rw [hres2.pin_bank_eq, hp1]; exact hpb
  · rw [hres2.mode_eq, hm1]; exact hsp

/-- Witness of C6: bank 0 of the example driver in single pulse mode. -/
theorem update_zeroes_single_pulse_channels_witness :
    board_valid example_board ∧
    Initialised example_board (single_pulse_driver 20000 3000) (cfg_AABB TIM3 TIM5) ∧
    (single_pulse_driver 20000 3000).pios_servo_enabled = true ∧
    ∃ s', PIOS_Servo_Update example_board (single_pulse_driver 20000 3000) = .ok s' ∧
      (∀ c b, c < (cfg_AABB TIM3 TIM5).num_channels →
        (single_pulse_driver 20000 3000).pios_servo_pin_bank c = some b →
        (single_pulse_driver 20000 3000).pios_servo_bank_mode b
          = example_board.PIOS_SERVO_BANK_MODE_SINGLE_PULSE →
        channel_compare s'.hw (cfg_AABB TIM3 TIM5) c = some 0) ∧
      (∀ c b, c < (cfg_AABB TIM3 TIM5).num_channels →
        (single_pulse_driver 20000 3000).pios_servo_pin_bank c = some b →
        (single_pulse_driver 20000 3000).pios_servo_bank_mode b
          = example_board.PIOS_SERVO_BANK_MODE_SINGLE_PULSE →
        ∃ s1 s2 s3,
          PIOS_Servo_Set example_board (single_pulse_driver 20000 3000) c 500 = .ok s1 ∧
          PIOS_Servo_Update example_board s1 = .ok s2 ∧
          PIOS_Servo_Update example_board s2 = .ok s3 ∧
          channel_compare s3.hw (cfg_AABB TIM3 TIM5) c = some 0) :=
  ⟨by decide, by decide, by decide,
    update_zeroes_single_pulse_channels example_board (single_pulse_driver 20000 3000)
      (cfg_AABB TIM3 TIM5) (by decide) (by decide) (by decide)⟩

/-! ## `PIOS_Servo_Update`: re-arming -/

/-- When no other bank shares the timer of bank `b`, the number of update
events requested on that timer is 1 if bank `b` is due and 0 otherwise. -/
theorem rearm_count_own_timer (P : Board) (s : ServoDriver) (b : Nat)
    (hdist : ∀ b', b' < P.PIOS_SERVO_BANKS →
      s.pios_servo_bank_timer b' = s.pios_servo_bank_timer b → b' = b) :
    ∀ k, k ≤ P.PIOS_SERVO_BANKS →
      rearm_count P s k (s.pios_servo_bank_timer b)
        = if b < k ∧ rearm_due P s b then 1 else 0 := by
  intro k
  induction k with
  | zero => intro _; simp [rearm_count]
  | succ k ih =>
    intro hk
    rw [rearm_count_succ, ih (by omega)]
    by_cases hkb : k = b
    · subst hkb
      by_cases hd : rearm_due P s k
      · simp [hd]
      · simp [hd]
    · have hne : ¬ (s.pios_servo_bank_timer k = s.pios_servo_bank_timer b ∧ rearm_due P s k) :=
        fun h => hkb (hdist k (by omega) h.1)
      have hlt : b < k + 1 ↔ b < k := by omega
      simp only [hne, if_false, hlt, Nat.add_zero]

/-- No update event is requested on address 0: a bank without a timer is never
due. -/
theorem rearm_count_null (P : Board) (s : ServoDriver) (k : Nat) :
    rearm_count P s k 0 = 0 := by
  induction k with
  | zero => simp [rearm_count]
  | succ k ih =>
    rw [rearm_count_succ, ih]
    have hne : ¬ (s.pios_servo_bank_timer k = 0 ∧ rearm_due P s k) := fun h => h.2.1 h.1
    simp only [hne, if_false]

theorem no_ccr_UG (r r' : TIM_TypeDef) (n : Nat)
    (h : r'.no_ccr = { r.no_ccr with UG := n }) : r'.UG = n := by
  have := congrArg TIM_TypeDef.UG h
  exact this

/-- C7: for a bank `b` with a timer and in single pulse mode, an enabled
`PIOS_Servo_Update` requests the update event on the bank's timer exactly when
the timer's counter is strictly above `next_update[b] + 50` (a sum that is not
reduced modulo 2^16): then one event is requested and `next_update[b]` becomes
the previous `max_pulse[b]`; otherwise no event is requested and
`next_update[b]` keeps its value. In both cases `max_pulse` is 0 afterwards for
every bank index below `PIOS_SERVO_BANKS`. -/
theorem update_rearms_single_pulse_bank (P : Board) (s : ServoDriver) (cfg : pios_servo_cfg)
    (b : Nat) (_hB : board_valid P) (hinit : Initialised P s cfg)
    (hen : s.pios_servo_enabled = true) (hb : b < P.PIOS_SERVO_BANKS)
    (ht : s.pios_servo_bank_timer b ≠ 0)
    (hsp : s.pios_servo_bank_mode b = P.PIOS_SERVO_BANK_MODE_SINGLE_PULSE) :
    ∃ s', PIOS_Servo_Update P s = .ok s' ∧
      ((s.hw.tim (s.pios_servo_bank_timer b)).CNT > s.pios_servo_bank_next_update b + 50 →
        (s'.hw.tim (s.pios_servo_bank_timer b)).UG
            = (s.hw.tim (s.pios_servo_bank_timer b)).UG + 1 ∧
        s'.pios_servo_bank_next_update b = s.pios_servo_bank_max_pulse b) ∧
      (¬ (s.hw.tim (s.pios_servo_bank_timer b)).CNT > s.pios_servo_bank_next_update b + 50 →
        (s'.hw.tim (s.pios_servo_bank_timer b)).UG
            = (s.hw.tim (s.pios_servo_bank_timer b)).UG ∧
        s'.pios_servo_bank_next_update b = s.pios_servo_bank_next_update b) ∧
      (∀ i, i < P.PIOS_SERVO_BANKS → s'.pios_servo_bank_max_pulse i = 0) := by
  obtain ⟨s', hrun, hres⟩ := update_spec P s cfg hinit hen
  have hdist : ∀ b', b' < P.PIOS_SERVO_BANKS →
      s.pios_servo_bank_timer b' = s.pios_servo_bank_timer b → b' = b :=
    fun b' hb' e => (hinit.2.2.2 b hb b' hb' ht e.symm).symm
  have hcount := rearm_count_own_timer P s b hdist P.PIOS_SERVO_BANKS (Nat.le_refl _)
  have hUG := no_ccr_UG _ _ _ (hres.regs (s.pios_servo_bank_timer b))
  rw [hcount] at hUG
  have hdue : rearm_due P s b ↔
      (s.hw.tim (s.pios_servo_bank_timer b)).CNT > s.pios_servo_bank_next_update b + 50 :=
    ⟨fun h => h.2.2, fun h => ⟨ht, hsp, h⟩⟩
  refine ⟨s', hrun, ?_, ?_, ?_⟩
  · intro hc
    have hd := hdue.mpr hc
    rw [hUG, hres.next_update b]
    simp [hb, hd]
  · intro hc
    have hd : ¬ rearm_due P s b := fun h => hc (hdue.mp h)
    rw [hUG, hres.next_update b]
    simp [hd]
  · intro i hi
    rw [hres.max_pulse i, if_pos hi]

/-- C8: for a bank whose mode is not single pulse, `PIOS_Servo_Update` requests
no update event on the bank's timer whatever its counter is, leaves the timer's
other registers, `next_update` of the bank and the compare registers of the
bank's channels unchanged, and keeps the modes, the timers and the
channel-to-bank map; it only resets `max_pulse` of the bank to 0. -/
theorem update_leaves_other_modes_alone (P : Board) (s : ServoDriver) (cfg : pios_servo_cfg)
    (b : Nat) (_hB : board_valid P) (hinit : Initialised P s cfg)
    (hen : s.pios_servo_enabled = true) (hb : b < P.PIOS_SERVO_BANKS)
    (hm : s.pios_servo_bank_mode b ≠ P.PIOS_SERVO_BANK_MODE_SINGLE_PULSE) :
    ∃ s', PIOS_Servo_Update P s = .ok s' ∧
      (s'.hw.tim (s.pios_servo_bank_timer b)).UG = (s.hw.tim (s.pios_servo_bank_timer b)).UG ∧
      (s'.hw.tim (s.pios_servo_bank_timer b)).no_ccr
        = (s.hw.tim (s.pios_servo_bank_timer b)).no_ccr ∧
      s'.pios_servo_bank_next_update b = s.pios_servo_bank_next_update b ∧
      (∀ c, c < cfg.num_channels → s.pios_servo_pin_bank c = some b →
        channel_compare s'.hw cfg c = channel_compare s.hw cfg c) ∧
      s'.pios_servo_bank_max_pulse b = 0 ∧
      s'.pios_servo_bank_mode = s.pios_servo_bank_mode ∧
      s'.pios_servo_bank_timer = s.pios_servo_bank_timer ∧
      s'.pios_servo_pin_bank = s.pios_servo_pin_bank ∧
      s'.pios_servo_enabled = s.pios_servo_enabled ∧
      s'.servo_cfg = s.servo_cfg := by
  obtain ⟨s', hrun, hres⟩ := update_spec P s cfg hinit hen
  have hnd : ¬ rearm_due P s b := fun h => hm h.2.1
  have hcount : rearm_count P s P.PIOS_SERVO_BANKS (s.pios_servo_bank_timer b) = 0 := by
    by_cases ht : s.pios_servo_bank_timer b = 0
    · rw [ht]; exact rearm_count_null P s _
    · have hdist : ∀ b', b' < P.PIOS_SERVO_BANKS →
          s.pios_servo_bank_timer b' = s.pios_servo_bank_timer b → b' = b :=
        fun b' hb' e => (hinit.2.2.2 b hb b' hb' ht e.symm).symm
      rw [rearm_count_own_timer P s b hdist P.PIOS_SERVO_BANKS (Nat.le_refl _)]
      simp [hnd]
  have hregs := hres.regs (s.pios_servo_bank_timer b)
  rw [hcount] at hregs
  refine ⟨s', hrun, ?_, ?_, ?_, ?_, ?_, hres.mode_eq, hres.timer_eq, hres.pin_bank_eq,
    hres.enabled_eq, hres.cfg_eq⟩
  · exact no_ccr_UG _ _ _ hregs
  · rw [hregs]; rfl
  · rw [hres.next_update b]; simp [hnd]
  · intro c hc hpb
    apply hres.ccr_kept
    rintro ⟨c', hc', et, _, b', hpb', hsp'⟩
    obtain ⟨b0, _, hpb0, hbt0⟩ := hinit.2.2.1 c hc
    obtain ⟨b1, hb1, hpb1, hbt1⟩ := hinit.2.2.1 c' (by omega)
    rw [hpb] at hpb0
    cases hpb0
    rw [hpb'] at hpb1
    cases hpb1
    have htne : s.pios_servo_bank_timer b ≠ 0 := by
      rw [hbt0]; exact hinit.2.1.1.2 _ (chan_mem cfg c hc)
    have : b = b' := hinit.2.2.2 b hb b' hb1 htne (by rw [hbt0, hbt1, et])
    rw [this] at hm
    exact hm hsp'
  · rw [hres.max_pulse b, if_pos hb]

/-- Witness of C7: bank 0 in single pulse mode, counter at 3000. -/
theorem update_rearms_single_pulse_bank_witness :
    board_valid example_board ∧
    Initialised example_board (single_pulse_driver 20000 3000) (cfg_AABB TIM3 TIM5) ∧
    (single_pulse_driver 20000 3000).pios_servo_enabled = true ∧
    0 < example_board.PIOS_SERVO_BANKS ∧
    (single_pulse_driver 20000 3000).pios_servo_bank_timer 0 ≠ 0 ∧
    (single_pulse_driver 20000 3000).pios_servo_bank_mode 0
      = example_board.PIOS_SERVO_BANK_MODE_SINGLE_PULSE ∧
    ∃ s', PIOS_Servo_Update example_board (single_pulse_driver 20000 3000) = .ok s' ∧
      (((single_pulse_driver 20000 3000).hw.tim
            ((single_pulse_driver 20000 3000).pios_servo_bank_timer 0)).CNT
          > (single_pulse_driver 20000 3000).pios_servo_bank_next_update 0 + 50 →
        (s'.hw.tim ((single_pulse_driver 20000 3000).pios_servo_bank_timer 0)).UG
            = ((single_pulse_driver 20000 3000).hw.tim
                ((single_pulse_driver 20000 3000).pios_servo_bank_timer 0)).UG + 1 ∧
        s'.pios_servo_bank_next_update 0
          = (single_pulse_driver 20000 3000).pios_servo_bank_max_pulse 0) ∧
      (¬ ((single_pulse_driver 20000 3000).hw.tim
            ((single_pulse_driver 20000 3000).pios_servo_bank_timer 0)).CNT
          > (single_pulse_driver 20000 3000).pios_servo_bank_next_update 0 + 50 →
        (s'.hw.tim ((single_pulse_driver 20000 3000).pios_servo_bank_timer 0)).UG
            = ((single_pulse_driver 20000 3000).hw.tim
                ((single_pulse_driver 20000 3000).pios_servo_bank_timer 0)).UG ∧
        s'.pios_servo_bank_next_update 0
          = (single_pulse_driver 20000 3000).pios_servo_bank_next_update 0) ∧
      (∀ i, i < example_board.PIOS_SERVO_BANKS → s'.pios_servo_bank_max_pulse i = 0) :=
  ⟨by decide, by decide, by decide, by decide, by decide, by decide,
    update_rearms_single_pulse_bank example_board (single_pulse_driver 20000 3000)
      (cfg_AABB TIM3 TIM5) 0 (by decide) (by decide) (by decide) (by decide) (by decide)
      (by decide)⟩

/-- Witness of C8: bank 1 of the example driver, in mode none. -/
theorem update_leaves_other_modes_alone_witness :
    board_valid example_board ∧
    Initialised example_board (single_pulse_driver 20000 3000) (cfg_AABB TIM3 TIM5) ∧
    (single_pulse_driver 20000 3000).pios_servo_enabled = true ∧
    1 < example_board.PIOS_SERVO_BANKS ∧
    (single_pulse_driver 20000 3000).pios_servo_bank_mode 1
      ≠ example_board.PIOS_SERVO_BANK_MODE_SINGLE_PULSE ∧
    ∃ s', PIOS_Servo_Update example_board (single_pulse_driver 20000 3000) = .ok s' ∧
      (s'.hw.tim ((single_pulse_driver 20000 3000).pios_servo_bank_timer 1)).UG
        = ((single_pulse_driver 20000 3000).hw.tim
            ((single_pulse_driver 20000 3000).pios_servo_bank_timer 1)).UG ∧
      (s'.hw.tim ((single_pulse_driver 20000 3000).pios_servo_bank_timer 1)).no_ccr
        = ((single_pulse_driver 20000 3000).hw.tim
            ((single_pulse_driver 20000 3000).pios_servo_bank_timer 1)).no_ccr ∧
      s'.pios_servo_bank_next_update 1
        = (single_pulse_driver 20000 3000).pios_servo_bank_next_update 1 ∧
      (∀ c, c < (cfg_AABB TIM3 TIM5).num_channels →
        (single_pulse_driver 20000 3000).pios_servo_pin_bank c = some 1 →
        channel_compare s'.hw (cfg_AABB TIM3 TIM5) c
          = channel_compare (single_pulse_driver 20000 3000).hw (cfg_AABB TIM3 TIM5) c) ∧
      s'.pios_servo_bank_max_pulse 1 = 0 ∧
      s'.pios_servo_bank_mode = (single_pulse_driver 20000 3000).pios_servo_bank_mode ∧
      s'.pios_servo_bank_timer = (single_pulse_driver 20000 3000).pios_servo_bank_timer ∧
      s'.pios_servo_pin_bank = (single_pulse_driver 20000 3000).pios_servo_pin_bank ∧
      s'.pios_servo_enabled = (single_pulse_driver 20000 3000).pios_servo_enabled ∧
      s'.servo_cfg = (single_pulse_driver 20000 3000).servo_cfg :=
  ⟨by decide, by decide, by decide, by decide, by decide,
    update_leaves_other_modes_alone example_board (single_pulse_driver 20000 3000)
      (cfg_AABB TIM3 TIM5) 1 (by decide) (by decide) (by decide) (by decide) (by decide)⟩

/-! ## `max_pulse` within a cycle -/

theorem set_max_pulse (P : Board) (s : ServoDriver) (cfg : pios_servo_cfg) (c w : Nat)
    (hinit : Initialised P s cfg) (hen : s.pios_servo_enabled = true)
    (hc : c < cfg.num_channels) :
    ∃ b0 s', s.pios_servo_pin_bank c = some b0 ∧ PIOS_Servo_Set P s c w = .ok s' ∧
      ∀ b, s'.pios_servo_bank_max_pulse b
        = if b = b0 then max (s.pios_servo_bank_max_pulse b) (clamped_width s.hw cfg c w)
          else s.pios_servo_bank_max_pulse b := by
  obtain ⟨b0, _, hpb, hset⟩ := set_effective P s cfg c w hinit hen hc
  refine ⟨b0, _, hpb, hset, ?_⟩
  intro b
  show (if s.pios_servo_bank_max_pulse b0 < clamped_width s.hw cfg c w then
      Function.update s.pios_servo_bank_max_pulse b0 (clamped_width s.hw cfg c w)
    else s.pios_servo_bank_max_pulse) b = _
  by_cases hlt : s.pios_servo_bank_max_pulse b0 < clamped_width s.hw cfg c w
  · rw [if_pos hlt]
    by_cases hb : b = b0
    · subst hb
      rw [Function.update_same, if_pos rfl, Nat.max_eq_right (Nat.le_of_lt hlt)]
    · rw [Function.update_noteq hb, if_neg hb]
  · rw [if_neg hlt]
    by_cases hb : b = b0
    · subst hb
      rw [if_pos rfl, Nat.max_eq_left (Nat.le_of_not_lt hlt)]
    · rw [if_neg hb]

theorem commanded_max_congr (hw hw' : Hardware) (cfg : pios_servo_cfg)
    (pb : Nat → Option Nat) (b : Nat) (calls : List (Nat × Nat))
    (h : ∀ t, (hw'.tim t).ARR = (hw.tim t).ARR) :
    commanded_max hw' cfg pb b calls = commanded_max hw cfg pb b calls := by
  have : (fun cw : Nat × Nat => clamped_width hw' cfg cw.1 cw.2)
      = (fun cw : Nat × Nat => clamped_width hw cfg cw.1 cw.2) := by
    funext cw; unfold clamped_width; rw [h]
  unfold commanded_max
  rw [this]

theorem commanded_max_cons (hw : Hardware) (cfg : pios_servo_cfg) (pb : Nat → Option Nat)
    (b : Nat) (cw : Nat × Nat) (calls : List (Nat × Nat)) :
    commanded_max hw cfg pb b (cw :: calls)
      = if cw.1 < cfg.num_channels ∧ pb cw.1 = some b then
          max (clamped_width hw cfg cw.1 cw.2) (commanded_max hw cfg pb b calls)
        else commanded_max hw cfg pb b calls := by
  unfold commanded_max
  by_cases h : cw.1 < cfg.num_channels ∧ pb cw.1 = some b
  · rw [List.filter_cons_of_pos (by simpa using h), if_pos h]; rfl
  · rw [List.filter_cons_of_neg (by simpa using h), if_neg h]

/-- A sequence of `PIOS_Servo_Set` calls on an initialised and enabled driver
returns and raises `max_pulse` of each bank to the largest width commanded to
one of its channels. -/
theorem set_all_spec (P : Board) (cfg : pios_servo_cfg) :
    ∀ (calls : List (Nat × Nat)) (s : ServoDriver), Initialised P s cfg →
      s.pios_servo_enabled = true →
      ∃ s', set_all P s calls = .ok s' ∧
        ∀ b, s'.pios_servo_bank_max_pulse b
          = max (s.pios_servo_bank_max_pulse b)
              (commanded_max s.hw cfg s.pios_servo_pin_bank b calls) := by
  intro calls
  induction calls with
  | nil => intro s _ _; exact ⟨s, rfl, fun b => by simp [commanded_max]⟩
  | cons cw calls ih =>
    intro s hinit hen
    have hstep : ∃ s1, PIOS_Servo_Set P s cw.1 cw.2 = .ok s1 ∧
        ∀ b, s1.pios_servo_bank_max_pulse b
          = if cw.1 < cfg.num_channels ∧ s.pios_servo_pin_bank cw.1 = some b then
              max (s.pios_servo_bank_max_pulse b) (clamped_width s.hw cfg cw.1 cw.2)
            else s.pios_servo_bank_max_pulse b := by
      by_cases hc : cw.1 < cfg.num_channels
      · obtain ⟨b0, s1, hpb, hset, hmp⟩ := set_max_pulse P s cfg cw.1 cw.2 hinit hen hc
        refine ⟨s1, hset, fun b => ?_⟩
        rw [hmp b, hpb]
        by_cases hb : b = b0
        · subst hb; simp [hc]
        · have : ¬ (cw.1 < cfg.num_channels ∧ some b0 = some b) :=
            fun h => hb (Option.some.inj h.2).symm
          rw [if_neg hb, if_neg this]
      · refine ⟨s, set_ignored P s cw.1 cw.2
          (Or.inr (Or.inr ⟨cfg, hinit.1, Nat.le_of_not_lt hc⟩)), fun b => ?_⟩
        rw [if_neg (fun h => hc h.1)]
    obtain ⟨s1, hset, hmp⟩ := hstep
    obtain ⟨hi1, he1, _, hp1, _, hregs⟩ := set_initialised P s s1 cfg cw.1 cw.2 hinit hset
    obtain ⟨s', hrest, hmp'⟩ := ih s1 hi1 (he1.trans hen)
    refine ⟨s', ?_, fun b => ?_⟩
    · unfold set_all at hrest ⊢
      rw [List.foldlM_cons, hset]
      exact hrest
    · have harr : ∀ t, (s1.hw.tim t).ARR = (s.hw.tim t).ARR :=
        fun t => by
          have := congrArg TIM_TypeDef.ARR (hregs t)
          exact this
      rw [hmp' b, hmp b, hp1, commanded_max_congr s.hw s1.hw cfg _ b calls harr,
        commanded_max_cons]
      by_cases h : cw.1 < cfg.num_channels ∧ s.pios_servo_pin_bank cw.1 = some b
      · rw [if_pos h, if_pos h, Nat.max_assoc]
      · rw [if_neg h, if_neg h]

/-- C9: `max_pulse` accumulates the maximum of the cycle. On an initialised and
enabled driver each `PIOS_Servo_Set(channel, width)` with `channel <
num_channels` sets `max_pulse` of the channel's bank to the maximum of its old
value and the clamped width (for a 16-bit width, `min(width, period - period /
50)`) and leaves `max_pulse` of every other bank unchanged; no sequence of
`PIOS_Servo_Set` calls decreases any `max_pulse`; and after
`PIOS_Servo_Update` followed by any sequence of `PIOS_Servo_Set` calls,
`max_pulse[b]` is the largest clamped width commanded to a channel of bank `b`
in the sequence, 0 if there was none. -/
theorem max_pulse_accumulates (P : Board) (s : ServoDriver) (cfg : pios_servo_cfg)
    (_hB : board_valid P) (hinit : Initialised P s cfg) (hen : s.pios_servo_enabled = true) :
    (∀ c w, c < cfg.num_channels →
      ∃ b s', s.pios_servo_pin_bank c = some b ∧ PIOS_Servo_Set P s c w = .ok s' ∧
        s'.pios_servo_bank_max_pulse b
          = max (s.pios_servo_bank_max_pulse b) (clamped_width s.hw cfg c w) ∧
        (w < 65536 → clamped_width s.hw cfg c w
          = min w ((s.hw.tim (cfg.chan c).timer).ARR - (s.hw.tim (cfg.chan c).timer).ARR / 50)) ∧
        ∀ b', b' ≠ b → s'.pios_servo_bank_max_pulse b' = s.pios_servo_bank_max_pulse b') ∧
    (∀ calls, ∃ s', set_all P s calls = .ok s' ∧
      ∀ b, s.pios_servo_bank_max_pulse b ≤ s'.pios_servo_bank_max_pulse b) ∧
    (∃ s1, PIOS_Servo_Update P s = .ok s1 ∧
      ∀ calls, ∃ s2, set_all P s1 calls = .ok s2 ∧
        ∀ b, b < P.PIOS_SERVO_BANKS →
          s2.pios_servo_bank_max_pulse b
            = commanded_max s1.hw cfg s1.pios_servo_pin_bank b calls) := by
  refine ⟨?_, ?_, ?_⟩
  · intro c w hc
    obtain ⟨b0, s', hpb, hset, hmp⟩ := set_max_pulse P s cfg c w hinit hen hc
    refine ⟨b0, s', hpb, hset, ?_, fun hw => servo_clamp_eq_min _ _ hw, ?_⟩
    · rw [hmp b0, if_pos rfl]
    · intro b' hb'
      rw [hmp b', if_neg hb']
  · intro calls
    obtain ⟨s', hrun, hmp⟩ := set_all_spec P cfg calls s hinit hen
    exact ⟨s', hrun, fun b => by rw [hmp b]; exact Nat.le_max_left _ _⟩
  · obtain ⟨s1, hrun, hres⟩ := update_spec P s cfg hinit hen
    refine ⟨s1, hrun, fun calls => ?_⟩
    obtain ⟨s2, hrun2, hmp⟩ := set_all_spec P cfg calls s1
      (update_initialised P s s1 cfg hres hinit) (hres.enabled_eq.trans hen)
    refine ⟨s2, hrun2, fun b hb => ?_⟩
    rw [hmp b, hres.max_pulse b, if_pos hb, Nat.zero_max]

/-- Witness of C9 on the example driver. -/
theorem max_pulse_accumulates_witness :
    board_valid example_board ∧
    Initialised example_board (single_pulse_driver 20000 3000) (cfg_AABB TIM3 TIM5) ∧
    (single_pulse_driver 20000 3000).pios_servo_enabled = true ∧
    ((∀ c w, c < (cfg_AABB TIM3 TIM5).num_channels →
      ∃ b s', (single_pulse_driver 20000 3000).pios_servo_pin_bank c = some b ∧
        PIOS_Servo_Set example_board (single_pulse_driver 20000 3000) c w = .ok s' ∧
        s'.pios_servo_bank_max_pulse b
          = max ((single_pulse_driver 20000 3000).pios_servo_bank_max_pulse b)
              (clamped_width (single_pulse_driver 20000 3000).hw (cfg_AABB TIM3 TIM5) c w) ∧
        (w < 65536 → clamped_width (single_pulse_driver 20000 3000).hw (cfg_AABB TIM3 TIM5) c w
          = min w (((single_pulse_driver 20000 3000).hw.tim
                      ((cfg_AABB TIM3 TIM5).chan c).timer).ARR
                    - ((single_pulse_driver 20000 3000).hw.tim
                        ((cfg_AABB TIM3 TIM5).chan c).timer).ARR / 50)) ∧
        ∀ b', b' ≠ b → s'.pios_servo_bank_max_pulse b'
          = (single_pulse_driver 20000 3000).pios_servo_bank_max_pulse b') ∧
    (∀ calls, ∃ s', set_all example_board (single_pulse_driver 20000 3000) calls = .ok s' ∧
      ∀ b, (single_pulse_driver 20000 3000).pios_servo_bank_max_pulse b
        ≤ s'.pios_servo_bank_max_pulse b) ∧
    (∃ s1, PIOS_Servo_Update example_board (single_pulse_driver 20000 3000) = .ok s1 ∧
      ∀ calls, ∃ s2, set_all example_board s1 calls = .ok s2 ∧
        ∀ b, b < example_board.PIOS_SERVO_BANKS →
          s2.pios_servo_bank_max_pulse b
            = commanded_max s1.hw (cfg_AABB TIM3 TIM5) s1.pios_servo_pin_bank b calls)) :=
  ⟨by decide, by decide, by decide,
    max_pulse_accumulates example_board (single_pulse_driver 20000 3000) (cfg_AABB TIM3 TIM5)
      (by decide) (by decide) (by decide)⟩

/-! ## Calls before `PIOS_Servo_Init` -/

theorem update_bank_cfg (P : Board) (s : ServoDriver) (i : Nat) :
    (update_bank P s i).servo_cfg = s.servo_cfg := by
  unfold update_bank
  dsimp only
  split
  · split <;> rfl
  · rfl

/-- C10 (the code departs from the claim): with no configuration stored,
`PIOS_Servo_Disable`, `PIOS_Servo_Enable`, `PIOS_Servo_SetHz` with a bank count
within `PIOS_SERVO_BANKS` and `PIOS_Servo_Set` return and leave the state
unchanged, but `PIOS_Servo_Update` does not: `pios_servo_enabled` starts as
`true`, `PIOS_Servo_Update` tests nothing else, and its channel loop
dereferences the `NULL` `servo_cfg`. -/
theorem update_before_init_dereferences_null (P : Board) (hw : Hardware) :
    PIOS_Servo_Disable (ServoDriver.startup hw) = ServoDriver.startup hw ∧
    PIOS_Servo_Enable P (ServoDriver.startup hw) = ServoDriver.startup hw ∧
    (∀ speeds clock banks, banks ≤ P.PIOS_SERVO_BANKS →
      PIOS_Servo_SetHz P (ServoDriver.startup hw) speeds clock banks
        = .ok (ServoDriver.startup hw)) ∧
    (∀ c w, PIOS_Servo_Set P (ServoDriver.startup hw) c w = .ok (ServoDriver.startup hw)) ∧
    PIOS_Servo_Update P (ServoDriver.startup hw) = .error .null_deref := by
  refine ⟨rfl, rfl, ?_, fun _ _ => rfl, ?_⟩
  · intro speeds clock banks hb
    simp [PIOS_Servo_SetHz, hb, ServoDriver.startup]
  · have hcfg : ((List.range P.PIOS_SERVO_BANKS).foldl (update_bank P)
        (ServoDriver.startup hw)).servo_cfg = none :=
      foldl_preserves ServoDriver.servo_cfg (update_bank P) (update_bank_cfg P) _ _
    unfold PIOS_Servo_Update
    simp only [ServoDriver.startup, Bool.not_true, Bool.false_eq_true, if_false]
    simp only [ServoDriver.startup] at hcfg
    rw [hcfg]

/-! ## `PIOS_Servo_Update` while disabled -/

/-- C11: while the driver is disabled `PIOS_Servo_Update` returns the state it
was given: no update event is counted, no compare register is written,
`max_pulse` and `next_update` of every bank keep their values (`max_pulse` is
not reset). -/
theorem update_is_noop_when_disabled (P : Board) (s : ServoDriver)
    (hdis : s.pios_servo_enabled = false) :
    PIOS_Servo_Update P s = .ok s ∧
    ∀ s', PIOS_Servo_Update P s = .ok s' →
      (∀ t, (s'.hw.tim t).UG = (s.hw.tim t).UG) ∧
      (∀ t tc, TIM_GetCompare s'.hw t tc = TIM_GetCompare s.hw t tc) ∧
      s'.pios_servo_bank_max_pulse = s.pios_servo_bank_max_pulse ∧
      s'.pios_servo_bank_next_update = s.pios_servo_bank_next_update := by
  have h : PIOS_Servo_Update P s = .ok s := by
    unfold PIOS_Servo_Update
    rw [hdis]
    rfl
  refine ⟨h, fun s' hs' => ?_⟩
  rw [h] at hs'
  cases hs'
  exact ⟨fun _ => rfl, fun _ _ => rfl, rfl, rfl⟩

/-- Witness of C11: a disabled driver whose bank 0 is in single pulse mode with
`max_pulse = 1500` and a counter above the re-arm threshold. -/
theorem update_is_noop_when_disabled_witness :
    (disabled_driver 20000 3000).pios_servo_enabled = false ∧
    (disabled_driver 20000 3000).pios_servo_bank_max_pulse 0 = 1500 ∧
    (PIOS_Servo_Update example_board (disabled_driver 20000 3000)
        = .ok (disabled_driver 20000 3000) ∧
    ∀ s', PIOS_Servo_Update example_board (disabled_driver 20000 3000) = .ok s' →
      (∀ t, (s'.hw.tim t).UG = ((disabled_driver 20000 3000).hw.tim t).UG) ∧
      (∀ t tc, TIM_GetCompare s'.hw t tc = TIM_GetCompare (disabled_driver 20000 3000).hw t tc) ∧
      s'.pios_servo_bank_max_pulse = (disabled_driver 20000 3000).pios_servo_bank_max_pulse ∧
      s'.pios_servo_bank_next_update
        = (disabled_driver 20000 3000).pios_servo_bank_next_update) :=
  ⟨by decide, by decide,
    update_is_noop_when_disabled example_board (disabled_driver 20000 3000) (by decide)⟩

/-! ## `PIOS_Servo_SetBankMode` -/

/-- `PIOS_Servo_SetBankMode` with a bank index in range, in closed form. -/
theorem setBankMode_ok (P : Board) (s : ServoDriver) (bank mode : Nat)
    (hb : bank < P.PIOS_SERVO_BANKS) :
    PIOS_Servo_SetBankMode P s bank mode = .ok
      { s with
          pios_servo_bank_mode := Function.update s.pios_servo_bank_mode bank mode
          hw := if s.pios_servo_enabled = true ∧ s.pios_servo_bank_timer bank ≠ 0 then
                  TIM_Cmd (TIM_SelectOnePulseMode s.hw (s.pios_servo_bank_timer bank)
                    TIM_OPMode_Repetitive) (s.pios_servo_bank_timer bank) true
                else s.hw } := by
  unfold PIOS_Servo_SetBankMode
  by_cases hen : s.pios_servo_enabled = true
  · by_cases ht : s.pios_servo_bank_timer bank = 0
    · simp [hb, hen, ht]
    · simp [hb, hen, ht]
  · have hdis : s.pios_servo_enabled = false := by simpa using hen
    simp [hb, hdis]

/-- C15: for `bank < PIOS_SERVO_BANKS` and any mode, `PIOS_Servo_SetBankMode`
returns, stores the mode as the mode of that bank and leaves the mode of every
other bank (and every other table, and the enabled flag) unchanged, whether the
driver is enabled or not and whatever the previous mode was. When the driver is
enabled and the bank has a timer, that timer is put in repetitive one-pulse mode
and started; otherwise no peripheral is touched. For `bank ≥ PIOS_SERVO_BANKS`
the assertion fires and no state results. -/
theorem setBankMode_stores_mode (P : Board) (s : ServoDriver) (bank mode : Nat) :
    (bank < P.PIOS_SERVO_BANKS →
      ∃ s', PIOS_Servo_SetBankMode P s bank mode = .ok s' ∧
        s'.pios_servo_bank_mode bank = mode ∧
        (∀ b, b ≠ bank → s'.pios_servo_bank_mode b = s.pios_servo_bank_mode b) ∧
        s'.servo_cfg = s.servo_cfg ∧
        s'.pios_servo_bank_timer = s.pios_servo_bank_timer ∧
        s'.pios_servo_pin_bank = s.pios_servo_pin_bank ∧
        s'.pios_servo_bank_max_pulse = s.pios_servo_bank_max_pulse ∧
        s'.pios_servo_bank_next_update = s.pios_servo_bank_next_update ∧
        s'.pios_servo_enabled = s.pios_servo_enabled ∧
        (s.pios_servo_enabled = true ∧ s.pios_servo_bank_timer bank ≠ 0 →
          s'.hw = TIM_Cmd (TIM_SelectOnePulseMode s.hw (s.pios_servo_bank_timer bank)
                    TIM_OPMode_Repetitive) (s.pios_servo_bank_timer bank) true ∧
          (s'.hw.tim (s.pios_servo_bank_timer bank)).OPM = TIM_OPMode_Repetitive ∧
          (s'.hw.tim (s.pios_servo_bank_timer bank)).CEN = true) ∧
        (¬ (s.pios_servo_enabled = true ∧ s.pios_servo_bank_timer bank ≠ 0) →
          s'.hw = s.hw)) ∧
    (P.PIOS_SERVO_BANKS ≤ bank →
      PIOS_Servo_SetBankMode P s bank mode = .error .assert_failed) := by
  constructor
  · intro hb
    refine ⟨_, setBankMode_ok P s bank mode hb, Function.update_same _ _ _,
      fun b hne => Function.update_noteq hne _ _, rfl, rfl, rfl, rfl, rfl, rfl, ?_, ?_⟩
    · intro h
      have hhw : (if s.pios_servo_enabled = true ∧ s.pios_servo_bank_timer bank ≠ 0 then
          TIM_Cmd (TIM_SelectOnePulseMode s.hw (s.pios_servo_bank_timer bank)
            TIM_OPMode_Repetitive) (s.pios_servo_bank_timer bank) true
          else s.hw)
          = TIM_Cmd (TIM_SelectOnePulseMode s.hw (s.pios_servo_bank_timer bank)
            TIM_OPMode_Repetitive) (s.pios_servo_bank_timer bank) true := if_pos h
      refine ⟨hhw, ?_, ?_⟩
      · show (Hardware.tim (if _ then _ else _) _).OPM = _
        rw [hhw]
        simp [TIM_Cmd, TIM_SelectOnePulseMode, Hardware.modify_tim]
      · show (Hardware.tim (if _ then _ else _) _).CEN = _
        rw [hhw]
        simp [TIM_Cmd, TIM_SelectOnePulseMode, Hardware.modify_tim]
    · intro h
      exact if_neg h
  · intro hb
    have : ¬ bank < P.PIOS_SERVO_BANKS := by omega
    simp [PIOS_Servo_SetBankMode, this]

/-! ## `PIOS_Servo_GetPinBank` and the tables built by `PIOS_Servo_Init` -/

/-- C16: on an initialised driver `PIOS_Servo_GetPinBank(pin)` returns 0 for
every `pin ≥ num_channels` and, for every `pin < num_channels`, the bank that
the channel-to-bank table holds for the pin; it is a read (the call yields a
value and no new state); and its result is always below `PIOS_SERVO_BANKS`
(the bank arrays have at least one element). -/
theorem getPinBank_result (P : Board) (s : ServoDriver) (cfg : pios_servo_cfg)
    (hinit : Initialised P s cfg) (hpos : 0 < P.PIOS_SERVO_BANKS) :
    (∀ pin, cfg.num_channels ≤ pin → PIOS_Servo_GetPinBank s pin = .ok 0) ∧
    (∀ pin, pin < cfg.num_channels →
      ∃ b, s.pios_servo_pin_bank pin = some b ∧ PIOS_Servo_GetPinBank s pin = .ok b) ∧
    (∀ pin, ∃ b, PIOS_Servo_GetPinBank s pin = .ok b ∧ b < P.PIOS_SERVO_BANKS) := by
  have hout : ∀ pin, cfg.num_channels ≤ pin → PIOS_Servo_GetPinBank s pin = .ok 0 := by
    intro pin hp
    have : ¬ pin < cfg.num_channels := by omega
    simp [PIOS_Servo_GetPinBank, hinit.1, this]
  refine ⟨hout, ?_, ?_⟩
  · intro pin hp
    obtain ⟨b, _, hpb, _⟩ := hinit.2.2.1 pin hp
    exact ⟨b, hpb, getPinBank_of_pin_bank s cfg pin b hinit.1 hp hpb⟩
  · intro pin
    by_cases hp : pin < cfg.num_channels
    · obtain ⟨b, hb, hpb, _⟩ := hinit.2.2.1 pin hp
      exact ⟨b, getPinBank_of_pin_bank s cfg pin b hinit.1 hp hpb, hb⟩
    · exact ⟨0, hout pin (Nat.le_of_not_lt hp), hpos⟩

/-- Witness of C16 on the example driver. -/
theorem getPinBank_result_witness :
    Initialised example_board (example_driver 20000 0) (cfg_AABB TIM3 TIM5) ∧
    0 < example_board.PIOS_SERVO_BANKS ∧
    ((∀ pin, (cfg_AABB TIM3 TIM5).num_channels ≤ pin →
      PIOS_Servo_GetPinBank (example_driver 20000 0) pin = .ok 0) ∧
    (∀ pin, pin < (cfg_AABB TIM3 TIM5).num_channels →
      ∃ b, (example_driver 20000 0).pios_servo_pin_bank pin = some b ∧
        PIOS_Servo_GetPinBank (example_driver 20000 0) pin = .ok b) ∧
    (∀ pin, ∃ b, PIOS_Servo_GetPinBank (example_driver 20000 0) pin = .ok b ∧
      b < example_board.PIOS_SERVO_BANKS)) :=
  ⟨by decide, by decide,
    getPinBank_result example_board (example_driver 20000 0) (cfg_AABB TIM3 TIM5)
      (by decide) (by decide)⟩

/-- C17: after a successful `PIOS_Servo_Init` of a valid configuration every entry of the
channel-to-bank table has been written, the timer stored for the bank of a
channel is the channel's timer, and the timers stored for the banks
`0 .. k-1`, `k` the number of distinct timers of the configuration, are
pairwise different. -/
theorem init_bank_timer_agrees (P : Board) (s : ServoDriver) (cfg : pios_servo_cfg)
    (s' : ServoDriver) (r : Int) (_hB : board_valid P) (_hv : cfg_valid cfg)
    (hinit : PIOS_Servo_Init P s cfg = .ok (s', r)) :
    (∀ c, c < cfg.num_channels →
      ∃ b, s'.pios_servo_pin_bank c = some b ∧ b < cfg.timers.toFinset.card ∧
        s'.pios_servo_bank_timer b = (cfg.chan c).timer) ∧
    (∀ b b', b < cfg.timers.toFinset.card → b' < cfg.timers.toFinset.card →
      s'.pios_servo_bank_timer b = s'.pios_servo_bank_timer b' → b = b') := by
  have hcard : cfg.timers.toFinset.card ≤ P.PIOS_SERVO_BANKS := by
    by_contra h
    rw [init_fail P s cfg (Nat.lt_of_not_le h)] at hinit
    cases hinit
  obtain ⟨s1, h1, _, _, hpb, hbt, _⟩ := init_ok P s cfg hcard
  rw [h1] at hinit
  cases hinit
  refine ⟨?_, ?_⟩
  · intro c hc
    exact ⟨_, hpb c hc, first_seen_rank_lt_card cfg.timers _ (chan_timer_mem cfg c hc),
      hbt _ (chan_timer_mem cfg c hc)⟩
  · intro b b' hb hb' e
    obtain ⟨t, ht, rfl⟩ := first_seen_rank_surj cfg.timers b hb
    obtain ⟨t', ht', rfl⟩ := first_seen_rank_surj cfg.timers b' hb'
    rw [hbt t ht, hbt t' ht'] at e
    rw [e]

/-- Witness of C17 on the example driver. -/
theorem init_bank_timer_agrees_witness :
    board_valid example_board ∧ cfg_valid (cfg_AABB TIM3 TIM5) ∧
    PIOS_Servo_Init example_board (ServoDriver.startup (hw_reset 20000 0)) (cfg_AABB TIM3 TIM5)
      = .ok (example_driver 20000 0, 0) ∧
    ((∀ c, c < (cfg_AABB TIM3 TIM5).num_channels →
      ∃ b, (example_driver 20000 0).pios_servo_pin_bank c = some b ∧
        b < (cfg_AABB TIM3 TIM5).timers.toFinset.card ∧
        (example_driver 20000 0).pios_servo_bank_timer b = ((cfg_AABB TIM3 TIM5).chan c).timer) ∧
    (∀ b b', b < (cfg_AABB TIM3 TIM5).timers.toFinset.card →
      b' < (cfg_AABB TIM3 TIM5).timers.toFinset.card →
      (example_driver 20000 0).pios_servo_bank_timer b
        = (example_driver 20000 0).pios_servo_bank_timer b' → b = b')) :=
  ⟨by decide, by decide, rfl,
    init_bank_timer_agrees example_board (ServoDriver.startup (hw_reset 20000 0))
      (cfg_AABB TIM3 TIM5) (example_driver 20000 0) 0 (by decide) (by decide) rfl⟩

/-! ## `PIOS_Servo_Disable` followed by `PIOS_Servo_Enable` -/

theorem disable_tim (s : ServoDriver) : (PIOS_Servo_Disable s).hw.tim = s.hw.tim := by
  unfold PIOS_Servo_Disable
  split
  · rfl
  · rw [foldl_preserves (fun st : ServoDriver => st.hw.tim) disable_channel (fun _ _ => rfl)]

theorem disable_enabled (s : ServoDriver) (cfg : pios_servo_cfg) (h : s.servo_cfg = some cfg) :
    (PIOS_Servo_Disable s).pios_servo_enabled = false := by
  unfold PIOS_Servo_Disable
  rw [h]
  show ServoDriver.pios_servo_enabled (List.foldl disable_channel _ _) = false
  rw [foldl_preserves ServoDriver.pios_servo_enabled disable_channel (fun _ _ => rfl)]

theorem ocInit_timebase (hw : Hardware) (t : Nat) (tc : TimChannel) (pulse : Nat) (t' : Nat) :
    ((TIM_OCInit_Preload hw t tc pulse).tim t').timebase = (hw.tim t').timebase ∧
    ((TIM_OCInit_Preload hw t tc pulse).tim t').run_bits = (hw.tim t').run_bits := by
  by_cases ht : t' = t
  · subst ht
    cases tc <;>
      simp [TIM_OCInit_Preload, TIM_SetCompare, Hardware.modify_tim, TIM_TypeDef.timebase,
        TIM_TypeDef.run_bits]
  · cases tc <;>
      simp [TIM_OCInit_Preload, TIM_SetCompare, Hardware.modify_tim, TIM_TypeDef.timebase,
        TIM_TypeDef.run_bits, Function.update_noteq ht]

theorem enable_channel_timebase (cfg : pios_servo_cfg) (s : ServoDriver)
    (chan : pios_tim_channel) :
    (fun t => ((enable_channel cfg s chan).hw.tim t).timebase)
      = (fun t => (s.hw.tim t).timebase) := by
  funext t
  exact (ocInit_timebase _ _ _ _ t).1

theorem enable_channel_run_bits (cfg : pios_servo_cfg) (s : ServoDriver)
    (chan : pios_tim_channel) :
    (fun t => ((enable_channel cfg s chan).hw.tim t).run_bits)
      = (fun t => (s.hw.tim t).run_bits) := by
  funext t
  exact (ocInit_timebase _ _ _ _ t).2

theorem start_timer_apply (hw : Hardware) (t t' : Nat) :
    (TIM_Cmd (TIM_SelectOnePulseMode hw t TIM_OPMode_Repetitive) t true).tim t'
      = if t' = t then { hw.tim t with OPM := TIM_OPMode_Repetitive, CEN := true }
        else hw.tim t' := by
  by_cases ht : t' = t
  · subst ht
    simp [TIM_Cmd, TIM_SelectOnePulseMode, Hardware.modify_tim]
  · simp [TIM_Cmd, TIM_SelectOnePulseMode, Hardware.modify_tim, Function.update_noteq ht, ht]

theorem enable_bank_timebase (P : Board) (s : ServoDriver) (i : Nat) :
    (fun t => ((enable_bank P s i).hw.tim t).timebase) = (fun t => (s.hw.tim t).timebase) := by
  funext t
  unfold enable_bank
  dsimp only
  split
  · show ((TIM_Cmd (TIM_SelectOnePulseMode s.hw _ TIM_OPMode_Repetitive) _ true).tim t).timebase = _
    rw [start_timer_apply]
    split
    · rename_i h; rw [h]; rfl
    · rfl
  · rfl

/-- `PIOS_Servo_Enable` changes no prescaler and no period. -/
theorem enable_timebase (P : Board) (s : ServoDriver) (t : Nat) :
    ((PIOS_Servo_Enable P s).hw.tim t).timebase = (s.hw.tim t).timebase := by
  have h : (fun t => ((PIOS_Servo_Enable P s).hw.tim t).timebase)
      = (fun t => (s.hw.tim t).timebase) := by
    unfold PIOS_Servo_Enable
    split
    · rfl
    · show (fun t => ((List.foldl (enable_bank P) _ _).hw.tim t).timebase) = _
      rw [foldl_preserves (fun st : ServoDriver => fun t => (st.hw.tim t).timebase)
          (enable_bank P) (enable_bank_timebase P),
        foldl_preserves (fun st : ServoDriver => fun t => (st.hw.tim t).timebase)
          (enable_channel _) (enable_channel_timebase _)]
  exact congrFun h t

/-- State `st` is `s1` after the first `k` iterations of the bank loop of
`PIOS_Servo_Enable`: the timers of the banks below `k` that have a mode are in
repetitive one-pulse mode and run. -/
theorem enable_bank_loop (P : Board) (s1 : ServoDriver) :
    ∀ k, ((List.range k).foldl (enable_bank P) s1).tables = s1.tables ∧
      ∀ i, i < k → s1.pios_servo_bank_timer i ≠ 0 →
        s1.pios_servo_bank_mode i ≠ P.PIOS_SERVO_BANK_MODE_NONE →
        (((List.range k).foldl (enable_bank P) s1).hw.tim (s1.pios_servo_bank_timer i)).OPM
            = TIM_OPMode_Repetitive ∧
        (((List.range k).foldl (enable_bank P) s1).hw.tim (s1.pios_servo_bank_timer i)).CEN
            = true := by
  intro k
  apply foldl_range_inv (enable_bank P)
    (fun k st => st.tables = s1.tables ∧
      ∀ i, i < k → s1.pios_servo_bank_timer i ≠ 0 →
        s1.pios_servo_bank_mode i ≠ P.PIOS_SERVO_BANK_MODE_NONE →
        (st.hw.tim (s1.pios_servo_bank_timer i)).OPM = TIM_OPMode_Repetitive ∧
        (st.hw.tim (s1.pios_servo_bank_timer i)).CEN = true)
  · exact ⟨rfl, fun i hi => absurd hi (Nat.not_lt_zero i)⟩
  · intro j _ st ⟨hT, hrun⟩
    have hT' := sameTables_of_tables hT
    refine ⟨by rw [enable_bank_tables]; exact hT, ?_⟩
    intro i hi ht hm
    unfold enable_bank
    dsimp only
    rw [hT'.timer_eq, hT'.mode_eq]
    by_cases hc : s1.pios_servo_bank_timer j ≠ 0 ∧
        s1.pios_servo_bank_mode j ≠ P.PIOS_SERVO_BANK_MODE_NONE
    · rw [if_pos hc]
      show ((TIM_Cmd (TIM_SelectOnePulseMode st.hw _ TIM_OPMode_Repetitive) _ true).tim _).OPM = _ ∧
        ((TIM_Cmd (TIM_SelectOnePulseMode st.hw _ TIM_OPMode_Repetitive) _ true).tim _).CEN = _
      rw [start_timer_apply]
      by_cases e : s1.pios_servo_bank_timer i = s1.pios_servo_bank_timer j
      · rw [if_pos e]; exact ⟨rfl, rfl⟩
      · rw [if_neg e]
        have hij : i ≠ j := fun h => e (by rw [h])
        exact hrun i (by omega) ht hm
    · rw [if_neg hc]
      by_cases hij : i = j
      · subst hij; exact absurd ⟨ht, hm⟩ hc
      · exact hrun i (by omega) ht hm

/-- After `PIOS_Servo_Enable` on a driver with a configuration, every bank below
`PIOS_SERVO_BANKS` with a timer and a mode other than none has its timer in
repetitive one-pulse mode and running. -/
theorem enable_starts_banks (P : Board) (s : ServoDriver) (cfg : pios_servo_cfg)
    (h : s.servo_cfg = some cfg) (i : Nat) (hi : i < P.PIOS_SERVO_BANKS)
    (ht : s.pios_servo_bank_timer i ≠ 0)
    (hm : s.pios_servo_bank_mode i ≠ P.PIOS_SERVO_BANK_MODE_NONE) :
    ((PIOS_Servo_Enable P s).hw.tim (s.pios_servo_bank_timer i)).OPM = TIM_OPMode_Repetitive ∧
    ((PIOS_Servo_Enable P s).hw.tim (s.pios_servo_bank_timer i)).CEN = true := by
  have hT : (cfg.channels.foldl (enable_channel cfg) s).tables = s.tables :=
    foldl_preserves ServoDriver.tables (enable_channel cfg) (fun _ _ => rfl) _ _
  have hT' := sameTables_of_tables hT
  have := (enable_bank_loop P (cfg.channels.foldl (enable_channel cfg) s) P.PIOS_SERVO_BANKS).2 i hi
    (by rw [hT'.timer_eq]; exact ht) (by rw [hT'.mode_eq]; exact hm)
  rw [hT'.timer_eq] at this
  unfold PIOS_Servo_Enable
  rw [h]
  exact this

/-- C14: `PIOS_Servo_Disable` followed by `PIOS_Servo_Enable` preserves the
configuration of an initialised driver. Neither operation changes a bank's mode,
a bank's timer, the channel-to-bank table, the stored configuration, or the
prescaler or period of any timer (`PIOS_Servo_Disable` writes no timer register
at all); after the pair the enabled flag is true and every bank below
`PIOS_SERVO_BANKS` with a timer and a mode other than none has its timer in
repetitive one-pulse mode and started. -/
theorem disable_enable_preserves_configuration (P : Board) (s : ServoDriver)
    (cfg : pios_servo_cfg) (_hB : board_valid P) (hinit : Initialised P s cfg) :
    ((PIOS_Servo_Disable s).pios_servo_bank_mode = s.pios_servo_bank_mode ∧
      (PIOS_Servo_Disable s).pios_servo_bank_timer = s.pios_servo_bank_timer ∧
      (PIOS_Servo_Disable s).pios_servo_pin_bank = s.pios_servo_pin_bank ∧
      (PIOS_Servo_Disable s).servo_cfg = s.servo_cfg ∧
      (PIOS_Servo_Disable s).hw.tim = s.hw.tim ∧
      (PIOS_Servo_Disable s).pios_servo_enabled = false) ∧
    (∀ st : ServoDriver,
      (PIOS_Servo_Enable P st).pios_servo_bank_mode = st.pios_servo_bank_mode ∧
      (PIOS_Servo_Enable P st).pios_servo_bank_timer = st.pios_servo_bank_timer ∧
      (PIOS_Servo_Enable P st).pios_servo_pin_bank = st.pios_servo_pin_bank ∧
      (PIOS_Servo_Enable P st).servo_cfg = st.servo_cfg ∧
      ∀ t, ((PIOS_Servo_Enable P st).hw.tim t).PSC = (st.hw.tim t).PSC ∧
        ((PIOS_Servo_Enable P st).hw.tim t).ARR = (st.hw.tim t).ARR) ∧
    ((PIOS_Servo_Enable P (PIOS_Servo_Disable s)).pios_servo_enabled = true ∧
      (PIOS_Servo_Enable P (PIOS_Servo_Disable s)).pios_servo_bank_mode
        = s.pios_servo_bank_mode ∧
      (PIOS_Servo_Enable P (PIOS_Servo_Disable s)).pios_servo_bank_timer
        = s.pios_servo_bank_timer ∧
      (PIOS_Servo_Enable P (PIOS_Servo_Disable s)).pios_servo_pin_bank
        = s.pios_servo_pin_bank ∧
      (∀ t, ((PIOS_Servo_Enable P (PIOS_Servo_Disable s)).hw.tim t).PSC = (s.hw.tim t).PSC ∧
        ((PIOS_Servo_Enable P (PIOS_Servo_Disable s)).hw.tim t).ARR = (s.hw.tim t).ARR) ∧
      ∀ i, i < P.PIOS_SERVO_BANKS → s.pios_servo_bank_timer i ≠ 0 →
        s.pios_servo_bank_mode i ≠ P.PIOS_SERVO_BANK_MODE_NONE →
        ((PIOS_Servo_Enable P (PIOS_Servo_Disable s)).hw.tim (s.pios_servo_bank_timer i)).OPM
          = TIM_OPMode_Repetitive ∧
        ((PIOS_Servo_Enable P (PIOS_Servo_Disable s)).hw.tim (s.pios_servo_bank_timer i)).CEN
          = true) := by
  have hD := sameTables_of_tables (disable_tables s)
  have hE : ∀ st : ServoDriver, SameTables st (PIOS_Servo_Enable P st) :=
    fun st => enable_sameTables P st
  have htb : ∀ (st : ServoDriver) t,
      ((PIOS_Servo_Enable P st).hw.tim t).PSC = (st.hw.tim t).PSC ∧
      ((PIOS_Servo_Enable P st).hw.tim t).ARR = (st.hw.tim t).ARR := by
    intro st t
    have := enable_timebase P st t
    simp only [TIM_TypeDef.timebase, Prod.mk.injEq] at this
    exact this
  have hcfgD : (PIOS_Servo_Disable s).servo_cfg = some cfg := by rw [hD.cfg_eq]; exact hinit.1
  refine ⟨⟨hD.mode_eq, hD.timer_eq, hD.pin_bank_eq, hD.cfg_eq, disable_tim s,
      disable_enabled s cfg hinit.1⟩,
    fun st => ⟨(hE st).mode_eq, (hE st).timer_eq, (hE st).pin_bank_eq, (hE st).cfg_eq, htb st⟩,
    enable_enabled P _ cfg hcfgD, ?_, ?_, ?_, ?_, ?_⟩
  · rw [(hE _).mode_eq, hD.mode_eq]
  · rw [(hE _).timer_eq, hD.timer_eq]
  · rw [(hE _).pin_bank_eq, hD.pin_bank_eq]
  · intro t
    have := htb (PIOS_Servo_Disable s) t
    rw [disable_tim s] at this
    exact this
  · intro i hi ht hm
    have := enable_starts_banks P (PIOS_Servo_Disable s) cfg hcfgD i hi
      (by rw [hD.timer_eq]; exact ht) (by rw [hD.mode_eq]; exact hm)
    rw [hD.timer_eq] at this
    exact this

/-- Witness of C14: the example driver with bank 0 in single pulse mode. -/
theorem disable_enable_preserves_configuration_witness :
    board_valid example_board ∧
    Initialised example_board (single_pulse_driver 20000 3000) (cfg_AABB TIM3 TIM5) ∧
    (PIOS_Servo_Enable example_board
        (PIOS_Servo_Disable (single_pulse_driver 20000 3000))).pios_servo_enabled = true ∧
    ((PIOS_Servo_Enable example_board
        (PIOS_Servo_Disable (single_pulse_driver 20000 3000))).hw.tim TIM3).CEN = true ∧
    (PIOS_Servo_Enable example_board
        (PIOS_Servo_Disable (single_pulse_driver 20000 3000))).pios_servo_bank_mode 0
      = example_board.PIOS_SERVO_BANK_MODE_SINGLE_PULSE :=
  ⟨by decide, by decide,
    (disable_enable_preserves_configuration example_board (single_pulse_driver 20000 3000)
      (cfg_AABB TIM3 TIM5) (by decide) (by decide)).2.2.1,
    ((disable_enable_preserves_configuration example_board (single_pulse_driver 20000 3000)
      (cfg_AABB TIM3 TIM5) (by decide) (by decide)).2.2.2.2.2.2.2 0 (by decide) (by decide)
      (by decide)).2,
    by decide⟩

/-! ## Timers stay stopped until a bank mode is set -/

theorem foldlM_preserves {σ α β : Type} (proj : σ → β) (f : σ → α → Except Fault σ)
    (h : ∀ s x s', f s x = .ok s' → proj s' = proj s) :
    ∀ (l : List α) (s s' : σ), l.foldlM f s = .ok s' → proj s' = proj s := by
  intro l
  induction l with
  | nil =>
    intro s s' hs
    cases hs
    rfl
  | cons a l ih =>
    intro s s' hs
    rw [List.foldlM_cons] at hs
    cases hf : f s a with
    | error e =>
      rw [hf] at hs
      cases hs
    | ok s1 =>
      rw [hf] at hs
      exact (ih s1 s' hs).trans (h s a s1 hf)

theorem setCompare_run_bits (hw : Hardware) (t : Nat) (tc : TimChannel) (v : Nat) :
    (fun t' => ((TIM_SetCompare hw t tc v).tim t').run_bits) = (fun t' => (hw.tim t').run_bits) := by
  funext t'
  have := no_ccr_setCompare hw t tc v t'
  have h1 := congrArg TIM_TypeDef.CEN this
  have h2 := congrArg TIM_TypeDef.OPM this
  exact Prod.ext h1 h2

theorem update_bank_modes_and_run_bits (P : Board) (s : ServoDriver) (i : Nat) :
    (update_bank P s i).modes_and_run_bits = s.modes_and_run_bits := by
  unfold update_bank
  dsimp only
  split
  · split
    · simp only [ServoDriver.modes_and_run_bits, Prod.mk.injEq, true_and]
      funext t
      by_cases ht : t = s.pios_servo_bank_timer i
      · subst ht
        simp [TIM_GenerateEvent, Hardware.modify_tim, TIM_TypeDef.run_bits]
      · simp [TIM_GenerateEvent, Hardware.modify_tim, TIM_TypeDef.run_bits,
          Function.update_noteq ht]
    · rfl
  · rfl

theorem update_channel_modes_and_run_bits (P : Board) (cfg : pios_servo_cfg) (s : ServoDriver)
    (i : Nat) (s' : ServoDriver) (h : update_channel P cfg s i = .ok s') :
    s'.modes_and_run_bits = s.modes_and_run_bits := by
  unfold update_channel at h
  split at h
  · cases h
  · split at h
    · cases h
    · split at h
      · cases h
        simp only [ServoDriver.modes_and_run_bits, Prod.mk.injEq, true_and]
        exact setCompare_run_bits _ _ _ _
      · cases h
        rfl

theorem update_modes_and_run_bits (P : Board) (s s' : ServoDriver)
    (h : PIOS_Servo_Update P s = .ok s') : s'.modes_and_run_bits = s.modes_and_run_bits := by
  unfold PIOS_Servo_Update at h
  split at h
  · cases h; rfl
  · have hb := foldl_preserves ServoDriver.modes_and_run_bits (update_bank P)
      (update_bank_modes_and_run_bits P) (List.range P.PIOS_SERVO_BANKS) s
    dsimp only at h
    split at h
    · cases h
    · rename_i cfg _
      exact (foldlM_preserves ServoDriver.modes_and_run_bits (update_channel P cfg)
        (update_channel_modes_and_run_bits P cfg) _ _ _ h).trans hb

theorem set_modes_and_run_bits (P : Board) (s s' : ServoDriver) (servo position : Nat)
    (h : PIOS_Servo_Set P s servo position = .ok s') :
    s'.modes_and_run_bits = s.modes_and_run_bits := by
  unfold PIOS_Servo_Set at h
  split at h
  · cases h; rfl
  · split at h
    · cases h; rfl
    · dsimp only at h
      split at h
      · cases h
      · split at h
        · cases h
        · cases h
          simp only [ServoDriver.modes_and_run_bits, Prod.mk.injEq, true_and]
          exact setCompare_run_bits _ _ _ _

theorem sethz_bank_modes_and_run_bits (P : Board) (speeds clock : Nat → Nat) (s : ServoDriver)
    (i : Nat) (s' : ServoDriver) (h : sethz_bank P speeds clock s i = .ok s') :
    s'.modes_and_run_bits = s.modes_and_run_bits := by
  unfold sethz_bank at h
  dsimp only at h
  split at h
  · split at h
    · cases h
    · cases h
      simp only [ServoDriver.modes_and_run_bits, Prod.mk.injEq, true_and]
      funext t
      by_cases ht : t = s.pios_servo_bank_timer i
      · subst ht
        simp [TIM_TimeBaseInit, Hardware.modify_tim, TIM_TypeDef.run_bits]
      · simp [TIM_TimeBaseInit, Hardware.modify_tim, TIM_TypeDef.run_bits,
          Function.update_noteq ht]
  · cases h
    rfl

theorem setHz_modes_and_run_bits (P : Board) (s s' : ServoDriver) (speeds clock : Nat → Nat)
    (banks : Nat) (h : PIOS_Servo_SetHz P s speeds clock banks = .ok s') :
    s'.modes_and_run_bits = s.modes_and_run_bits := by
  unfold PIOS_Servo_SetHz at h
  split at h
  · cases h
  · split at h
    · cases h; rfl
    · exact foldlM_preserves ServoDriver.modes_and_run_bits (sethz_bank P speeds clock)
        (sethz_bank_modes_and_run_bits P speeds clock) _ _ _ h

theorem enable_bank_of_none (P : Board) (s : ServoDriver) (i : Nat)
    (h : s.pios_servo_bank_mode i = P.PIOS_SERVO_BANK_MODE_NONE) : enable_bank P s i = s := by
  unfold enable_bank
  dsimp only
  rw [if_neg (fun hc => hc.2 h)]

/-- With every bank below `PIOS_SERVO_BANKS` in mode none, `PIOS_Servo_Enable`
starts no timer. -/
theorem enable_modes_and_run_bits (P : Board) (s : ServoDriver)
    (hnone : ∀ i, i < P.PIOS_SERVO_BANKS →
      s.pios_servo_bank_mode i = P.PIOS_SERVO_BANK_MODE_NONE) :
    (PIOS_Servo_Enable P s).modes_and_run_bits = s.modes_and_run_bits := by
  unfold PIOS_Servo_Enable
  split
  · rfl
  · rename_i cfg _
    have hch : (cfg.channels.foldl (enable_channel cfg) s).modes_and_run_bits
        = s.modes_and_run_bits := by
      apply foldl_preserves ServoDriver.modes_and_run_bits (enable_channel cfg)
      intro st chan
      simp only [ServoDriver.modes_and_run_bits, Prod.mk.injEq]
      exact ⟨rfl, rfl, enable_channel_run_bits cfg st chan⟩
    have hmode : (cfg.channels.foldl (enable_channel cfg) s).pios_servo_bank_mode
        = s.pios_servo_bank_mode := congrArg Prod.fst hch
    have hloop : (List.range P.PIOS_SERVO_BANKS).foldl (enable_bank P)
        (cfg.channels.foldl (enable_channel cfg) s) = cfg.channels.foldl (enable_channel cfg) s := by
      apply foldl_range_inv (enable_bank P)
        (fun _ st => st = cfg.channels.foldl (enable_channel cfg) s)
      · rfl
      · intro k hk st hst
        rw [hst]
        exact enable_bank_of_none P _ k (by rw [hmode]; exact hnone k hk)
    show ServoDriver.modes_and_run_bits
      { (List.foldl (enable_bank P) _ _) with pios_servo_enabled := true } = _
    rw [hloop]
    exact hch

theorem disable_modes_and_run_bits (s : ServoDriver) :
    (PIOS_Servo_Disable s).modes_and_run_bits = s.modes_and_run_bits := by
  have hT := sameTables_of_tables (disable_tables s)
  simp only [ServoDriver.modes_and_run_bits, hT.mode_eq, hT.timer_eq, disable_tim s]

theorem run_call_modes_and_run_bits (P : Board) (s s' : ServoDriver) (c : DriverCall)
    (hnone : ∀ i, i < P.PIOS_SERVO_BANKS →
      s.pios_servo_bank_mode i = P.PIOS_SERVO_BANK_MODE_NONE)
    (h : run_call P s c = .ok s') : s'.modes_and_run_bits = s.modes_and_run_bits := by
  cases c with
  | disable => cases h; exact disable_modes_and_run_bits s
  | enable => cases h; exact enable_modes_and_run_bits P s hnone
  | set servo position => exact set_modes_and_run_bits P s s' servo position h
  | update => exact update_modes_and_run_bits P s s' h
  | setHz speeds clock banks => exact setHz_modes_and_run_bits P s s' speeds clock banks h

/-- While every bank is in mode none, no sequence of calls other than
`PIOS_Servo_Init` and `PIOS_Servo_SetBankMode` changes a bank mode, a bank timer
or the start bit of a timer. -/
theorem run_calls_modes_and_run_bits (P : Board) :
    ∀ (calls : List DriverCall) (s s' : ServoDriver),
      (∀ i, i < P.PIOS_SERVO_BANKS → s.pios_servo_bank_mode i = P.PIOS_SERVO_BANK_MODE_NONE) →
      run_calls P s calls = .ok s' → s'.modes_and_run_bits = s.modes_and_run_bits := by
  intro calls
  induction calls with
  | nil =>
    intro s s' _ h
    cases h
    rfl
  | cons c calls ih =>
    intro s s' hnone h
    unfold run_calls at h
    rw [List.foldlM_cons] at h
    cases hc : run_call P s c with
    | error e =>
      rw [hc] at h
      cases h
    | ok s1 =>
      rw [hc] at h
      have h1 := run_call_modes_and_run_bits P s s1 c hnone hc
      have hm : s1.pios_servo_bank_mode = s.pios_servo_bank_mode := congrArg Prod.fst h1
      exact (ih s1 s' (fun i hi => by rw [hm]; exact hnone i hi) h).trans h1

/-- `PIOS_Servo_Init` run while every bank is in mode none leaves the timer of
every channel stopped. -/
theorem init_stops_timers (P : Board) (s : ServoDriver) (cfg : pios_servo_cfg)
    (hcard : cfg.timers.toFinset.card ≤ P.PIOS_SERVO_BANKS)
    (hnone : ∀ i, i < P.PIOS_SERVO_BANKS →
      s.pios_servo_bank_mode i = P.PIOS_SERVO_BANK_MODE_NONE) :
    ∃ s', PIOS_Servo_Init P s cfg = .ok (s', 0) ∧
      ∀ t, t ∈ cfg.timers → (s'.hw.tim t).CEN = false := by
  have htake : cfg.timers.take cfg.num_channels = cfg.timers := by
    rw [← timers_length]; exact List.take_length _
  obtain ⟨st, hst, inv⟩ := init_loop_spec P cfg
    { s with servo_cfg := some cfg, pios_servo_pin_bank := fun _ => none }
    cfg.num_channels (Nat.le_refl _) (by rw [htake]; exact hcard)
  refine ⟨PIOS_Servo_Enable P st.1, by simp only [PIOS_Servo_Init, hst], ?_⟩
  intro t ht
  have hE := enable_modes_and_run_bits P st.1
    (fun i hi => by rw [inv.mode_eq]; exact hnone i hi)
  have hrb : ((PIOS_Servo_Enable P st.1).hw.tim t).run_bits = (st.1.hw.tim t).run_bits :=
    congrFun (congrArg (fun x => x.2.2) hE) t
  have hcen : ((PIOS_Servo_Enable P st.1).hw.tim t).CEN = (st.1.hw.tim t).CEN :=
    congrArg Prod.fst hrb
  rw [hcen]
  exact inv.stopped t (by rw [htake]; exact ht)

/-- C18: started from the initial module state, where every bank mode is 0 and 0
is the mode none, `PIOS_Servo_Init` returns 0 and leaves the enabled flag true,
every bank's mode, `max_pulse` and `next_update` at 0, and the timer of every
channel and of every bank stopped: the loop disables each timer it registers
and the `PIOS_Servo_Enable` it calls starts no timer of a bank in mode none.
The timers then stay stopped, and the modes none, through any sequence of
`Disable`, `Enable`, `Set`, `Update` and `SetHz` calls, that is until
`PIOS_Servo_SetBankMode` is called. -/
theorem init_leaves_timers_stopped (P : Board) (hw : Hardware) (cfg : pios_servo_cfg)
    (_hB : board_valid P) (_hv : cfg_valid cfg) (hnone : P.PIOS_SERVO_BANK_MODE_NONE = 0)
    (hcard : cfg.timers.toFinset.card ≤ P.PIOS_SERVO_BANKS) :
    ∃ s', PIOS_Servo_Init P (ServoDriver.startup hw) cfg = .ok (s', 0) ∧
      s'.pios_servo_enabled = true ∧
      (∀ b, s'.pios_servo_bank_mode b = 0 ∧ s'.pios_servo_bank_max_pulse b = 0 ∧
        s'.pios_servo_bank_next_update b = 0) ∧
      (∀ c, c < cfg.num_channels → (s'.hw.tim (cfg.chan c).timer).CEN = false) ∧
      (∀ b, b < P.PIOS_SERVO_BANKS → s'.pios_servo_bank_timer b ≠ 0 →
        (s'.hw.tim (s'.pios_servo_bank_timer b)).CEN = false) ∧
      (∀ calls s'', run_calls P s' calls = .ok s'' →
        (∀ b, s''.pios_servo_bank_mode b = P.PIOS_SERVO_BANK_MODE_NONE) ∧
        ∀ b, b < P.PIOS_SERVO_BANKS → s''.pios_servo_bank_timer b ≠ 0 →
          (s''.hw.tim (s''.pios_servo_bank_timer b)).CEN = false) := by
  obtain ⟨s', hinit, _, hen, _, hbt, hrest, hmode, hnu, hmp⟩ :=
    init_ok P (ServoDriver.startup hw) cfg hcard
  obtain ⟨s1, hinit1, hstop⟩ := init_stops_timers P (ServoDriver.startup hw) cfg hcard
    (fun i _ => hnone.symm)
  rw [hinit] at hinit1
  cases hinit1
  have hbank : ∀ b, b < P.PIOS_SERVO_BANKS → s'.pios_servo_bank_timer b ≠ 0 →
      (s'.hw.tim (s'.pios_servo_bank_timer b)).CEN = false := by
    intro b _ hne
    have hlt : b < cfg.timers.toFinset.card := by
      by_contra h
      exact hne (hrest b (Nat.le_of_not_lt h))
    obtain ⟨t, ht, rfl⟩ := first_seen_rank_surj cfg.timers b hlt
    rw [hbt t ht]
    exact hstop t ht
  have hmode0 : ∀ b, s'.pios_servo_bank_mode b = 0 := fun b => by rw [hmode]; rfl
  refine ⟨s', hinit, hen, ?_, ?_, hbank, ?_⟩
  · intro b
    exact ⟨hmode0 b, by rw [hmp]; rfl, by rw [hnu]; rfl⟩
  · intro c hc
    exact hstop _ (chan_timer_mem cfg c hc)
  · intro calls s'' hrun
    have h := run_calls_modes_and_run_bits P calls s' s''
      (fun i _ => by rw [hmode0 i, hnone]) hrun
    simp only [ServoDriver.modes_and_run_bits, Prod.mk.injEq] at h
    obtain ⟨h1, h2, h3⟩ := h
    refine ⟨fun b => by rw [h1, hmode0 b, hnone], ?_⟩
    intro b hb hne
    rw [h2] at hne ⊢
    have hrb := congrFun h3 (s'.pios_servo_bank_timer b)
    have hcen : (s''.hw.tim (s'.pios_servo_bank_timer b)).CEN
        = (s'.hw.tim (s'.pios_servo_bank_timer b)).CEN := congrArg Prod.fst hrb
    rw [hcen]
    exact hbank b hb hne

/-- Witness of C18: the example board and the configuration
`[TIM3, TIM3, TIM5, TIM5]`, every timer running before the call. -/
theorem init_leaves_timers_stopped_witness :
    board_valid example_board ∧ cfg_valid (cfg_AABB TIM3 TIM5) ∧
    example_board.PIOS_SERVO_BANK_MODE_NONE = 0 ∧
    (cfg_AABB TIM3 TIM5).timers.toFinset.card ≤ example_board.PIOS_SERVO_BANKS ∧
    ∃ s', PIOS_Servo_Init example_board (ServoDriver.startup running_hw) (cfg_AABB TIM3 TIM5)
        = .ok (s', 0) ∧
      s'.pios_servo_enabled = true ∧
      (∀ b, s'.pios_servo_bank_mode b = 0 ∧ s'.pios_servo_bank_max_pulse b = 0 ∧
        s'.pios_servo_bank_next_update b = 0) ∧
      (∀ c, c < (cfg_AABB TIM3 TIM5).num_channels →
        (s'.hw.tim ((cfg_AABB TIM3 TIM5).chan c).timer).CEN = false) ∧
      (∀ b, b < example_board.PIOS_SERVO_BANKS → s'.pios_servo_bank_timer b ≠ 0 →
        (s'.hw.tim (s'.pios_servo_bank_timer b)).CEN = false) ∧
      (∀ calls s'', run_calls example_board s' calls = .ok s'' →
        (∀ b, s''.pios_servo_bank_mode b = example_board.PIOS_SERVO_BANK_MODE_NONE) ∧
        ∀ b, b < example_board.PIOS_SERVO_BANKS → s''.pios_servo_bank_timer b ≠ 0 →
          (s''.hw.tim (s''.pios_servo_bank_timer b)).CEN = false) :=
  ⟨by decide, by decide, by decide, by decide,
    init_leaves_timers_stopped example_board running_hw (cfg_AABB TIM3 TIM5)
      (by decide) (by decide) (by decide) (by decide)⟩

/-! ## `PIOS_Servo_SetHz` -/

theorem sethz_bank_eq (P : Board) (speeds clock : Nat → Nat) (s : ServoDriver) (i : Nat) :
    sethz_bank P speeds clock s i
      = if s.pios_servo_bank_timer i ≠ 0 then
          if speeds i = 0 then .error .div_by_zero
          else .ok { s with hw := (TIM_TimeBaseInit s.hw (s.pios_servo_bank_timer i)
                      (sethz_prescaler P (s.pios_servo_bank_timer i) clock i)
                      (sethz_period speeds clock i)) }
        else .ok s := rfl

theorem timeBaseInit_apply (hw : Hardware) (t psc arr t' : Nat) :
    (TIM_TimeBaseInit hw t psc arr).tim t'
      = if t' = t then { hw.tim t with PSC := psc, ARR := arr, UG := (hw.tim t).UG + 1 }
        else hw.tim t' := by
  by_cases ht : t' = t
  · subst ht
    simp [TIM_TimeBaseInit, Hardware.modify_tim]
  · simp [TIM_TimeBaseInit, Hardware.modify_tim, Function.update_noteq ht, ht]

theorem sethz_bank_step (P : Board) (speeds clock : Nat → Nat) (s : ServoDriver)
    (hdist : ∀ b, b < P.PIOS_SERVO_BANKS → ∀ b', b' < P.PIOS_SERVO_BANKS →
      s.pios_servo_bank_timer b ≠ 0 →
      s.pios_servo_bank_timer b = s.pios_servo_bank_timer b' → b = b')
    (k : Nat) (hk : k < P.PIOS_SERVO_BANKS)
    (hrate : s.pios_servo_bank_timer k ≠ 0 → speeds k ≠ 0)
    (st : ServoDriver) (inv : SetHzInv P speeds clock s k st) :
    ∃ st', sethz_bank P speeds clock st k = .ok st' ∧ SetHzInv P speeds clock s (k + 1) st' := by
  have hT := sameTables_of_tables inv.tables_eq
  have hstep : sethz_bank P speeds clock st k
      = if s.pios_servo_bank_timer k ≠ 0 then
          if speeds k = 0 then .error .div_by_zero
          else .ok { st with hw := (TIM_TimeBaseInit st.hw (s.pios_servo_bank_timer k)
                      (sethz_prescaler P (s.pios_servo_bank_timer k) clock k)
                      (sethz_period speeds clock k)) }
        else .ok st := by
    rw [sethz_bank_eq, hT.timer_eq]
  rw [hstep]
  by_cases ht : s.pios_servo_bank_timer k ≠ 0
  · rw [if_pos ht, if_neg (hrate ht)]
    refine ⟨_, rfl, inv.tables_eq, inv.enabled_eq, inv.pin_eq, ?_, ?_, ?_⟩
    · intro i hi hti
      show ((TIM_TimeBaseInit st.hw _ _ _).tim _).PSC = _ ∧
        ((TIM_TimeBaseInit st.hw _ _ _).tim _).ARR = _
      rw [timeBaseInit_apply]
      by_cases e : s.pios_servo_bank_timer i = s.pios_servo_bank_timer k
      · have hik : i = k := hdist i (by omega) k hk hti e
        subst hik
        rw [if_pos rfl]
        exact ⟨rfl, rfl⟩
      · rw [if_neg e]
        have hik : i ≠ k := fun h => e (by rw [h])
        exact inv.programmed i (by omega) hti
    · intro t hfree
      show (TIM_TimeBaseInit st.hw _ _ _).tim t = _
      rw [timeBaseInit_apply, if_neg (fun e => hfree k (Nat.lt_succ_self k) ht e.symm)]
      exact inv.untouched t (fun i hi hti => hfree i (Nat.lt_succ_of_lt hi) hti)
    · intro t
      show ((TIM_TimeBaseInit st.hw _ _ _).tim t).no_timebase = _
      rw [timeBaseInit_apply]
      by_cases e : t = s.pios_servo_bank_timer k
      · rw [if_pos e, ← inv.others t, e]
        simp only [TIM_TypeDef.no_timebase]
      · rw [if_neg e]
        exact inv.others t
  · rw [if_neg ht]
    refine ⟨st, rfl, inv.tables_eq, inv.enabled_eq, inv.pin_eq, ?_, ?_, inv.others⟩
    · intro i hi hti
      by_cases hik : i = k
      · subst hik; exact absurd hti ht
      · exact inv.programmed i (by omega) hti
    · intro t hfree
      exact inv.untouched t (fun i hi hti => hfree i (Nat.lt_succ_of_lt hi) hti)

/-- `PIOS_Servo_SetHz` on a driver that holds a configuration and assigns no
timer to two banks, with a bank count in range and no zero rate for a bank with
a timer: the call returns and has programmed the banks below the count. -/
theorem setHz_spec (P : Board) (s : ServoDriver) (cfg : pios_servo_cfg)
    (speeds clock : Nat → Nat) (banks : Nat) (hcfg : s.servo_cfg = some cfg)
    (hdist : ∀ b, b < P.PIOS_SERVO_BANKS → ∀ b', b' < P.PIOS_SERVO_BANKS →
      s.pios_servo_bank_timer b ≠ 0 →
      s.pios_servo_bank_timer b = s.pios_servo_bank_timer b' → b = b')
    (hbanks : banks ≤ P.PIOS_SERVO_BANKS)
    (hrates : ∀ j, j < banks → s.pios_servo_bank_timer j ≠ 0 → speeds j ≠ 0) :
    ∃ s', PIOS_Servo_SetHz P s speeds clock banks = .ok s' ∧
      SetHzInv P speeds clock s banks s' := by
  obtain ⟨s', hrun, inv⟩ := foldlM_range_inv (sethz_bank P speeds clock)
    (SetHzInv P speeds clock s) banks s
    ⟨rfl, rfl, rfl, fun i hi => absurd hi (Nat.not_lt_zero i), fun _ _ => rfl, fun _ => rfl⟩
    (fun k hk st hst => sethz_bank_step P speeds clock s hdist k (by omega) (hrates k hk) st hst)
  refine ⟨s', ?_, inv⟩
  unfold PIOS_Servo_SetHz
  rw [if_neg (not_not.mpr hbanks), hcfg, Nat.min_eq_left hbanks]
  exact hrun

theorem sethz_new_clock_pos (clock : Nat → Nat) (i : Nat) : 0 < sethz_new_clock clock i := by
  unfold sethz_new_clock PIOS_SERVO_TIMER_CLOCK
  split
  · omega
  · omega

theorem sethz_new_clock_lt (clock : Nat → Nat) (i : Nat) (h : clock i < 4294967296) :
    sethz_new_clock clock i < 4294967296 := by
  unfold sethz_new_clock PIOS_SERVO_TIMER_CLOCK
  split
  · exact h
  · omega

/-- C12 as stated fails: on the example driver (bank 0 on `TIM3`, input clock
84 MHz) with `rates[0] = 2000`, `clock[0] = 1000` and `bankCount = 1`, all the
conditions of the claim hold, but the prescaler programmed is 18463, not
`84000000 / 1000 - 1 = 83999` (the prescaler is a 16-bit field), and the period
programmed is 4294967295, not `1000 / 2000 - 1` (the unsigned subtraction
wraps). -/
theorem setHz_formula_counterexample :
    Initialised example_board (example_driver 20000 0) (cfg_AABB TIM3 TIM5) ∧
    (0 < 1 ∧ 1 ≤ example_board.PIOS_SERVO_BANKS) ∧
    (example_driver 20000 0).pios_servo_bank_timer 0 = TIM3 ∧ TIM3 ≠ 0 ∧
    0 < 2000 ∧ sethz_new_clock (fun _ => 1000) 0 = 1000 ∧
    1000 ≤ timer_clock example_board TIM3 ∧
    ∃ s', PIOS_Servo_SetHz example_board (example_driver 20000 0)
        (fun _ => 2000) (fun _ => 1000) 1 = .ok s' ∧
      (s'.hw.tim TIM3).PSC = 18463 ∧
      (s'.hw.tim TIM3).PSC ≠ timer_clock example_board TIM3 / 1000 - 1 ∧
      (s'.hw.tim TIM3).ARR = 4294967295 ∧
      (s'.hw.tim TIM3).ARR ≠ 1000 / 2000 - 1 ∧
      ((s'.hw.tim TIM3).ARR : Int) ≠ (1000 : Int) / 2000 - 1 :=
  ⟨by decide, by decide, by decide, by decide, by decide, by decide, by decide,
    _, rfl, by decide, by decide, by decide, by decide, by decide⟩

/-- C12, amended: on an initialised driver, for `bankCount ≤ PIOS_SERVO_BANKS`
with a non-zero rate for every bank below `bankCount` that has a timer, and a
bank `i < bankCount` with a timer whose target clock (`clock[i]`, a 32-bit
value, when non-zero, else 1,000,000) is at most the input clock of the timer,
whose prescaler `baseClock / targetClock - 1` fits 16 bits and whose rate is at
most the target clock, `PIOS_Servo_SetHz` returns and has programmed the bank's
timer with prescaler `baseClock / targetClock - 1` and period
`targetClock / rates[i] - 1`. -/
theorem setHz_programs_timebase (P : Board) (s : ServoDriver) (cfg : pios_servo_cfg)
    (speeds clock : Nat → Nat) (banks i : Nat)
    (_hB : board_valid P) (hinit : Initialised P s cfg)
    (hbanks : banks ≤ P.PIOS_SERVO_BANKS) (hi : i < banks)
    (ht : s.pios_servo_bank_timer i ≠ 0)
    (hrates : ∀ j, j < banks → s.pios_servo_bank_timer j ≠ 0 → 0 < speeds j)
    (hclk32 : clock i < 4294967296)
    (hle : sethz_new_clock clock i ≤ timer_clock P (s.pios_servo_bank_timer i))
    (hpsc : timer_clock P (s.pios_servo_bank_timer i) / sethz_new_clock clock i - 1 < 65536)
    (hper : speeds i ≤ sethz_new_clock clock i) :
    ∃ s', PIOS_Servo_SetHz P s speeds clock banks = .ok s' ∧
      (s'.hw.tim (s.pios_servo_bank_timer i)).PSC
        = timer_clock P (s.pios_servo_bank_timer i) / sethz_new_clock clock i - 1 ∧
      (s'.hw.tim (s.pios_servo_bank_timer i)).ARR = sethz_new_clock clock i / speeds i - 1 := by
  obtain ⟨s', hrun, inv⟩ := setHz_spec P s cfg speeds clock banks hinit.1 hinit.2.2.2 hbanks
    (fun j hj htj => Nat.pos_iff_ne_zero.mp (hrates j hj htj))
  obtain ⟨hP, hA⟩ := inv.programmed i hi ht
  have hnc := sethz_new_clock_pos clock i
  have hnc32 := sethz_new_clock_lt clock i hclk32
  have hq : 1 ≤ timer_clock P (s.pios_servo_bank_timer i) / sethz_new_clock clock i :=
    Nat.div_pos hle hnc
  have hsp : 0 < speeds i := hrates i hi ht
  have hp : 1 ≤ sethz_new_clock clock i / speeds i := Nat.div_pos hper hsp
  have hp2 : sethz_new_clock clock i / speeds i ≤ sethz_new_clock clock i := Nat.div_le_self _ _
  refine ⟨s', hrun, ?_, ?_⟩
  · rw [hP]
    unfold sethz_prescaler
    omega
  · rw [hA]
    unfold sethz_period
    omega

/-- Witness of the amended C12: 50 Hz on both banks of the example driver with
the default target clock. -/
theorem setHz_programs_timebase_witness :
    ∃ s', PIOS_Servo_SetHz example_board (example_driver 20000 0)
        (fun _ => 50) (fun _ => 0) 2 = .ok s' ∧
      (s'.hw.tim ((example_driver 20000 0).pios_servo_bank_timer 1)).PSC
        = timer_clock example_board ((example_driver 20000 0).pios_servo_bank_timer 1)
            / sethz_new_clock (fun _ => 0) 1 - 1 ∧
      (s'.hw.tim ((example_driver 20000 0).pios_servo_bank_timer 1)).ARR
        = sethz_new_clock (fun _ => 0) 1 / 50 - 1 :=
  setHz_programs_timebase example_board (example_driver 20000 0) (cfg_AABB TIM3 TIM5)
    (fun _ => 50) (fun _ => 0) 2 1 (by decide) (by decide) (by decide) (by decide) (by decide)
    (by decide) (by decide) (by decide) (by decide) (by decide)

theorem foldlM_congr_mem {σ α : Type} (f g : σ → α → Except Fault σ) :
    ∀ (l : List α), (∀ x, x ∈ l → ∀ s, f s x = g s x) →
      ∀ s, l.foldlM f s = l.foldlM g s := by
  intro l
  induction l with
  | nil => intro _ _; rfl
  | cons a l ih =>
    intro h s
    rw [List.foldlM_cons, List.foldlM_cons, h a (List.mem_cons_self a l) s]
    cases g s a with
    | error e => rfl
    | ok s1 => exact ih (fun x hx => h x (List.mem_cons_of_mem a hx)) s1

theorem foldlM_error_of_step {σ α : Type} (f : σ → α → Except Fault σ) (e0 : Fault)
    (h : ∀ s x e, f s x = .error e → e = e0) :
    ∀ (l : List α) (s : σ) (e : Fault), l.foldlM f s = .error e → e = e0 := by
  intro l
  induction l with
  | nil => intro s e he; cases he
  | cons a l ih =>
    intro s e he
    rw [List.foldlM_cons] at he
    cases hf : f s a with
    | error e1 =>
      rw [hf] at he
      cases he
      exact h s a e hf
    | ok s1 =>
      rw [hf] at he
      exact ih s1 e he

theorem sethz_bank_error (P : Board) (speeds clock : Nat → Nat) (s : ServoDriver) (i : Nat)
    (e : Fault) (h : sethz_bank P speeds clock s i = .error e) : e = .div_by_zero := by
  rw [sethz_bank_eq] at h
  split at h
  · split at h
    · cases h; rfl
    · cases h
  · cases h

theorem sethz_bank_congr (P : Board) (speeds clock speeds' clock' : Nat → Nat) (i : Nat)
    (h1 : speeds' i = speeds i) (h2 : clock' i = clock i) (s : ServoDriver) :
    sethz_bank P speeds' clock' s i = sethz_bank P speeds clock s i := by
  unfold sethz_bank
  rw [h1, h2]

theorem foldlM_range_inv_of_ok {σ : Type} (f : σ → Nat → Except Fault σ) (I : Nat → σ → Prop)
    (n : Nat) (s0 : σ) (h0 : I 0 s0)
    (hstep : ∀ k, k < n → ∀ s s', I k s → f s k = .ok s' → I (k + 1) s') :
    ∀ s', (List.range n).foldlM f s0 = .ok s' → I n s' := by
  induction n with
  | zero =>
    intro s' h
    cases h
    exact h0
  | succ n ih =>
    intro s' h
    rw [List.range_succ, List.foldlM_append] at h
    cases hpre : List.foldlM f s0 (List.range n) with
    | error e =>
      rw [hpre] at h
      cases h
    | ok s1 =>
      rw [hpre] at h
      simp only [bind, Except.bind, List.foldlM_cons, List.foldlM_nil] at h
      cases hf : f s1 n with
      | error e =>
        rw [hf] at h
        cases h
      | ok s2 =>
        rw [hf] at h
        have e : s2 = s' := Except.ok.inj h
        rw [← e]
        exact hstep n (Nat.lt_succ_self n) s1 s2
          (ih (fun k hk s s' hs => hstep k (Nat.lt_succ_of_lt hk) s s' hs) s1 hpre) hf

/-- Every returning `PIOS_Servo_SetHz` on a driver that holds a configuration
and assigns no timer to two banks has run the bank loop for the banks below
the count, whatever the rates are. -/
theorem setHz_spec_of_ok (P : Board) (s : ServoDriver) (cfg : pios_servo_cfg)
    (speeds clock : Nat → Nat) (banks : Nat) (hcfg : s.servo_cfg = some cfg)
    (hdist : ∀ b, b < P.PIOS_SERVO_BANKS → ∀ b', b' < P.PIOS_SERVO_BANKS →
      s.pios_servo_bank_timer b ≠ 0 →
      s.pios_servo_bank_timer b = s.pios_servo_bank_timer b' → b = b')
    (s' : ServoDriver) (h : PIOS_Servo_SetHz P s speeds clock banks = .ok s') :
    banks ≤ P.PIOS_SERVO_BANKS ∧ SetHzInv P speeds clock s banks s' := by
  unfold PIOS_Servo_SetHz at h
  by_cases hbanks : banks ≤ P.PIOS_SERVO_BANKS
  · refine ⟨hbanks, ?_⟩
    rw [if_neg (not_not.mpr hbanks), hcfg, Nat.min_eq_left hbanks] at h
    refine foldlM_range_inv_of_ok (sethz_bank P speeds clock) (SetHzInv P speeds clock s)
      banks s
      ⟨rfl, rfl, rfl, fun i hi => absurd hi (Nat.not_lt_zero i), fun _ _ => rfl, fun _ => rfl⟩
      ?_ s' h
    intro k hk st st' inv hok
    have hT := sameTables_of_tables inv.tables_eq
    have hrate : s.pios_servo_bank_timer k ≠ 0 → speeds k ≠ 0 := by
      intro htk hz
      have htk' : st.pios_servo_bank_timer k ≠ 0 := by rw [hT.timer_eq]; exact htk
      rw [sethz_bank_eq, if_pos htk', if_pos hz] at hok
      cases hok
    obtain ⟨st'', h'', inv'⟩ :=
      sethz_bank_step P speeds clock s hdist k (by omega) hrate st inv
    rw [h''] at hok
    cases hok
    exact inv'
  · rw [if_pos hbanks] at h
    cases h

/-- On the example driver `PIOS_Servo_SetHz` with `rates[0] = 0` passes its
assertion and then divides by zero in the period computation, which the
embedding records as `Fault.div_by_zero`. -/
theorem setHz_zero_rate_divides :
    PIOS_Servo_SetHz example_board (example_driver 20000 0) (fun _ => 0) (fun _ => 0) 1
      = .error .div_by_zero :=
  rfl

/-- C13: on a driver that is not initialised or is initialised,
`PIOS_Servo_SetHz` fails fatally, that is stops in its `PIOS_Assert`, if and
only if `bankCount > PIOS_SERVO_BANKS`, whatever the rates are. Every call that
returns has changed no table and no flag, has left the timer of every bank with
index `≥ bankCount` as it was and has written nothing through a `NULL` bank
timer. With `bankCount ≤ PIOS_SERVO_BANKS` the call returns whenever no bank
below `bankCount` that has a timer is given a zero rate, and the only way it
does not return is the division by such a zero rate. Its result depends on
`rates[i]` and `clocks[i]` for `i < bankCount` only. -/
theorem setHz_stays_within_bank_count (P : Board) (s : ServoDriver)
    (speeds clock : Nat → Nat) (banks : Nat) (_hB : board_valid P)
    (hstate : s.servo_cfg = none ∨ ∃ cfg, Initialised P s cfg) :
    (PIOS_Servo_SetHz P s speeds clock banks = .error .assert_failed ↔
      P.PIOS_SERVO_BANKS < banks) ∧
    (∀ s', PIOS_Servo_SetHz P s speeds clock banks = .ok s' →
      banks ≤ P.PIOS_SERVO_BANKS ∧
      s'.servo_cfg = s.servo_cfg ∧
      s'.pios_servo_bank_mode = s.pios_servo_bank_mode ∧
      s'.pios_servo_bank_timer = s.pios_servo_bank_timer ∧
      s'.pios_servo_pin_bank = s.pios_servo_pin_bank ∧
      s'.pios_servo_bank_max_pulse = s.pios_servo_bank_max_pulse ∧
      s'.pios_servo_bank_next_update = s.pios_servo_bank_next_update ∧
      s'.pios_servo_enabled = s.pios_servo_enabled ∧
      s'.hw.pin = s.hw.pin ∧
      (∀ j, banks ≤ j → j < P.PIOS_SERVO_BANKS →
        s'.hw.tim (s.pios_servo_bank_timer j) = s.hw.tim (s.pios_servo_bank_timer j)) ∧
      s'.hw.tim 0 = s.hw.tim 0) ∧
    (banks ≤ P.PIOS_SERVO_BANKS →
      (∀ j, j < banks → s.pios_servo_bank_timer j ≠ 0 → speeds j ≠ 0) →
      ∃ s', PIOS_Servo_SetHz P s speeds clock banks = .ok s') ∧
    (banks ≤ P.PIOS_SERVO_BANKS →
      ∀ e, PIOS_Servo_SetHz P s speeds clock banks = .error e →
        e = .div_by_zero ∧
        ∃ j, j < banks ∧ s.pios_servo_bank_timer j ≠ 0 ∧ speeds j = 0) ∧
    (∀ speeds' clock' : Nat → Nat,
      (∀ j, j < banks → speeds' j = speeds j ∧ clock' j = clock j) →
      PIOS_Servo_SetHz P s speeds' clock' banks = PIOS_Servo_SetHz P s speeds clock banks) := by
  -- every returning call keeps the frame
  have hframe : ∀ s', PIOS_Servo_SetHz P s speeds clock banks = .ok s' →
      banks ≤ P.PIOS_SERVO_BANKS ∧
      s'.servo_cfg = s.servo_cfg ∧
      s'.pios_servo_bank_mode = s.pios_servo_bank_mode ∧
      s'.pios_servo_bank_timer = s.pios_servo_bank_timer ∧
      s'.pios_servo_pin_bank = s.pios_servo_pin_bank ∧
      s'.pios_servo_bank_max_pulse = s.pios_servo_bank_max_pulse ∧
      s'.pios_servo_bank_next_update = s.pios_servo_bank_next_update ∧
      s'.pios_servo_enabled = s.pios_servo_enabled ∧
      s'.hw.pin = s.hw.pin ∧
      (∀ j, banks ≤ j → j < P.PIOS_SERVO_BANKS →
        s'.hw.tim (s.pios_servo_bank_timer j) = s.hw.tim (s.pios_servo_bank_timer j)) ∧
      s'.hw.tim 0 = s.hw.tim 0 := by
    intro s' hrun
    rcases hstate with hnone | ⟨cfg, hinit⟩
    · unfold PIOS_Servo_SetHz at hrun
      by_cases hbanks : banks ≤ P.PIOS_SERVO_BANKS
      · rw [if_neg (not_not.mpr hbanks), hnone] at hrun
        cases hrun
        exact ⟨hbanks, rfl, rfl, rfl, rfl, rfl, rfl, rfl, rfl, fun _ _ _ => rfl, rfl⟩
      · rw [if_pos hbanks] at hrun
        cases hrun
    · obtain ⟨hbanks, inv⟩ :=
        setHz_spec_of_ok P s cfg speeds clock banks hinit.1 hinit.2.2.2 s' hrun
      have hT := sameTables_of_tables inv.tables_eq
      refine ⟨hbanks, hT.cfg_eq, hT.mode_eq, hT.timer_eq, hT.pin_bank_eq, hT.max_pulse_eq,
        hT.next_update_eq, inv.enabled_eq, inv.pin_eq, ?_, ?_⟩
      · intro j hj hjB
        apply inv.untouched
        intro i hi hti e
        have := hinit.2.2.2 i (by omega) j hjB hti e
        omega
      · apply inv.untouched
        intro i _ hti e
        exact hti e
  -- the call returns when the count is in range and no rate read is zero
  have hok : banks ≤ P.PIOS_SERVO_BANKS →
      (∀ j, j < banks → s.pios_servo_bank_timer j ≠ 0 → speeds j ≠ 0) →
      ∃ s', PIOS_Servo_SetHz P s speeds clock banks = .ok s' := by
    intro hbanks hrates
    rcases hstate with hnone | ⟨cfg, hinit⟩
    · refine ⟨s, ?_⟩
      unfold PIOS_Servo_SetHz
      rw [if_neg (not_not.mpr hbanks), hnone]
    · obtain ⟨s', hrun, _⟩ := setHz_spec P s cfg speeds clock banks hinit.1 hinit.2.2.2
        hbanks hrates
      exact ⟨s', hrun⟩
  have herr : banks ≤ P.PIOS_SERVO_BANKS →
      ∀ e, PIOS_Servo_SetHz P s speeds clock banks = .error e → e = .div_by_zero := by
    intro hbanks e he
    unfold PIOS_Servo_SetHz at he
    rw [if_neg (not_not.mpr hbanks)] at he
    split at he
    · cases he
    · exact foldlM_error_of_step (sethz_bank P speeds clock) .div_by_zero
        (sethz_bank_error P speeds clock) _ _ e he
  refine ⟨⟨?_, ?_⟩, hframe, hok, ?_, ?_⟩
  · intro h
    by_contra hle
    have := herr (Nat.le_of_not_lt hle) _ h
    cases this
  · intro h
    unfold PIOS_Servo_SetHz
    rw [if_pos (by omega)]
  · intro hbanks e he
    refine ⟨herr hbanks e he, ?_⟩
    by_contra hno
    obtain ⟨s', hrun⟩ := hok hbanks (fun j hj htj hz => hno ⟨j, hj, htj, hz⟩)
    rw [hrun] at he
    cases he
  · intro speeds' clock' hagree
    unfold PIOS_Servo_SetHz
    by_cases hbanks : banks ≤ P.PIOS_SERVO_BANKS
    · rw [if_neg (not_not.mpr hbanks), if_neg (not_not.mpr hbanks)]
      split
      · rfl
      · apply foldlM_congr_mem
        intro x hx st
        have hxlt : x < banks := by
          rw [Nat.min_eq_left hbanks] at hx
          exact List.mem_range.mp hx
        exact sethz_bank_congr P speeds clock speeds' clock' x (hagree x hxlt).1
          (hagree x hxlt).2 st
    · rw [if_pos hbanks, if_pos hbanks]

/-- Witness of C13: 50 Hz for bank 0 only of the example driver; the call
returns and the timer of bank 1 keeps its registers. -/
theorem setHz_stays_within_bank_count_witness :
    board_valid example_board ∧
    Initialised example_board (example_driver 20000 0) (cfg_AABB TIM3 TIM5) ∧
    (PIOS_Servo_SetHz example_board (example_driver 20000 0) (fun _ => 50) (fun _ => 0) 1
        = .error .assert_failed ↔ example_board.PIOS_SERVO_BANKS < 1) ∧
    (∃ s', PIOS_Servo_SetHz example_board (example_driver 20000 0) (fun _ => 50) (fun _ => 0) 1
        = .ok s') ∧
    ∀ s', PIOS_Servo_SetHz example_board (example_driver 20000 0) (fun _ => 50) (fun _ => 0) 1
        = .ok s' →
      1 ≤ example_board.PIOS_SERVO_BANKS ∧
      s'.servo_cfg = (example_driver 20000 0).servo_cfg ∧
      s'.pios_servo_bank_mode = (example_driver 20000 0).pios_servo_bank_mode ∧
      s'.pios_servo_bank_timer = (example_driver 20000 0).pios_servo_bank_timer ∧
      s'.pios_servo_pin_bank = (example_driver 20000 0).pios_servo_pin_bank ∧
      s'.pios_servo_bank_max_pulse = (example_driver 20000 0).pios_servo_bank_max_pulse ∧
      s'.pios_servo_bank_next_update = (example_driver 20000 0).pios_servo_bank_next_update ∧
      s'.pios_servo_enabled = (example_driver 20000 0).pios_servo_enabled ∧
      s'.hw.pin = (example_driver 20000 0).hw.pin ∧
      (∀ j, 1 ≤ j → j < example_board.PIOS_SERVO_BANKS →
        s'.hw.tim ((example_driver 20000 0).pios_servo_bank_timer j)
          = (example_driver 20000 0).hw.tim ((example_driver 20000 0).pios_servo_bank_timer j)) ∧
      s'.hw.tim 0 = (example_driver 20000 0).hw.tim 0 :=
  ⟨by decide, by decide,
    (setHz_stays_within_bank_count example_board (example_driver 20000 0) (fun _ => 50)
      (fun _ => 0) 1 (by decide) (Or.inr ⟨cfg_AABB TIM3 TIM5, by decide⟩)).1,
    (setHz_stays_within_bank_count example_board (example_driver 20000 0) (fun _ => 50)
      (fun _ => 0) 1 (by decide) (Or.inr ⟨cfg_AABB TIM3 TIM5, by decide⟩)).2.2.1
      (by decide) (by decide),
    (setHz_stays_within_bank_count example_board (example_driver 20000 0) (fun _ => 50)
      (fun _ => 0) 1 (by decide) (Or.inr ⟨cfg_AABB TIM3 TIM5, by decide⟩)).2.1⟩

end PiosServo
